import Mathlib

/-!
# LadybugStream (src/mapper/ladybug/ladybugstream.cpp)

A shallow embedding of the stream container engine: the writer
(`openForWriting`, `writeImage`, `close`, rollover), the reader
(`openForReading`, `openForReadingInternal`, `readNextFrame`) and the seeker
(`seekToFrame`, `seekToTime`, `frameTime`).

Modelling conventions.

* Memory buffers and file contents are functions `Nat → Nat` from a byte
  index to a byte value, with the length carried separately.  Bytes of a file
  that were never written read as `0` (a hole left by seeking past the end).
* A file name `pgrFilename(baseName, index)` is the pair `(baseName, index)`;
  the disk maps such pairs to file contents.
* The host is little-endian, so the engine's own 4-byte fields are stored
  least significant byte first and `ntohl` swaps the four bytes of a word.
* Counters are unbounded integers; 32-bit arithmetic that the source performs
  on `uint32` values is reduced modulo `2^32` where it is performed.
* Operations that can run into undefined behaviour in C++ (division by a zero
  index increment, indexing outside an array or list, copying a frame header
  into a buffer that is too small) return `Option`, with `none` standing for
  undefined behaviour.  `openForReading` probes files in an unbounded loop and
  takes a fuel argument; `none` there means the fuel ran out.
* The declarations of `ladybug_pgr.h` and `ladybugstream.h` are not part of
  the source; what the code needs from them is collected in `Decls`.
-/

namespace Ladybug

set_option maxRecDepth 100000

/-! ## Bytes and 32-bit words -/

/-- Byte `k` of the little-endian (host order) image of a 32-bit value. -/
def le32 (v : Nat) : Nat → Nat := fun k => (v % 2 ^ 32) / 256 ^ k % 256

/-- Host-order (little-endian) load of the 4-byte word at `off`. -/
def get32 (m : Nat → Nat) (off : Nat) : Nat :=
  m off + 256 * m (off + 1) + 65536 * m (off + 2) + 16777216 * m (off + 3)

/-- Host-order (little-endian) store of a 32-bit value at `off`. -/
def put32 (m : Nat → Nat) (off : Nat) (v : Nat) : Nat → Nat :=
  fun i => if off ≤ i ∧ i < off + 4 then le32 v (i - off) else m i

/-- The function `big2little_struct`: `ntohl` on every 4-byte word of the first `size` bytes. -/
def big2little_struct (str : Nat → Nat) (size : Nat) : Nat → Nat :=
  fun i => if i / 4 * 4 < size then str (i / 4 * 4 + (3 - i % 4)) else str i

/-- A 32-bit word read as `int` (two's complement). -/
def toInt32 (v : Nat) : Int :=
  if v % 2 ^ 32 < 2 ^ 31 then ((v % 2 ^ 32 : Nat) : Int) else ((v % 2 ^ 32 : Nat) : Int) - 2 ^ 32

/-- The list of the first `n` bytes of a buffer. -/
def bytesOf (m : Nat → Nat) (n : Nat) : List Nat := (List.range n).map m

/-- A byte list seen as a buffer. -/
def ofList (l : List Nat) : Nat → Nat := fun i => l.getD i 0

/-! ## Declarations taken as parameters -/

/-- The 4-byte scalar fields of `LadybugStreamHeadInfo` that the code names. -/
inductive HeadField
  | ulLadybugStreamVersion | ulFrameRate | serialBase | serialHead | ulPaddingSize
  | dataFormat | resolution | stippledFormat | ulConfigrationDataSize
  | ulNumberOfImages | ulNumberOfKeyIndex | ulIncrement | ulStreamDataOffset
  | ulGPSDataOffset | ulGPSDataSize
  deriving DecidableEq, Repr

/-- What the code uses of the declarations that are not in the source:
struct sizes, field offsets, enum values, and the regular-expression match of
`parseBaseNameAndIndex`. -/
structure Decls where
  /-- The value `sizeof(LadybugStreamHeadInfo)`. -/
  sizeofHead : Nat
  /-- Offset of a scalar field inside `LadybugStreamHeadInfo`. -/
  off : HeadField → Nat
  /-- Offset of `ulOffsetTable` (512 words) inside `LadybugStreamHeadInfo`. -/
  offOffsetTable : Nat
  /-- The value `LADYBUG_DATAFORMAT_COLOR_SEP_SEQUENTIAL_JPEG`. -/
  colorSepSequentialJpeg : Nat
  /-- The value `LADYBUG_RESOLUTION_1024x768`. -/
  resolution1024x768 : Nat
  /-- The value `LADYBUG_BGGR`. -/
  bggr : Nat
  /-- The value `sizeof(LadybugImageHeader)`. -/
  sizeofImageHeader : Nat
  /-- Offset of `ulDataSize` inside `LadybugImageHeader`. -/
  offDataSize : Nat
  /-- The value `sizeof(LadybugImageInfo)`. -/
  sizeofImageInfo : Nat
  /-- Offset of `ulTimeSeconds` inside `LadybugImageInfo`. -/
  offTimeSeconds : Nat
  /-- Offset of `ulTimeMicroSeconds` inside `LadybugImageInfo`. -/
  offTimeMicroSeconds : Nat
  /-- The match of `(.+)-(\d{6}).pgr` in `parseBaseNameAndIndex`. -/
  parse : String → Option (String × Int)

/-- Two 4-byte fields at these offsets do not overlap. -/
def Apart (a b : Nat) : Prop := a + 4 ≤ b ∨ b + 4 ≤ a

/-- The declarations describe C structs that agree with the offsets that `close` patches:
fields are disjoint words inside the struct, the frame count sits at `0x88`, the key count at
`0x8c`, the offset table at `0x3f0`, enum values are 32-bit, and the frame header holds
`ulDataSize` in an aligned word. -/
structure Decls.WF (D : Decls) : Prop where
  apart : ∀ f g : HeadField, f ≠ g → Apart (D.off f) (D.off g)
  table : ∀ f : HeadField, D.off f + 4 ≤ D.offOffsetTable ∨ D.offOffsetTable + 2048 ≤ D.off f
  inside : ∀ f : HeadField, D.off f + 4 ≤ D.sizeofHead
  tableInside : D.offOffsetTable + 2048 ≤ D.sizeofHead
  numImages : D.off .ulNumberOfImages = 0x88
  numKeyIndex : D.off .ulNumberOfKeyIndex = 0x8c
  offsetTable : D.offOffsetTable = 0x3f0
  fmt32 : D.colorSepSequentialJpeg < 2 ^ 32
  res32 : D.resolution1024x768 < 2 ^ 32
  bggr32 : D.bggr < 2 ^ 32
  dataSizeInside : D.offDataSize + 4 ≤ D.sizeofImageHeader
  dataSizeAligned : D.offDataSize % 4 = 0

/-! ## State -/

/-- Contents of a file on disk. -/
structure FileData where
  size : Nat
  bytes : Nat → Nat

/-- A file name: the pair that `pgrFilename(baseName, index)` formats. -/
abbrev FileName := String × Int

/-- The function `pgrFilename`. -/
def pgrFilename (baseName : String) (index : Int) : FileName := (baseName, index)

/-- The enum `LadybugStream::Mode`. -/
inductive Mode
  | Writing | Reading
  deriving DecidableEq, Repr

/-- The `QFile` member: its name, whether it is open, and the position. -/
structure QFile where
  fileName : FileName
  isOpen : Bool
  pos : Nat

/-- The struct `LadybugInfo`. -/
structure LadybugInfo where
  serialBase : Nat
  serialHead : Nat
  calibration : List Nat

/-- A frame buffer: `frameData()` and `frameBytes()` of `LadybugImage`. -/
structure LadybugImage where
  frameData : Nat → Nat
  frameBytes : Nat

/-- The engine together with the disk it works on. -/
structure LadybugStream where
  /-- Files on disk. -/
  disk : FileName → Option FileData
  /-- Whether a file of this name can be created or truncated for writing. -/
  creatable : FileName → Bool
  mFile : QFile
  mBaseName : String
  mFileIndex : Int
  mMode : Mode
  mCameraInfo : LadybugInfo
  mTotalNumFrames : Nat
  mNumMegabytes : ℚ
  mNumFrames : Nat
  mIndexIncrement : Nat
  mOffsetCount : Int
  mOffsets : Nat → Nat
  mDataOffset : Nat
  mCurrentFrame : Int
  mFirstFrame : Int
  mFirstFileIndex : Int
  mTotalNumFiles : Nat
  mFirstFrameList : List Int

/-! ## File primitives -/

/-- The call `mFile.setFileName(name)`. -/
def setFileName (s : LadybugStream) (name : FileName) : LadybugStream :=
  { s with mFile := { s.mFile with fileName := name } }

/-- The call `mFile.open(QIODevice::WriteOnly)`: creates or truncates the file. -/
def fileOpenWrite (s : LadybugStream) : Bool × LadybugStream :=
  if s.creatable s.mFile.fileName then
    (true, { s with
      disk := Function.update s.disk s.mFile.fileName (some ⟨0, fun _ => 0⟩)
      mFile := { s.mFile with isOpen := true, pos := 0 } })
  else (false, s)

/-- The call `mFile.open(QIODevice::ReadOnly)`: fails when the file does not exist. -/
def fileOpenRead (s : LadybugStream) : Bool × LadybugStream :=
  match s.disk s.mFile.fileName with
  | some _ => (true, { s with mFile := { s.mFile with isOpen := true, pos := 0 } })
  | none => (false, s)

/-- The call `mFile.close()`. -/
def fileClose (s : LadybugStream) : LadybugStream :=
  { s with mFile := { s.mFile with isOpen := false, pos := 0 } }

/-- The call `mFile.seek(p)`: fails on a closed file or a negative position. -/
def fileSeek (s : LadybugStream) (p : Int) : Bool × LadybugStream :=
  if s.mFile.isOpen ∧ 0 ≤ p then (true, { s with mFile := { s.mFile with pos := p.toNat } })
  else (false, s)

/-- Contents of the file after `n` bytes of `src` are stored at `pos`. -/
def blit (f : FileData) (pos : Nat) (src : Nat → Nat) (n : Nat) : FileData :=
  { size := if n = 0 then f.size else max f.size (pos + n)
    bytes := fun i => if pos ≤ i ∧ i < pos + n then src (i - pos) else f.bytes i }

/-- The call `mFile.write(src, n)`. -/
def fileWrite (s : LadybugStream) (src : Nat → Nat) (n : Nat) : LadybugStream :=
  match s.mFile.isOpen, s.disk s.mFile.fileName with
  | true, some f =>
    { s with
      disk := Function.update s.disk s.mFile.fileName (some (blit f s.mFile.pos src n))
      mFile := { s.mFile with pos := s.mFile.pos + n } }
  | _, _ => s

/-- The call `mFile.read(buf, n)`: the number of bytes read (`-1` on a closed file), the
destination buffer, and the advanced state. -/
def fileRead (s : LadybugStream) (n : Nat) : Int × (Nat → Nat) × LadybugStream :=
  match s.mFile.isOpen, s.disk s.mFile.fileName with
  | true, some f =>
    let k := min n (f.size - s.mFile.pos)
    ((k : Int), (fun i => if i < k then f.bytes (s.mFile.pos + i) else 0),
      { s with mFile := { s.mFile with pos := s.mFile.pos + k } })
  | _, _ => (-1, (fun _ => 0), s)

/-- The call `mFile.pos()`. -/
def filePos (s : LadybugStream) : Nat := s.mFile.pos

/-! ## Writer -/

/-- The macro `STREAM_SIGNATURE`: the ASCII bytes of "PGRLADYBUGSTREAM". -/
def STREAM_SIGNATURE : List Nat :=
  [80, 71, 82, 76, 65, 68, 89, 66, 85, 71, 83, 84, 82, 69, 65, 77]

/-- The macro `STREAM_VERSION`. -/
def STREAM_VERSION : Nat := 4

/-- The macro `IDX_INCREMENT`. -/
def IDX_INCREMENT : Nat := 50

/-- The macro `LIMIT_2GB`. -/
def LIMIT_2GB : Nat := 0x7fffffff

/-- The `uint32 dataOffset` of `openForWritingInternal`: the raw offset, then
`(dataOffset & ~0x1ff) + 0x200`. -/
def dataOffsetOf (D : Decls) (calibrationCount : Nat) : Nat :=
  let dataOffset := (16 + D.sizeofHead + calibrationCount) % 2 ^ 32
  ((dataOffset &&& 0xfffffe00) + 0x200) % 2 ^ 32

/-- The local `header` of `openForWritingInternal` after all its assignments. -/
def initHeader (D : Decls) (cameraInfo : LadybugInfo) (dataOffset : Nat) : Nat → Nat :=
  let header : Nat → Nat := fun _ => 0
  let header := put32 header (D.off .ulLadybugStreamVersion) STREAM_VERSION
  let header := put32 header (D.off .ulFrameRate) 15
  let header := put32 header (D.off .serialBase) cameraInfo.serialBase
  let header := put32 header (D.off .serialHead) cameraInfo.serialHead
  let header := put32 header (D.off .ulPaddingSize) 0
  let header := put32 header (D.off .dataFormat) D.colorSepSequentialJpeg
  let header := put32 header (D.off .resolution) D.resolution1024x768
  let header := put32 header (D.off .stippledFormat) D.bggr
  let header := put32 header (D.off .ulConfigrationDataSize) cameraInfo.calibration.length
  let header := put32 header (D.off .ulNumberOfImages) 0
  let header := put32 header (D.off .ulNumberOfKeyIndex) 1
  let header := put32 header (D.off .ulIncrement) IDX_INCREMENT
  let header := put32 header (D.offOffsetTable + 4 * 511) dataOffset
  let header := put32 header (D.off .ulStreamDataOffset) dataOffset
  let header := put32 header (D.off .ulGPSDataOffset) 0
  let header := put32 header (D.off .ulGPSDataSize) 0
  header

/-- The method `LadybugStream::openForWritingInternal`. -/
def openForWritingInternal (D : Decls) (s : LadybugStream) (baseName : String)
    (fileIndex : Int) : Bool × LadybugStream :=
  if s.mFile.isOpen then (false, s)
  else
    let s := setFileName s (pgrFilename baseName fileIndex)
    match fileOpenWrite s with
    | (false, s) => (false, s)
    | (true, s) =>
      let s := { s with mBaseName := baseName, mFileIndex := fileIndex, mMode := Mode.Writing }
      let s := fileWrite s (ofList STREAM_SIGNATURE) 16
      let dataOffset := dataOffsetOf D s.mCameraInfo.calibration.length
      let s := { s with mIndexIncrement := IDX_INCREMENT, mOffsetCount := 0 }
      let s := fileWrite s (initHeader D s.mCameraInfo dataOffset) D.sizeofHead
      let s := fileWrite s (ofList s.mCameraInfo.calibration) s.mCameraInfo.calibration.length
      let s := (fileSeek s dataOffset).2
      (true, { s with mNumFrames := 0 })

/-- The method `LadybugStream::openForWriting`. -/
def openForWriting (D : Decls) (s : LadybugStream) (baseName : String)
    (cameraInfo : LadybugInfo) (fileIndex : Int) : Bool × LadybugStream :=
  let s := { s with mTotalNumFrames := 0, mNumMegabytes := 0, mCameraInfo := cameraInfo }
  openForWritingInternal D s baseName fileIndex

/-- One round of the "save index" loop of `close`. -/
def saveIndexStep (s : LadybugStream) (i : Nat) : LadybugStream :=
  let s := (fileSeek s (16 + 0xbec - ((i : Int) * 4))).2
  fileWrite s (le32 (s.mOffsets i)) 4

/-- The method `LadybugStream::close`. -/
def close (s : LadybugStream) : Bool × LadybugStream :=
  if !s.mFile.isOpen then (false, s)
  else
    let s :=
      if s.mMode = Mode.Writing then
        let s := (fileSeek s (16 + 0x88)).2
        let s := fileWrite s (le32 s.mNumFrames) 4
        let s := fileWrite s (le32 (s.mOffsetCount % 2 ^ 32).toNat) 4
        (List.range s.mOffsetCount.toNat).foldl saveIndexStep s
      else s
    (true, fileClose s)

/-- The method `LadybugStream::startNextFile`. -/
def startNextFile (D : Decls) (s : LadybugStream) : Bool × LadybugStream :=
  match close s with
  | (false, s) => (false, s)
  | (true, s) => openForWritingInternal D s s.mBaseName (s.mFileIndex + 1)

/-- The index bookkeeping at the head of `writeImage`. -/
def recordIndex (s : LadybugStream) : LadybugStream :=
  if s.mNumFrames % s.mIndexIncrement = 0 then
    let key := s.mNumFrames / s.mIndexIncrement
    if key < 512 then
      { s with
        mOffsets := Function.update s.mOffsets key (filePos s % 2 ^ 32)
        mOffsetCount := (key : Int) + 1 }
    else s
  else s

/-- The method `LadybugStream::writeImage`.  `sync()` has no effect on the model. -/
def writeImage (D : Decls) (s : LadybugStream) (image : LadybugImage) :
    Option (Bool × LadybugStream) :=
  if !s.mFile.isOpen || s.mMode ≠ Mode.Writing then some (false, s)
  else if s.mIndexIncrement = 0 then none
  else
    let s := recordIndex s
    let r := if filePos s + image.frameBytes ≥ LIMIT_2GB then startNextFile D s else (true, s)
    match r with
    | (false, s) => some (false, s)
    | (true, s) =>
      let s := fileWrite s image.frameData image.frameBytes
      some (true, { s with
        mNumFrames := s.mNumFrames + 1
        mTotalNumFrames := s.mTotalNumFrames + 1
        mNumMegabytes := s.mNumMegabytes + (image.frameBytes : ℚ) / (1024 * 1024) })

/-- The method `LadybugStream::megabytesWritten`. -/
def megabytesWritten (s : LadybugStream) : ℚ := s.mNumMegabytes

/-- The method `LadybugStream::framesCount`. -/
def framesCount (s : LadybugStream) : Nat := s.mTotalNumFrames

/-- The method `LadybugStream::isOpen`. -/
def isOpen (s : LadybugStream) : Bool := s.mFile.isOpen

/-- The method `LadybugStream::mode`. -/
def mode (s : LadybugStream) : Mode := s.mMode

/-! ## Reader -/

/-- The table reversal loop of `openForReadingInternal`: rounds `i = 0 .. 127`. -/
def swapStep (m : Nat → Nat) (i : Nat) : Nat → Nat :=
  let tmpOffset := m i
  let m := Function.update m i (m (511 - i))
  Function.update m (511 - i) tmpOffset

/-- The `memcpy` of the header table into `mOffsets` followed by the reversal loop. -/
def loadOffsets (D : Decls) (header : Nat → Nat) (old : Nat → Nat) : Nat → Nat :=
  let m : Nat → Nat := fun i => if i < 512 then get32 header (D.offOffsetTable + 4 * i) else old i
  (List.range 128).foldl swapStep m

/-- The method `LadybugStream::openForReadingInternal`. -/
def openForReadingInternal (D : Decls) (s : LadybugStream) (fileIndex : Int)
    (firstFrame : Int) : Bool × LadybugStream :=
  if s.mFile.isOpen then (false, s)
  else
    let s := setFileName s (pgrFilename s.mBaseName fileIndex)
    match fileOpenRead s with
    | (false, s) => (false, s)
    | (true, s) =>
      let s := { s with mFileIndex := fileIndex, mMode := Mode.Reading }
      match fileRead s 16 with
      | (n, signature, s) =>
        if bytesOf signature n.toNat ≠ STREAM_SIGNATURE then (false, fileClose s)
        else
          match fileRead s D.sizeofHead with
          | (n, header, s) =>
            if n ≠ (D.sizeofHead : Int) then (false, fileClose s)
            else if get32 header (D.off .dataFormat) ≠ D.colorSepSequentialJpeg
                ∨ get32 header (D.off .resolution) ≠ D.resolution1024x768
                ∨ get32 header (D.off .stippledFormat) ≠ D.bggr then (false, fileClose s)
            else
              let s := { s with
                mNumFrames := get32 header (D.off .ulNumberOfImages)
                mDataOffset := get32 header (D.off .ulStreamDataOffset) }
              let s := { s with
                mOffsetCount := toInt32 (get32 header (D.off .ulNumberOfKeyIndex))
                mIndexIncrement := get32 header (D.off .ulIncrement)
                mOffsets := loadOffsets D header s.mOffsets }
              let s := (fileSeek s s.mDataOffset).2
              (true, { s with mCurrentFrame := firstFrame, mFirstFrame := firstFrame })

/-- The probing loop of `openForReading`; `none` when the fuel runs out. -/
def probe (D : Decls) : Nat → LadybugStream → Int → Option (LadybugStream × Int)
  | 0, _, _ => none
  | fuel + 1, s, fileIndex =>
    match openForReadingInternal D s fileIndex s.mTotalNumFrames with
    | (false, s) => some (s, fileIndex)
    | (true, s) =>
      let s := { s with mFirstFrameList := s.mFirstFrameList ++ [(s.mTotalNumFrames : Int)] }
      let s := { s with mTotalNumFrames := s.mTotalNumFrames + s.mNumFrames }
      let s := { s with mTotalNumFiles := s.mTotalNumFiles + 1 }
      let s := (close s).2
      probe D fuel s (fileIndex + 1)

/-- The method `LadybugStream::openForReading`; `none` when the fuel runs out. -/
def openForReading (D : Decls) (fuel : Nat) (s : LadybugStream) (baseName : String)
    (fileIndex : Int) : Option (Bool × LadybugStream) :=
  if s.mFile.isOpen then some (false, s)
  else
    let resolved : Option (String × Int) :=
      if (s.disk (pgrFilename baseName fileIndex)).isSome then some (baseName, fileIndex)
      else
        match D.parse baseName with
        | none => none
        | some (outBaseName, outFileIndex) =>
          if (s.disk (pgrFilename outBaseName outFileIndex)).isSome then
            some (outBaseName, outFileIndex)
          else none
    match resolved with
    | none => some (false, s)
    | some (baseName, fileIndex) =>
      let s := { s with
        mBaseName := baseName, mFirstFileIndex := fileIndex
        mTotalNumFrames := 0, mTotalNumFiles := 0, mFirstFrameList := [] }
      match probe D fuel s fileIndex with
      | none => none
      | some (s, fileIndex) =>
        let s := if fileIndex ≠ s.mFirstFileIndex then (openForReadingInternal D s s.mFirstFileIndex 0).2
                 else s
        some (decide (s.mTotalNumFiles ≠ 0), s)

/-- The method `LadybugStream::currentFrame`: `mCurrentFrame - 1` converted to the `ulong`
result (64 bits), so the value at cursor 0 is `2^64 - 1`. -/
def currentFrame (s : LadybugStream) : Nat := ((s.mCurrentFrame - 1) % 2 ^ 64).toNat

/-! ## Seeker -/

/-- The scan `while (mFirstFrameList.count() > i && mFirstFrameList[i] <= frameId) i++`,
started at index `i` with the list entries from `i` on. -/
def scanFirstFrames : List Int → Int → Nat → Nat
  | [], _, i => i
  | x :: rest, frameId, i => if x ≤ frameId then scanFirstFrames rest frameId (i + 1) else i

/-- The loop `while (frameId > 0)` of `seekToFrame`, for `frameId` remaining rounds. -/
def skipFrames (D : Decls) : Nat → LadybugStream → Bool × LadybugStream
  | 0, s => (true, s)
  | frameId + 1, s =>
    match fileRead s D.sizeofImageHeader with
    | (n, header, s) =>
      if n ≠ (D.sizeofImageHeader : Int) then
        let s := (fileSeek s s.mDataOffset).2
        (false, { s with mCurrentFrame := 0 })
      else
        let header := big2little_struct header D.sizeofImageHeader
        match fileSeek s ((filePos s : Int) + get32 header D.offDataSize - D.sizeofImageHeader) with
        | (false, s) =>
          let s := (fileSeek s s.mDataOffset).2
          (false, { s with mCurrentFrame := 0 })
        | (true, s) => skipFrames D frameId s

/-- The method `LadybugStream::seekToFrame`.  In `frameId / mIndexIncrement` the file-local
frame number is never negative, so the rounding convention of the division plays no role. -/
def seekToFrame (D : Decls) (s : LadybugStream) (frameId : Int) :
    Option (Bool × LadybugStream) :=
  if !s.mFile.isOpen || s.mMode ≠ Mode.Reading then some (false, s)
  else if frameId < 0 ∨ frameId ≥ (s.mTotalNumFrames : Int) then some (false, s)
  else
    -- 1. check whether we're in correct file
    let r : Option (Bool × LadybugStream) :=
      if frameId < s.mFirstFrame ∨ frameId ≥ s.mFirstFrame + s.mNumFrames then
        let i := scanFirstFrames s.mFirstFrameList frameId 0
        if i = 0 then none
        else
          let fileIndex := s.mFirstFileIndex + (i : Int) - 1
          let firstFrame := s.mFirstFrameList.getD (i - 1) 0
          let s := (close s).2
          some (openForReadingInternal D s fileIndex firstFrame)
      else some (true, s)
    match r with
    | none => none
    | some (false, s) => some (false, s)
    | some (true, s) =>
      -- 2. set position in the file
      let s := { s with mCurrentFrame := frameId }
      let frameId := frameId - s.mFirstFrame
      let offset := s.mDataOffset
      if s.mIndexIncrement = 0 then none
      else
        let offsetIndex : Int := frameId / (s.mIndexIncrement : Int)
        let offsetIndex := if offsetIndex ≥ s.mOffsetCount then s.mOffsetCount - 1 else offsetIndex
        if offsetIndex > 0 ∧ offsetIndex ≥ 512 then none
        else
          let offset := if offsetIndex > 0 then s.mOffsets offsetIndex.toNat else offset
          let frameId := if offsetIndex > 0 then frameId - (s.mIndexIncrement : Int) * offsetIndex
                         else frameId
          let s := (fileSeek s offset).2
          some (skipFrames D frameId.toNat s)

/-- The part of `readNextFrame` from `ulong pos = mFile.pos()` on: reads one frame record at
the current position.  The result carries the `image` argument, which is replaced only on
success. -/
def readRecord (D : Decls) (s : LadybugStream) (image : LadybugImage) :
    Option (Bool × LadybugImage × LadybugStream) :=
  match fileRead s D.sizeofImageHeader with
  | (n, headerOrig, s) =>
    if n ≠ (D.sizeofImageHeader : Int) then some (false, image, s)
    else
      match fileRead s D.sizeofImageInfo with
      | (n, infoOrig, s) =>
        if n ≠ (D.sizeofImageInfo : Int) then some (false, image, s)
        else
          let header := big2little_struct headerOrig D.sizeofImageHeader
          let ulDataSize := get32 header D.offDataSize
          if ulDataSize < D.sizeofImageHeader + D.sizeofImageInfo then none
          else
            let data : Nat → Nat := fun i =>
              if i < D.sizeofImageHeader then headerOrig i
              else if i < D.sizeofImageHeader + D.sizeofImageInfo then
                infoOrig (i - D.sizeofImageHeader)
              else 0
            let moreSize := (ulDataSize - D.sizeofImageHeader - D.sizeofImageInfo) % 2 ^ 32
            match fileRead s moreSize with
            | (n, more, s) =>
              if n ≠ (moreSize : Int) then some (false, image, s)
              else
                let data : Nat → Nat := fun i =>
                  if D.sizeofImageHeader + D.sizeofImageInfo ≤ i then
                    more (i - (D.sizeofImageHeader + D.sizeofImageInfo))
                  else data i
                some (true, ⟨data, ulDataSize⟩,
                  { s with mCurrentFrame := s.mCurrentFrame + 1 })

/-- The method `LadybugStream::readNextFrame`. -/
def readNextFrame (D : Decls) (s : LadybugStream) (image : LadybugImage) :
    Option (Bool × LadybugImage × LadybugStream) :=
  if !s.mFile.isOpen || s.mMode ≠ Mode.Reading then some (false, image, s)
  else if s.mCurrentFrame ≥ (s.mTotalNumFrames : Int) then some (false, image, s)
  else
    let r : Option LadybugStream :=
      if s.mCurrentFrame < s.mFirstFrame ∨ s.mCurrentFrame ≥ s.mFirstFrame + s.mNumFrames then
        (seekToFrame D s s.mCurrentFrame).map (fun p => p.2)
      else some s
    match r with
    | none => none
    | some s => readRecord D s image

/-- The method `LadybugStream::seekToTime`: the product is taken in `unsigned int`. -/
def seekToTime (D : Decls) (s : LadybugStream) (miliseconds : Nat) :
    Option (Bool × LadybugStream) :=
  let frameId : Int := ((miliseconds * 15 % 2 ^ 32 / 1000 : Nat) : Int)
  seekToFrame D s frameId

/-- The method `LadybugStream::frameTime`. -/
def frameTime (D : Decls) (s : LadybugStream) (frameId : Int) : Option (Nat × LadybugStream) :=
  let r : Option LadybugStream :=
    if frameId ≠ s.mCurrentFrame then (seekToFrame D s frameId).map (fun p => p.2) else some s
  match r with
  | none => none
  | some s =>
    let framePos := filePos s
    match fileRead s D.sizeofImageHeader with
    | (n, _header, s) =>
      if n ≠ (D.sizeofImageHeader : Int) then some (0, s)
      else
        match fileRead s D.sizeofImageInfo with
        | (n, info, s) =>
          if n ≠ (D.sizeofImageInfo : Int) then some (0, s)
          else
            let info := big2little_struct info D.sizeofImageInfo
            let imgMsecs := (get32 info D.offTimeSeconds * 1000
              + get32 info D.offTimeMicroSeconds / 1000) % 2 ^ 32
            let s := (fileSeek s framePos).2
            some (imgMsecs, s)

/-! ## Vocabulary of the properties -/

/-- Big-endian value of the 4-byte word at `off`. -/
def be32 (m : Nat → Nat) (off : Nat) : Nat :=
  16777216 * m off + 65536 * m (off + 1) + 256 * m (off + 2) + m (off + 3)

/-- The header struct as `openForReadingInternal` reads it from a file. -/
def headerOf (D : Decls) (f : FileData) : Nat → Nat :=
  fun i => if i < D.sizeofHead then f.bytes (16 + i) else 0

/-- The file carries the signature, a full header and the one supported profile. -/
def Supported (D : Decls) (f : FileData) : Prop :=
  bytesOf f.bytes (min 16 f.size) = STREAM_SIGNATURE ∧ 16 + D.sizeofHead ≤ f.size
    ∧ get32 (headerOf D f) (D.off .dataFormat) = D.colorSepSequentialJpeg
    ∧ get32 (headerOf D f) (D.off .resolution) = D.resolution1024x768
    ∧ get32 (headerOf D f) (D.off .stippledFormat) = D.bggr

/-- The file has a wrong signature, a short header, or a tag outside the supported profile. -/
def Unsupported (D : Decls) (f : FileData) : Prop :=
  bytesOf f.bytes (min 16 f.size) ≠ STREAM_SIGNATURE ∨ f.size < 16 + D.sizeofHead
    ∨ get32 (headerOf D f) (D.off .dataFormat) ≠ D.colorSepSequentialJpeg
    ∨ get32 (headerOf D f) (D.off .resolution) ≠ D.resolution1024x768
    ∨ get32 (headerOf D f) (D.off .stippledFormat) ≠ D.bggr

/-- The engine after a successful `openForReadingInternal` on the file `f`. -/
def openedFor (D : Decls) (s : LadybugStream) (fileIndex firstFrame : Int) (f : FileData) :
    LadybugStream :=
  { s with
    mFile := ⟨pgrFilename s.mBaseName fileIndex, true,
      get32 (headerOf D f) (D.off .ulStreamDataOffset)⟩
    mFileIndex := fileIndex
    mMode := Mode.Reading
    mNumFrames := get32 (headerOf D f) (D.off .ulNumberOfImages)
    mDataOffset := get32 (headerOf D f) (D.off .ulStreamDataOffset)
    mOffsetCount := toInt32 (get32 (headerOf D f) (D.off .ulNumberOfKeyIndex))
    mIndexIncrement := get32 (headerOf D f) (D.off .ulIncrement)
    mOffsets := loadOffsets D (headerOf D f) s.mOffsets
    mCurrentFrame := firstFrame
    mFirstFrame := firstFrame }

/-- The engine after `openForReadingInternal` rejected an existing file. -/
def rejectedFor (s : LadybugStream) (fileIndex : Int) : LadybugStream :=
  { s with
    mFile := ⟨pgrFilename s.mBaseName fileIndex, false, 0⟩
    mFileIndex := fileIndex
    mMode := Mode.Reading }

/-- Successive `writeImage` calls, each of which must succeed. -/
def writeAll (D : Decls) : List LadybugImage → LadybugStream → Option LadybugStream
  | [], s => some s
  | image :: rest, s =>
    match writeImage D s image with
    | some (true, s) => writeAll D rest s
    | _ => none

/-- One round of the "save index" loop of `close`, seen on the file contents. -/
def patchIndex (offsets : Nat → Nat) (f : FileData) (i : Nat) : FileData :=
  blit f (16 + 0xbec - 4 * i) (le32 (offsets i)) 4

/-- The file contents after the header patches of `close` in writing mode. -/
def patchHeader (f : FileData) (numFrames : Nat) (offsetCount : Int) (offsets : Nat → Nat) :
    FileData :=
  let f := blit f (16 + 0x88) (le32 numFrames) 4
  let f := blit f (16 + 0x8c) (le32 (offsetCount % 2 ^ 32).toNat) 4
  (List.range offsetCount.toNat).foldl (patchIndex offsets) f

/-- The engine after `close` in writing mode. -/
def closedWriting (s : LadybugStream) (f : FileData) : LadybugStream :=
  { s with
    disk := Function.update s.disk s.mFile.fileName
      (some (patchHeader f s.mNumFrames s.mOffsetCount s.mOffsets))
    mFile := { s.mFile with isOpen := false, pos := 0 } }

/-- The byte at file offset `off` belongs to a field that `close` patches when `offsetCount`
keys are populated: the frame count, the key count, or the table slot of a populated key. -/
def Patched (offsetCount : Nat) (off : Nat) : Prop :=
  (16 + 0x88 ≤ off ∧ off < 16 + 0x88 + 4) ∨ (16 + 0x8c ≤ off ∧ off < 16 + 0x8c + 4)
    ∨ ∃ i, i < offsetCount ∧ 16 + 0xbec - 4 * i ≤ off ∧ off < 16 + 0xbec - 4 * i + 4

/-- The file that `openForWritingInternal` leaves on disk: signature, header, calibration. -/
def freshFile (D : Decls) (cameraInfo : LadybugInfo) : FileData :=
  let f : FileData := ⟨0, fun _ => 0⟩
  let f := blit f 0 (ofList STREAM_SIGNATURE) 16
  let f := blit f 16 (initHeader D cameraInfo (dataOffsetOf D cameraInfo.calibration.length))
    D.sizeofHead
  blit f (16 + D.sizeofHead) (ofList cameraInfo.calibration) cameraInfo.calibration.length

/-- The engine after a successful `openForWritingInternal`. -/
def openedWriting (D : Decls) (s : LadybugStream) (baseName : String) (fileIndex : Int) :
    LadybugStream :=
  { s with
    disk := Function.update s.disk (pgrFilename baseName fileIndex)
      (some (freshFile D s.mCameraInfo))
    mFile := ⟨pgrFilename baseName fileIndex, true,
      dataOffsetOf D s.mCameraInfo.calibration.length⟩
    mBaseName := baseName
    mFileIndex := fileIndex
    mMode := Mode.Writing
    mIndexIncrement := IDX_INCREMENT
    mOffsetCount := 0
    mNumFrames := 0 }

/-- The engine after a `writeImage` that stays in the current file `f`. -/
def wroteInPlace (s : LadybugStream) (f : FileData) (image : LadybugImage) : LadybugStream :=
  { recordIndex s with
    disk := Function.update s.disk s.mFile.fileName
      (some (blit f s.mFile.pos image.frameData image.frameBytes))
    mFile := { s.mFile with pos := s.mFile.pos + image.frameBytes }
    mNumFrames := s.mNumFrames + 1
    mTotalNumFrames := s.mTotalNumFrames + 1
    mNumMegabytes := s.mNumMegabytes + (image.frameBytes : ℚ) / (1024 * 1024) }

/-- The engine after a `writeImage` that rolls over from the file `f` to the next file. -/
def wroteRolled (D : Decls) (s : LadybugStream) (f : FileData) (image : LadybugImage) :
    LadybugStream :=
  let t := openedWriting D (closedWriting (recordIndex s) f) s.mBaseName (s.mFileIndex + 1)
  { t with
    disk := Function.update t.disk t.mFile.fileName
      (some (blit (freshFile D s.mCameraInfo) t.mFile.pos image.frameData image.frameBytes))
    mFile := { t.mFile with pos := t.mFile.pos + image.frameBytes }
    mNumFrames := 1
    mTotalNumFrames := s.mTotalNumFrames + 1
    mNumMegabytes := s.mNumMegabytes + (image.frameBytes : ℚ) / (1024 * 1024) }

/-- The engine `s` is reached from `s0` by a successful `openForWriting` followed by successful
`writeImage` calls for `images`, in order. -/
inductive WriterRun (D : Decls) (s0 : LadybugStream) (baseName : String)
    (cameraInfo : LadybugInfo) (fileIndex : Int) : List LadybugImage → LadybugStream → Prop
  | opened (s : LadybugStream) :
      openForWriting D s0 baseName cameraInfo fileIndex = (true, s) →
      WriterRun D s0 baseName cameraInfo fileIndex [] s
  | wrote (images : List LadybugImage) (s : LadybugStream) (image : LadybugImage)
      (s2 : LadybugStream) :
      WriterRun D s0 baseName cameraInfo fileIndex images s →
      writeImage D s image = some (true, s2) →
      WriterRun D s0 baseName cameraInfo fileIndex (images ++ [image]) s2

/-- What every engine in the middle of a recording satisfies. -/
structure WInv (cameraInfo : LadybugInfo) (baseName : String) (s : LadybugStream) : Prop where
  isOpen : s.mFile.isOpen = true
  mode : s.mMode = Mode.Writing
  onDisk : ∃ f, s.disk s.mFile.fileName = some f
  increment : s.mIndexIncrement = IDX_INCREMENT
  count0 : 0 ≤ s.mOffsetCount
  count512 : s.mOffsetCount ≤ 512
  camera : s.mCameraInfo = cameraInfo
  name : s.mFile.fileName = pgrFilename baseName s.mFileIndex
  base : s.mBaseName = baseName

/-- The engine after one successful `writeImage`, and the engine itself otherwise. -/
def afterWrite (D : Decls) (s : LadybugStream) (image : LadybugImage) : LadybugStream :=
  match writeImage D s image with
  | some (true, t) => t
  | _ => s

/-- The frame count and the key count in the header of a file. -/
def headerCounts (f : FileData) : Nat × Nat :=
  (get32 f.bytes (16 + 0x88), get32 f.bytes (16 + 0x8c))

/-- Two frame buffers have the same length and the same bytes. -/
def SameBytes (a b : LadybugImage) : Prop :=
  a.frameBytes = b.frameBytes ∧ ∀ i, i < a.frameBytes → a.frameData i = b.frameData i

/-- The file `f` holds the frame record `image` at offset `p`: all its bytes are there, its
big-endian length field equals its length, and it is long enough for header and info. -/
def RecordAt (D : Decls) (f : FileData) (p : Nat) (image : LadybugImage) : Prop :=
  p + image.frameBytes ≤ f.size
    ∧ (∀ i, i < image.frameBytes → f.bytes (p + i) = image.frameData i)
    ∧ be32 image.frameData D.offDataSize = image.frameBytes
    ∧ D.sizeofImageHeader + D.sizeofImageInfo ≤ image.frameBytes
    ∧ image.frameBytes < 2 ^ 32

/-- The buffer that `readNextFrame` returns for a record of `n` bytes at offset `p` of `f`. -/
def frameAt (D : Decls) (f : FileData) (p n : Nat) : LadybugImage :=
  ⟨fun i =>
    if D.sizeofImageHeader + D.sizeofImageInfo ≤ i then
      (if i - (D.sizeofImageHeader + D.sizeofImageInfo)
          < (n - D.sizeofImageHeader - D.sizeofImageInfo) % 2 ^ 32 then
        f.bytes (p + D.sizeofImageHeader + D.sizeofImageInfo
          + (i - (D.sizeofImageHeader + D.sizeofImageInfo)))
      else 0)
    else if i < D.sizeofImageHeader then
      (if i < D.sizeofImageHeader then f.bytes (p + i) else 0)
    else if i < D.sizeofImageHeader + D.sizeofImageInfo then
      (if i - D.sizeofImageHeader < D.sizeofImageInfo then
        f.bytes (p + D.sizeofImageHeader + (i - D.sizeofImageHeader))
      else 0)
    else 0, n⟩

/-- The engine after `readNextFrame` has read a record of `n` bytes from the open file. -/
def readState (s : LadybugStream) (n : Nat) : LadybugStream :=
  { s with
    mFile := { s.mFile with pos := s.mFile.pos + n }
    mCurrentFrame := s.mCurrentFrame + 1 }

/-- The list of first global frame numbers for files with the given frame counts, starting
at `start`. -/
def firstFramesFrom (start : Int) : List Nat → List Int
  | [] => []
  | n :: rest => start :: firstFramesFrom (start + n) rest

instance (D : Decls) (f : FileData) : Decidable (Supported D f) := by
  unfold Supported
  infer_instance

instance (D : Decls) (f : FileData) (p : Nat) (image : LadybugImage) :
    Decidable (RecordAt D f p image) := by
  unfold RecordAt
  infer_instance

/-- The file contents after the frames of `images` are stored one after the other from
offset `p` on. -/
def blitFrames (f : FileData) (p : Nat) : List LadybugImage → FileData
  | [] => f
  | image :: rest =>
    blitFrames (blit f p image.frameData image.frameBytes) (p + image.frameBytes) rest

/-- The sum of the byte lengths of the frames. -/
def totalBytes (images : List LadybugImage) : Nat := (images.map (fun im => im.frameBytes)).sum

/-- The file `f` holds the records `images` one after the other from offset `p` on. -/
def FramesAt (D : Decls) (f : FileData) : Nat → List LadybugImage → Prop
  | _, [] => True
  | p, image :: rest => RecordAt D f p image ∧ FramesAt D f (p + image.frameBytes) rest

/-- A frame record as the writer expects it: the big-endian length field equals the byte
length, which covers at least the frame header and the frame info. -/
def WellFramed (D : Decls) (image : LadybugImage) : Prop :=
  be32 image.frameData D.offDataSize = image.frameBytes
    ∧ D.sizeofImageHeader + D.sizeofImageInfo ≤ image.frameBytes

/-- The file that a recording of `images` without rollover leaves on disk after `close`, when
the writer ended with the given populated count and offset table. -/
def finalFile (D : Decls) (cameraInfo : LadybugInfo) (images : List LadybugImage)
    (offsetCount : Int) (offsets : Nat → Nat) : FileData :=
  patchHeader
    (blitFrames (freshFile D cameraInfo) (dataOffsetOf D cameraInfo.calibration.length) images)
    images.length offsetCount offsets

/-- Successive `readNextFrame` calls, each of which must succeed; the returned buffers in
order. -/
def readAll (D : Decls) : Nat → LadybugStream → Option (List LadybugImage × LadybugStream)
  | 0, s => some ([], s)
  | n + 1, s =>
    match readNextFrame D s ⟨fun _ => 0, 0⟩ with
    | some (true, out, s) => (readAll D n s).map (fun r => (out :: r.1, r.2))
    | _ => none

instance (D : Decls) (image : LadybugImage) : Decidable (WellFramed D image) := by
  unfold WellFramed
  infer_instance

/-- The files `files` are on disk under consecutive indices from `fileIndex` on, and each is a
container that `openForReadingInternal` accepts. -/
def StreamFiles (D : Decls) (disk : FileName → Option FileData) (baseName : String) :
    Int → List FileData → Prop
  | _, [] => True
  | fileIndex, f :: rest =>
    disk (pgrFilename baseName fileIndex) = some f ∧ Supported D f
      ∧ StreamFiles D disk baseName (fileIndex + 1) rest

/-- The local frame count in the header of a file. -/
def localFrames (D : Decls) (f : FileData) : Nat :=
  get32 (headerOf D f) (D.off .ulNumberOfImages)

/-- The declarations place `ulTimeSeconds` and `ulTimeMicroSeconds` in aligned words inside
`LadybugImageInfo`. -/
structure Decls.InfoWF (D : Decls) : Prop where
  secondsInside : D.offTimeSeconds + 4 ≤ D.sizeofImageInfo
  secondsAligned : D.offTimeSeconds % 4 = 0
  microInside : D.offTimeMicroSeconds + 4 ≤ D.sizeofImageInfo
  microAligned : D.offTimeMicroSeconds % 4 = 0

/-- The big-endian field `ulTimeSeconds` in the frame info of the record at offset `p`. -/
def secondsAt (D : Decls) (f : FileData) (p : Nat) : Nat :=
  be32 f.bytes (p + D.sizeofImageHeader + D.offTimeSeconds)

/-- The big-endian field `ulTimeMicroSeconds` in the frame info of the record at offset `p`. -/
def microSecondsAt (D : Decls) (f : FileData) (p : Nat) : Nat :=
  be32 f.bytes (p + D.sizeofImageHeader + D.offTimeMicroSeconds)

/-- Step 2 of `seekToFrame` ("set position in the file"), which runs once the file that holds
the frame is open. -/
def seekInFile (D : Decls) (s : LadybugStream) (frameId : Int) : Option (Bool × LadybugStream) :=
  let s := { s with mCurrentFrame := frameId }
  let frameId := frameId - s.mFirstFrame
  let offset := s.mDataOffset
  if s.mIndexIncrement = 0 then none
  else
    let offsetIndex : Int := frameId / (s.mIndexIncrement : Int)
    let offsetIndex := if offsetIndex ≥ s.mOffsetCount then s.mOffsetCount - 1 else offsetIndex
    if offsetIndex > 0 ∧ offsetIndex ≥ 512 then none
    else
      let offset := if offsetIndex > 0 then s.mOffsets offsetIndex.toNat else offset
      let frameId := if offsetIndex > 0 then frameId - (s.mIndexIncrement : Int) * offsetIndex
                     else frameId
      let s := (fileSeek s offset).2
      some (skipFrames D frameId.toNat s)

/-- What `seekToFrame` does with the outcome of reopening another file: failure is returned,
success is followed by step 2. -/
def afterReopen (D : Decls) (r : Bool × LadybugStream) (frameId : Int) :
    Option (Bool × LadybugStream) :=
  match r with
  | (false, s) => some (false, s)
  | (true, s) => seekInFile D s frameId

/-- The engine `t` has the same disk, file name, open flag, file index and first-frame marker
as `s`. -/
def SameFile (s t : LadybugStream) : Prop :=
  t.mFile.fileName = s.mFile.fileName ∧ t.mFile.isOpen = s.mFile.isOpen
    ∧ t.mFileIndex = s.mFileIndex ∧ t.mFirstFrame = s.mFirstFrame ∧ t.disk = s.disk

/-- The engine `s` with the file position set to `p`. -/
def atPos (s : LadybugStream) (p : Nat) : LadybugStream :=
  { s with mFile := { s.mFile with pos := p } }

/-- The reader state with the cursor at frame `c` of a stream whose records `images` start at
`dataOffset`: the engine `s` with `mCurrentFrame = c` and the file positioned at the start of
record `c`.  Sequential reads and successful seeks lead from one such state to another. -/
def cursorAt (s : LadybugStream) (dataOffset : Nat) (images : List LadybugImage) (c : Nat) :
    LadybugStream :=
  atPos { s with mCurrentFrame := (c : Int) } (dataOffset + totalBytes (images.take c))

/-! ## Example instances -/

/-- Example declarations: the stream header laid out with the frame count at `0x88`, the key
count at `0x8c` and the offset table at `0x3f0`; a 16-byte frame header with `ulDataSize` at
offset 8 and a 16-byte frame info. -/
def demoDecls : Decls where
  sizeofHead := 0xbf0
  off := fun f => match f with
    | .ulLadybugStreamVersion => 0x00
    | .ulFrameRate => 0x04
    | .serialBase => 0x08
    | .serialHead => 0x0c
    | .ulPaddingSize => 0x74
    | .dataFormat => 0x78
    | .resolution => 0x7c
    | .stippledFormat => 0x80
    | .ulConfigrationDataSize => 0x84
    | .ulNumberOfImages => 0x88
    | .ulNumberOfKeyIndex => 0x8c
    | .ulIncrement => 0x90
    | .ulStreamDataOffset => 0x94
    | .ulGPSDataOffset => 0x98
    | .ulGPSDataSize => 0x9c
  offOffsetTable := 0x3f0
  colorSepSequentialJpeg := 7
  resolution1024x768 := 8
  bggr := 1
  sizeofImageHeader := 16
  offDataSize := 8
  sizeofImageInfo := 16
  offTimeSeconds := 4
  offTimeMicroSeconds := 8
  parse := fun _ => none

/-- A freshly constructed engine on an empty disk where every file can be created. -/
def blank : LadybugStream where
  disk := fun _ => none
  creatable := fun _ => true
  mFile := ⟨("", 0), false, 0⟩
  mBaseName := ""
  mFileIndex := 0
  mMode := Mode.Reading
  mCameraInfo := ⟨0, 0, []⟩
  mTotalNumFrames := 0
  mNumMegabytes := 0
  mNumFrames := 0
  mIndexIncrement := 0
  mOffsetCount := 0
  mOffsets := fun _ => 0
  mDataOffset := 0
  mCurrentFrame := 0
  mFirstFrame := 0
  mFirstFileIndex := 0
  mTotalNumFiles := 0
  mFirstFrameList := []

/-- A frame record of `n` bytes for `demoDecls`: the big-endian length at offset 8, every other
byte equal to `tag`. -/
def demoFrame (n tag : Nat) : LadybugImage :=
  ⟨fun i =>
      if i = 8 then n / 16777216 % 256
      else if i = 9 then n / 65536 % 256
      else if i = 10 then n / 256 % 256
      else if i = 11 then n % 256
      else tag, n⟩

/-- The engine `blank` after `openForWriting` on "s", index 0, with a 3-byte calibration blob. -/
def demoOpened : LadybugStream := (openForWriting demoDecls blank "s" ⟨1, 2, [9, 9, 9]⟩ 0).2

/-- The engine `demoOpened` after two frames of 40 and 33 bytes. -/
def demoWritten : LadybugStream :=
  (writeAll demoDecls [demoFrame 40 1, demoFrame 33 2] demoOpened).getD blank

/-- The engine `demoWritten` after `close`. -/
def demoClosed : LadybugStream := (close demoWritten).2

/-- The engine `demoClosed` after `openForReading` on "s", index 0. -/
def demoReading : LadybugStream :=
  ((openForReading demoDecls 2 demoClosed "s" 0).getD (false, blank)).2

/-- An engine whose disk holds one empty file "u"-000000. -/
def demoBadDisk : LadybugStream :=
  { blank with
    disk := fun name => if name = pgrFilename "u" 0 then some ⟨0, fun _ => 0⟩ else none
    mBaseName := "u" }

/-- The engine `demoClosed` whose file "s"-000000 additionally has `0x1234` stored in slot 383
of the on-disk offset table (the slot that `close` uses for key 128). -/
def demoTable : LadybugStream :=
  { demoClosed with
    disk := fun name =>
      if name = pgrFilename "s" 0 then
        (demoClosed.disk (pgrFilename "s" 0)).map
          (fun f => blit f (16 + 0x3f0 + 4 * 383) (le32 0x1234) 4)
      else demoClosed.disk name }

/-- The engine `demoOpened` after one frame of 2147000000 bytes: the file is nearly full. -/
def demoNearlyFull : LadybugStream := afterWrite demoDecls demoOpened (demoFrame 2147000000 1)

/-- A recording whose second frame rolls over into file 1, closed after that frame. -/
def demoRolled : LadybugStream :=
  (close (afterWrite demoDecls demoNearlyFull (demoFrame 1000000 2))).2

/-- A recording of 50 frames of 42000000 bytes and a 51st frame of 50000000 bytes, which rolls
over into file 1. -/
def demoRolled50 : LadybugStream :=
  (writeAll demoDecls (List.replicate 50 (demoFrame 42000000 1) ++ [demoFrame 50000000 2])
    demoOpened).getD blank

/-- A recording of two frames in which the first frame fills file 0 up to one byte below the
ceiling, so that the second frame (40 bytes) rolls over into file 1; closed afterwards. -/
def demoTwoFiles : LadybugStream :=
  (close (afterWrite demoDecls (afterWrite demoDecls demoOpened (demoFrame 2147480062 1))
    (demoFrame 40 2))).2

/-- The engine `demoTwoFiles` after `openForReading` on "s", index 0. -/
def demoTwoReading : LadybugStream :=
  ((openForReading demoDecls 3 demoTwoFiles "s" 0).getD (false, blank)).2

/-- The engine `demoTwoReading` after one `readNextFrame`: the cursor stands at the first frame
of file 1 while file 0 is open. -/
def demoAtBoundary : LadybugStream :=
  ((readNextFrame demoDecls demoTwoReading ⟨fun _ => 0, 0⟩).getD
    (false, ⟨fun _ => 0, 0⟩, blank)).2.2

/-- The second file of `demoTwoFiles`. -/
def demoSecondFile : FileData :=
  (demoTwoFiles.disk (pgrFilename "s" 1)).getD ⟨0, fun _ => 0⟩

/-- The camera info of the example recordings. -/
def demoInfo : LadybugInfo := ⟨1, 2, [9, 9, 9]⟩

/-- The first file of `demoTwoFiles`. -/
def demoFirstFile : FileData :=
  (demoTwoFiles.disk (pgrFilename "s" 0)).getD ⟨0, fun _ => 0⟩

/-- The file "s"-000000 of the two-frame example recording, as `close` left it. -/
def demoFile : FileData := (demoClosed.disk (pgrFilename "s" 0)).getD ⟨0, fun _ => 0⟩

/-- The engine `demoReading` after `seekToFrame(1)`. -/
def demoSeek1 : LadybugStream := ((seekToFrame demoDecls demoReading 1).getD (false, blank)).2

/-- The engine `demoOpened` after 51 frames of 32 bytes. -/
def demoWritten51 : LadybugStream :=
  (writeAll demoDecls (List.replicate 51 (demoFrame 32 1)) demoOpened).getD blank

/-- The engine `demoClosed` whose file "s"-000000 has the header field `ulIncrement` (at
header offset `0x90`) overwritten with 0; everything else is as the writer left it. -/
def demoZeroIncrement : LadybugStream :=
  { demoClosed with
    disk := fun name =>
      if name = pgrFilename "s" 0 then
        (demoClosed.disk (pgrFilename "s" 0)).map (fun f => blit f (16 + 0x90) (le32 0) 4)
      else demoClosed.disk name }

/-- The engine `demoZeroIncrement` after `openForReading` on "s", index 0. -/
def demoZeroReading : LadybugStream :=
  ((openForReading demoDecls 2 demoZeroIncrement "s" 0).getD (false, blank)).2

/-- A 40-byte frame buffer whose big-endian length field says 8. -/
def demoShortFrame : LadybugImage := ⟨(demoFrame 8 1).frameData, 40⟩

/-- A recording of the single frame `demoShortFrame`, closed. -/
def demoShortClosed : LadybugStream := (close (afterWrite demoDecls demoOpened demoShortFrame)).2

/-- The file "s"-000000 of `demoShortClosed`. -/
def demoShortFile : FileData := (demoShortClosed.disk (pgrFilename "s" 0)).getD ⟨0, fun _ => 0⟩

/-- The engine `demoShortClosed` after `openForReading` on "s", index 0. -/
def demoShortReading : LadybugStream :=
  ((openForReading demoDecls 2 demoShortClosed "s" 0).getD (false, blank)).2

/-- An engine with no open file whose disk holds a one-frame recording "s"-000001 left by an
earlier session (`openForWriting` at index 1, one frame of 33 bytes, `close`). -/
def demoStale : LadybugStream :=
  (close (afterWrite demoDecls (openForWriting demoDecls blank "s" demoInfo 1).2
    (demoFrame 33 7))).2

/-- The engine `demoStale` after a new recording at index 0: `openForWriting`, one frame of 40
bytes, `close`. -/
def demoStaleClosed : LadybugStream :=
  (close (afterWrite demoDecls (openForWriting demoDecls demoStale "s" demoInfo 0).2
    (demoFrame 40 1))).2

/-- The engine `demoStaleClosed` after `openForReading` on "s", index 0. -/
def demoStaleReading : LadybugStream :=
  ((openForReading demoDecls 3 demoStaleClosed "s" 0).getD (false, blank)).2

/-! # Properties -/

/-! ## Words, masks and byte lists -/

section Bytes

theorem toInt32_of_lt (v : Nat) (h : v < 2 ^ 31) : toInt32 v = (v : Int) := by
  have h2 : v % 2 ^ 32 = v := Nat.mod_eq_of_lt (by omega)
  unfold toInt32
  rw [h2, if_pos h]

theorem le32_sum (v : Nat) :
    le32 v 0 + 256 * le32 v 1 + 65536 * le32 v 2 + 16777216 * le32 v 3 = v % 2 ^ 32 := by
  simp only [le32]
  norm_num
  omega

theorem get32_congr (m m2 : Nat → Nat) (o : Nat) (h : ∀ j, j < 4 → m (o + j) = m2 (o + j)) :
    get32 m o = get32 m2 o := by
  have h0 := h 0 (by omega)
  have h1 := h 1 (by omega)
  have h2 := h 2 (by omega)
  have h3 := h 3 (by omega)
  simp only [Nat.add_zero] at h0
  simp only [get32, h0, h1, h2, h3]

theorem get32_put32_same (m : Nat → Nat) (o v : Nat) : get32 (put32 m o v) o = v % 2 ^ 32 := by
  have h := le32_sum v
  simp only [get32, put32]
  simp only [show (o ≤ o ∧ o < o + 4) from ⟨le_refl _, by omega⟩,
    show (o ≤ o + 1 ∧ o + 1 < o + 4) from ⟨by omega, by omega⟩,
    show (o ≤ o + 2 ∧ o + 2 < o + 4) from ⟨by omega, by omega⟩,
    show (o ≤ o + 3 ∧ o + 3 < o + 4) from ⟨by omega, by omega⟩, if_true,
    Nat.sub_self, Nat.add_sub_cancel_left]
  exact h

theorem put32_apply_of_apart (m : Nat → Nat) (o v i : Nat) (h : i < o ∨ o + 4 ≤ i) :
    put32 m o v i = m i := by
  simp only [put32]
  rw [if_neg (by omega)]

theorem get32_put32_apart (m : Nat → Nat) (o o2 v : Nat) (h : Apart o o2) :
    get32 (put32 m o v) o2 = get32 m o2 := by
  apply get32_congr
  intro j hj
  apply put32_apply_of_apart
  unfold Apart at h
  omega

theorem get32_big2little (m : Nat → Nat) (size o : Nat) (ha : o % 4 = 0) (hs : o + 4 ≤ size) :
    get32 (big2little_struct m size) o = be32 m o := by
  have e0 : o / 4 * 4 = o := by omega
  have e1 : (o + 1) / 4 * 4 = o := by omega
  have e2 : (o + 2) / 4 * 4 = o := by omega
  have e3 : (o + 3) / 4 * 4 = o := by omega
  have r1 : (o + 1) % 4 = 1 := by omega
  have r2 : (o + 2) % 4 = 2 := by omega
  have r3 : (o + 3) % 4 = 3 := by omega
  have hlt : o < size := by omega
  simp only [get32, be32, big2little_struct, e0, e1, e2, e3, ha, r1, r2, r3, hlt, if_true]
  norm_num
  omega

theorem land_mask (r : Nat) (h : r < 2 ^ 32) : r &&& 0xfffffe00 = r / 512 * 512 := by
  apply Nat.eq_of_testBit_eq
  intro i
  rw [Nat.testBit_land]
  have hm : (0xfffffe00 : Nat) = 2 ^ 9 * (2 ^ 23 - 1) := by norm_num
  have hd : r / 512 * 512 = 2 ^ 9 * (r >>> 9) := by
    rw [Nat.shiftRight_eq_div_pow]; norm_num; omega
  rw [hm, hd, Nat.testBit_mul_pow_two, Nat.testBit_mul_pow_two, Nat.testBit_two_pow_sub_one,
    Nat.testBit_shiftRight]
  by_cases h9 : 9 ≤ i
  · have e : 9 + (i - 9) = i := by omega
    rw [e]
    by_cases h23 : i - 9 < 23
    · simp [h23, h9]
    · have : r.testBit i = false := by
        apply Nat.testBit_lt_two_pow
        calc r < 2 ^ 32 := h
          _ ≤ 2 ^ i := Nat.pow_le_pow_right (by omega) (by omega)
      simp [h23, this]
  · simp [h9]

theorem dataOffsetOf_eq (D : Decls) (c : Nat) (h : 16 + D.sizeofHead + c < 2 ^ 32 - 512) :
    dataOffsetOf D c = (16 + D.sizeofHead + c) / 512 * 512 + 512 := by
  unfold dataOffsetOf
  have h1 : (16 + D.sizeofHead + c) % 2 ^ 32 = 16 + D.sizeofHead + c := Nat.mod_eq_of_lt (by omega)
  simp only [h1]
  rw [land_mask _ (by omega)]
  apply Nat.mod_eq_of_lt
  omega

theorem bytesOf_length (m : Nat → Nat) (n : Nat) : (bytesOf m n).length = n := by
  simp [bytesOf]

theorem bytesOf_congr (m m2 : Nat → Nat) (n : Nat) (h : ∀ i, i < n → m i = m2 i) :
    bytesOf m n = bytesOf m2 n := by
  unfold bytesOf
  apply List.map_congr_left
  intro i hi
  exact h i (List.mem_range.mp hi)

end Bytes

/-! ## The three outcomes of `openForReadingInternal` -/

section OpenInternal

theorem not_supported_of_unsupported (D : Decls) (f : FileData) (h : Unsupported D f) :
    ¬ Supported D f := by
  intro hs
  obtain ⟨h1, h2, h3, h4, h5⟩ := hs
  rcases h with h | h | h | h | h
  · exact h h1
  · omega
  · exact h h3
  · exact h h4
  · exact h h5

theorem openForReadingInternal_supported (D : Decls) (s : LadybugStream)
    (fileIndex firstFrame : Int) (f : FileData) (hclosed : s.mFile.isOpen = false)
    (hdisk : s.disk (pgrFilename s.mBaseName fileIndex) = some f) (hsup : Supported D f) :
    openForReadingInternal D s fileIndex firstFrame
      = (true, openedFor D s fileIndex firstFrame f) := by
  obtain ⟨hsig, hsize, h1, h2, h3⟩ := hsup
  have h16 : min 16 f.size = 16 := by omega
  have hS : min D.sizeofHead (f.size - 16) = D.sizeofHead := by omega
  rw [h16] at hsig
  have hsig2 : bytesOf (fun i => if i < 16 then f.bytes i else 0) 16 = STREAM_SIGNATURE := by
    rw [← hsig]
    apply bytesOf_congr
    intro i hi
    simp [hi]
  have e : (fun i => if i < D.sizeofHead then f.bytes (16 + i) else 0) = headerOf D f := rfl
  simp [openForReadingInternal, hclosed, setFileName, fileOpenRead, hdisk, fileRead, h16, hS,
    hsig2, e, h1, h2, h3, fileSeek, openedFor]

theorem openForReadingInternal_rejected (D : Decls) (s : LadybugStream)
    (fileIndex firstFrame : Int) (f : FileData) (hclosed : s.mFile.isOpen = false)
    (hdisk : s.disk (pgrFilename s.mBaseName fileIndex) = some f) (hsup : ¬ Supported D f) :
    openForReadingInternal D s fileIndex firstFrame = (false, rejectedFor s fileIndex) := by
  have e : (fun i => if i < D.sizeofHead then f.bytes (16 + i) else 0) = headerOf D f := rfl
  have hsig2 : bytesOf (fun i => if i < min 16 f.size then f.bytes i else 0) (min 16 f.size)
      = bytesOf f.bytes (min 16 f.size) := by
    apply bytesOf_congr
    intro i hi
    simp [hi]
  simp only [openForReadingInternal, hclosed, setFileName, fileOpenRead, hdisk, fileRead]
  simp only [Bool.false_eq_true, if_false, Nat.sub_zero, Nat.zero_add, Int.toNat_ofNat, hsig2]
  by_cases hs : bytesOf f.bytes (min 16 f.size) = STREAM_SIGNATURE
  · have h16 : min 16 f.size = 16 := by
      have := congrArg List.length hs
      rw [bytesOf_length] at this
      exact this
    by_cases hsz : 16 + D.sizeofHead ≤ f.size
    · have hS : min D.sizeofHead (f.size - 16) = D.sizeofHead := by omega
      have ht : get32 (headerOf D f) (D.off .dataFormat) ≠ D.colorSepSequentialJpeg
          ∨ get32 (headerOf D f) (D.off .resolution) ≠ D.resolution1024x768
          ∨ get32 (headerOf D f) (D.off .stippledFormat) ≠ D.bggr := by
        by_contra hc
        push_neg at hc
        exact hsup ⟨hs, hsz, hc⟩
      simp only [hs, h16, hS, e, fileClose, ne_eq, not_true_eq_false, if_false, ht, if_true,
        and_self]
      split <;> rfl
    · have hlt : f.size - 16 < D.sizeofHead := by omega
      have hs16 : bytesOf f.bytes 16 = STREAM_SIGNATURE := h16 ▸ hs
      simp [h16, hs16, hlt, fileClose, rejectedFor]
  · simp [hs, fileClose, rejectedFor]

theorem openForReadingInternal_missing (D : Decls) (s : LadybugStream)
    (fileIndex firstFrame : Int) (hclosed : s.mFile.isOpen = false)
    (hdisk : s.disk (pgrFilename s.mBaseName fileIndex) = none) :
    openForReadingInternal D s fileIndex firstFrame
      = (false, setFileName s (pgrFilename s.mBaseName fileIndex)) := by
  simp [openForReadingInternal, hclosed, setFileName, fileOpenRead, hdisk]

end OpenInternal

/-! ## Table reversal, range check, guards and format rejection -/

section Claims

/-- C3 (the code departs from the claim). The reversal loop of `openForReadingInternal` runs
128 rounds, so slots 128..383 keep the on-disk order: on a file whose header has `0x1234` in
slot 383 and `0` in slot 128, the open succeeds and `mOffsets[128]` is `0`, not
`ulOffsetTable[511 - 128]`. -/
theorem openForReadingInternal_table_not_reversed :
    (openForReadingInternal demoDecls demoTable 0 0).1 = true
      ∧ ((demoTable.disk (pgrFilename "s" 0)).map
          (fun f => get32 (headerOf demoDecls f) (demoDecls.offOffsetTable + 4 * (511 - 128))))
          = some 0x1234
      ∧ (openForReadingInternal demoDecls demoTable 0 0).2.mOffsets 128 = 0 := by
  decide

/-- C6. Out-of-range seek: on an engine open in reading mode, `seekToFrame` with a negative
frame number or one at or beyond the total frame count returns failure and leaves the whole
state (cursor, open file, file position and everything else) as it was. -/
theorem seekToFrame_out_of_range (D : Decls) (s : LadybugStream) (frameId : Int)
    (hopen : s.mFile.isOpen = true) (hmode : s.mMode = Mode.Reading)
    (hrange : frameId < 0 ∨ frameId ≥ (s.mTotalNumFrames : Int)) :
    seekToFrame D s frameId = some (false, s) := by
  unfold seekToFrame
  simp [hopen, hmode, hrange]

/-- Witness for C6: on the two-frame example stream both `seekToFrame(-1)` and
`seekToFrame(2)` fail and change nothing. -/
theorem seekToFrame_out_of_range_witness :
    demoReading.mTotalNumFrames = 2
      ∧ seekToFrame demoDecls demoReading (-1) = some (false, demoReading)
      ∧ seekToFrame demoDecls demoReading 2 = some (false, demoReading) :=
  ⟨by decide,
   seekToFrame_out_of_range demoDecls demoReading (-1) (by decide) (by decide) (by decide),
   seekToFrame_out_of_range demoDecls demoReading 2 (by decide) (by decide) (by decide)⟩

/-- C9 (the code departs from the claim). `openForWriting` called while a file is open returns
failure but has already reset the cumulative frame counter, the megabyte counter and the camera
info: on the example engine that has two frames written, the counter drops from 2 to 0. -/
theorem openForWriting_while_open_resets :
    demoWritten.mFile.isOpen = true ∧ demoWritten.mTotalNumFrames = 2
      ∧ demoWritten.mCameraInfo.calibration = [9, 9, 9]
      ∧ (openForWriting demoDecls demoWritten "t" ⟨0, 0, []⟩ 0).1 = false
      ∧ (openForWriting demoDecls demoWritten "t" ⟨0, 0, []⟩ 0).2.mTotalNumFrames = 0
      ∧ (openForWriting demoDecls demoWritten "t" ⟨0, 0, []⟩ 0).2.mNumMegabytes = 0
      ∧ (openForWriting demoDecls demoWritten "t" ⟨0, 0, []⟩ 0).2.mCameraInfo.calibration = [] := by
  decide

/-- C10. Unsupported format rejection: on an engine with no open file, a file whose signature
differs from "PGRLADYBUGSTREAM", whose header is short, or whose data-format, resolution or
stipple tag is not the supported one makes `openForReadingInternal` return failure with no file
open; and when it is the first file of the stream, `openForReading` returns failure with no
file open. -/
theorem unsupported_rejected (D : Decls) (s : LadybugStream) (f : FileData) (base : String)
    (fileIndex firstFrame : Int) (fuel : Nat) (hclosed : s.mFile.isOpen = false)
    (hbad : Unsupported D f) :
    (s.disk (pgrFilename s.mBaseName fileIndex) = some f →
      (openForReadingInternal D s fileIndex firstFrame).1 = false
        ∧ (openForReadingInternal D s fileIndex firstFrame).2.mFile.isOpen = false)
    ∧ (s.disk (pgrFilename base fileIndex) = some f → 0 < fuel →
      ∃ s2, openForReading D fuel s base fileIndex = some (false, s2)
        ∧ s2.mFile.isOpen = false) := by
  have hns := not_supported_of_unsupported D f hbad
  constructor
  · intro hdisk
    rw [openForReadingInternal_rejected D s fileIndex firstFrame f hclosed hdisk hns]
    exact ⟨rfl, rfl⟩
  · intro hdisk hfuel
    obtain ⟨k, rfl⟩ : ∃ k, fuel = k + 1 := ⟨fuel - 1, by omega⟩
    refine ⟨rejectedFor { s with
        mBaseName := base, mFirstFileIndex := fileIndex
        mTotalNumFrames := 0, mTotalNumFiles := 0, mFirstFrameList := [] } fileIndex, ?_, rfl⟩
    unfold openForReading
    simp only [hclosed, hdisk, Option.isSome_some, if_true, Bool.false_eq_true, if_false]
    unfold probe
    have hr := openForReadingInternal_rejected D { s with
        mBaseName := base, mFirstFileIndex := fileIndex
        mTotalNumFrames := 0, mTotalNumFiles := 0, mFirstFrameList := [] } fileIndex
        ((0 : Nat) : Int) f hclosed hdisk hns
    simp only [hr]
    simp [rejectedFor]

/-- Witness for C10: an empty file "u"-000000 is rejected by both entry points. -/
theorem unsupported_rejected_witness :
    ((openForReadingInternal demoDecls demoBadDisk 0 0).1 = false
        ∧ (openForReadingInternal demoDecls demoBadDisk 0 0).2.mFile.isOpen = false)
    ∧ ∃ s2, openForReading demoDecls 1 demoBadDisk "u" 0 = some (false, s2)
        ∧ s2.mFile.isOpen = false :=
  have h := unsupported_rejected demoDecls demoBadDisk ⟨0, fun _ => 0⟩ "u" 0 0 1 rfl
    (Or.inl (by decide))
  ⟨h.1 rfl, h.2 rfl (by decide)⟩

end Claims

/-! ## The header patches of `close` -/

section Close

theorem blit_bytes_in (f : FileData) (pos : Nat) (src : Nat → Nat) (n i : Nat)
    (h : pos ≤ i ∧ i < pos + n) : (blit f pos src n).bytes i = src (i - pos) := by
  simp only [blit, h, and_self, if_true]

theorem blit_bytes_out (f : FileData) (pos : Nat) (src : Nat → Nat) (n i : Nat)
    (h : i < pos ∨ pos + n ≤ i) : (blit f pos src n).bytes i = f.bytes i := by
  simp only [blit]
  rw [if_neg (by omega)]

theorem blit_size_of_le (f : FileData) (pos : Nat) (src : Nat → Nat) (n : Nat)
    (h : pos + n ≤ f.size) : (blit f pos src n).size = f.size := by
  simp only [blit]
  split
  · rfl
  · exact max_eq_left h

theorem blit_size_ge (f : FileData) (pos : Nat) (src : Nat → Nat) (n : Nat) :
    f.size ≤ (blit f pos src n).size := by
  simp only [blit]
  split
  · exact le_refl _
  · exact le_max_left _ _

theorem blit_size_end (f : FileData) (pos : Nat) (src : Nat → Nat) (n : Nat) (hn : 0 < n) :
    pos + n ≤ (blit f pos src n).size := by
  simp only [blit]
  rw [if_neg (by omega)]
  exact le_max_right _ _

theorem get32_blit_le32 (f : FileData) (pos v : Nat) :
    get32 (blit f pos (le32 v) 4).bytes pos = v % 2 ^ 32 := by
  have h := le32_sum v
  simp only [get32, blit]
  simp only [show (pos ≤ pos ∧ pos < pos + 4) from ⟨le_refl _, by omega⟩,
    show (pos ≤ pos + 1 ∧ pos + 1 < pos + 4) from ⟨by omega, by omega⟩,
    show (pos ≤ pos + 2 ∧ pos + 2 < pos + 4) from ⟨by omega, by omega⟩,
    show (pos ≤ pos + 3 ∧ pos + 3 < pos + 4) from ⟨by omega, by omega⟩, if_true,
    Nat.sub_self, Nat.add_sub_cancel_left]
  exact h

theorem get32_blit_out (f : FileData) (pos : Nat) (src : Nat → Nat) (n o : Nat)
    (h : o + 4 ≤ pos ∨ pos + n ≤ o) : get32 (blit f pos src n).bytes o = get32 f.bytes o := by
  apply get32_congr
  intro j hj
  apply blit_bytes_out
  omega

theorem saveIndexStep_open (t : LadybugStream) (f : FileData) (i : Nat)
    (hopen : t.mFile.isOpen = true) (hdisk : t.disk t.mFile.fileName = some f) (hi : i ≤ 767) :
    saveIndexStep t i = { t with
      disk := Function.update t.disk t.mFile.fileName (some (patchIndex t.mOffsets f i))
      mFile := { t.mFile with pos := 16 + 0xbec - 4 * i + 4 } } := by
  have hc : ((16 : Int) + 0xbec - ((i : Int) * 4)) = ((16 + 0xbec - 4 * i : Nat) : Int) := by
    omega
  have hnn : (0 : Int) ≤ ((16 + 0xbec - 4 * i : Nat) : Int) := Int.natCast_nonneg _
  unfold saveIndexStep
  rw [hc]
  simp only [fileSeek, hopen, hnn, and_self, if_true, fileWrite, hdisk, Int.toNat_ofNat, patchIndex]

theorem saveIndex_fold (k : Nat) (t : LadybugStream) (f : FileData)
    (hopen : t.mFile.isOpen = true) (hdisk : t.disk t.mFile.fileName = some f) (hk : k ≤ 768) :
    fileClose ((List.range k).foldl saveIndexStep t) = { t with
      disk := Function.update t.disk t.mFile.fileName
        (some ((List.range k).foldl (patchIndex t.mOffsets) f))
      mFile := { t.mFile with isOpen := false, pos := 0 } } := by
  suffices h : ∃ q, (List.range k).foldl saveIndexStep t = { t with
      disk := Function.update t.disk t.mFile.fileName
        (some ((List.range k).foldl (patchIndex t.mOffsets) f))
      mFile := { t.mFile with pos := q } } by
    obtain ⟨q, hq⟩ := h
    rw [hq]
    rfl
  induction k with
  | zero =>
    refine ⟨t.mFile.pos, ?_⟩
    simp only [List.range_zero, List.foldl_nil]
    rw [← hdisk, Function.update_eq_self]
  | succ k ih =>
    obtain ⟨q, hq⟩ := ih (by omega)
    refine ⟨16 + 0xbec - 4 * k + 4, ?_⟩
    rw [List.range_succ, List.foldl_append, List.foldl_append, hq]
    simp only [List.foldl_cons, List.foldl_nil]
    rw [saveIndexStep_open _ ((List.range k).foldl (patchIndex t.mOffsets) f) k]
    · simp
    · exact hopen
    · simp
    · omega

theorem close_writing (s : LadybugStream) (f : FileData) (hopen : s.mFile.isOpen = true)
    (hmode : s.mMode = Mode.Writing) (hdisk : s.disk s.mFile.fileName = some f)
    (hcnt : s.mOffsetCount ≤ 768) : close s = (true, closedWriting s f) := by
  have h88 : (0 : Int) ≤ 16 + 0x88 := by norm_num
  unfold close
  simp only [hopen, Bool.not_true, Bool.false_eq_true, if_false, hmode, if_true]
  rw [saveIndex_fold _ _ (blit (blit f (16 + 0x88) (le32 s.mNumFrames) 4) (16 + 0x8c)
      (le32 (s.mOffsetCount % 2 ^ 32).toNat) 4)]
  · simp [fileSeek, fileWrite, hopen, hdisk, closedWriting, patchHeader]
  · simp [fileSeek, fileWrite, hopen, hdisk]
  · simp [fileSeek, fileWrite, hopen, hdisk]
  · have := Int.toNat_le.mpr (show s.mOffsetCount ≤ ((768 : Nat) : Int) by simpa using hcnt)
    simpa [fileSeek, fileWrite, hopen, hdisk] using this

theorem close_reading (s : LadybugStream) (hopen : s.mFile.isOpen = true)
    (hmode : s.mMode = Mode.Reading) : close s = (true, fileClose s) := by
  simp [close, hopen, hmode]

theorem close_closed (s : LadybugStream) (hopen : s.mFile.isOpen = false) :
    close s = (false, s) := by
  simp [close, hopen]

theorem patchFold_bytes_out (offsets : Nat → Nat) (f : FileData) (k off : Nat)
    (h : ∀ i, i < k → off < 16 + 0xbec - 4 * i ∨ 16 + 0xbec - 4 * i + 4 ≤ off) :
    ((List.range k).foldl (patchIndex offsets) f).bytes off = f.bytes off := by
  induction k with
  | zero => rfl
  | succ k ih =>
    rw [List.range_succ, List.foldl_append]
    simp only [List.foldl_cons, List.foldl_nil]
    unfold patchIndex
    rw [blit_bytes_out _ _ _ _ _ (h k (by omega))]
    exact ih (fun i hi => h i (by omega))

theorem patchFold_get32_out (offsets : Nat → Nat) (f : FileData) (k o : Nat)
    (h : ∀ i, i < k → o + 4 ≤ 16 + 0xbec - 4 * i ∨ 16 + 0xbec - 4 * i + 4 ≤ o) :
    get32 ((List.range k).foldl (patchIndex offsets) f).bytes o = get32 f.bytes o := by
  apply get32_congr
  intro j hj
  apply patchFold_bytes_out
  intro i hi
  have := h i hi
  omega

theorem patchFold_get32_key (offsets : Nat → Nat) (f : FileData) (k i : Nat) (hi : i < k)
    (hk : k ≤ 512) :
    get32 ((List.range k).foldl (patchIndex offsets) f).bytes (16 + 0xbec - 4 * i)
      = offsets i % 2 ^ 32 := by
  induction k with
  | zero => omega
  | succ k ih =>
    rw [List.range_succ, List.foldl_append]
    simp only [List.foldl_cons, List.foldl_nil]
    by_cases hik : i = k
    · subst hik
      unfold patchIndex
      exact get32_blit_le32 _ _ _
    · unfold patchIndex
      rw [get32_blit_out _ _ _ _ _ (by omega)]
      exact ih (by omega) (by omega)

theorem patchFold_size (offsets : Nat → Nat) (f : FileData) (k : Nat)
    (hsize : 16 + 0xbf0 ≤ f.size) :
    ((List.range k).foldl (patchIndex offsets) f).size = f.size := by
  induction k with
  | zero => rfl
  | succ k ih =>
    rw [List.range_succ, List.foldl_append]
    simp only [List.foldl_cons, List.foldl_nil]
    have hk := blit_size_of_le ((List.range k).foldl (patchIndex offsets) f)
      (16 + 0xbec - 4 * k) (le32 (offsets k)) 4 (by rw [ih]; omega)
    exact hk.trans ih

theorem patchHeader_bytes_out (f : FileData) (numFrames : Nat) (offsetCount : Int)
    (offsets : Nat → Nat) (off : Nat) (h : ¬ Patched offsetCount.toNat off) :
    (patchHeader f numFrames offsetCount offsets).bytes off = f.bytes off := by
  unfold Patched at h
  push_neg at h
  obtain ⟨h1, h2, h3⟩ := h
  unfold patchHeader
  simp only
  rw [patchFold_bytes_out _ _ _ _ (fun i hi => by have := h3 i hi; omega)]
  rw [blit_bytes_out _ _ _ _ _ (by omega), blit_bytes_out _ _ _ _ _ (by omega)]

theorem patchHeader_bytes_ge (f : FileData) (numFrames : Nat) (offsetCount : Int)
    (offsets : Nat → Nat) (off : Nat) (h : 16 + 0xbf0 ≤ off) :
    (patchHeader f numFrames offsetCount offsets).bytes off = f.bytes off := by
  apply patchHeader_bytes_out
  unfold Patched
  push_neg
  refine ⟨by omega, by omega, ?_⟩
  intro i _
  omega

theorem patchHeader_size (f : FileData) (numFrames : Nat) (offsetCount : Int)
    (offsets : Nat → Nat) (hsize : 16 + 0xbf0 ≤ f.size) :
    (patchHeader f numFrames offsetCount offsets).size = f.size := by
  unfold patchHeader
  simp only
  have h1 : (blit f (16 + 0x88) (le32 numFrames) 4).size = f.size :=
    blit_size_of_le _ _ _ _ (by omega)
  have h2 : (blit (blit f (16 + 0x88) (le32 numFrames) 4) (16 + 0x8c)
      (le32 (offsetCount % 2 ^ 32).toNat) 4).size = f.size := by
    rw [blit_size_of_le _ _ _ _ (by omega), h1]
  rw [patchFold_size _ _ _ (by omega), h2]

theorem patchHeader_numFrames (f : FileData) (numFrames : Nat) (offsetCount : Int)
    (offsets : Nat → Nat) (h1 : offsetCount ≤ 512) :
    get32 (patchHeader f numFrames offsetCount offsets).bytes (16 + 0x88)
      = numFrames % 2 ^ 32 := by
  unfold patchHeader
  simp only
  rw [patchFold_get32_out _ _ _ _ (fun i hi => by omega), get32_blit_out _ _ _ _ _ (by omega)]
  exact get32_blit_le32 _ _ _

theorem patchHeader_offsetCount (f : FileData) (numFrames : Nat) (offsetCount : Int)
    (offsets : Nat → Nat) (h0 : 0 ≤ offsetCount) (h1 : offsetCount ≤ 512) :
    get32 (patchHeader f numFrames offsetCount offsets).bytes (16 + 0x8c)
      = offsetCount.toNat := by
  unfold patchHeader
  simp only
  rw [patchFold_get32_out _ _ _ _ (fun i hi => by omega), get32_blit_le32]
  omega

theorem patchHeader_key (f : FileData) (numFrames : Nat) (offsetCount : Int)
    (offsets : Nat → Nat) (i : Nat) (hi : i < offsetCount.toNat) (h1 : offsetCount ≤ 512) :
    get32 (patchHeader f numFrames offsetCount offsets).bytes (16 + 0xbec - 4 * i)
      = offsets i % 2 ^ 32 := by
  unfold patchHeader
  simp only
  exact patchFold_get32_key _ _ _ _ hi (by omega)

end Close

/-! ## Steps of the writer and the invariant of a recording -/

theorem openForWritingInternal_ok (D : Decls) (s : LadybugStream) (baseName : String)
    (fileIndex : Int) (hclosed : s.mFile.isOpen = false)
    (hcreate : s.creatable (pgrFilename baseName fileIndex) = true) :
    openForWritingInternal D s baseName fileIndex
      = (true, openedWriting D s baseName fileIndex) := by
  have hnn : (0 : Int) ≤ (dataOffsetOf D s.mCameraInfo.calibration.length : Int) :=
    Int.natCast_nonneg _
  simp [openForWritingInternal, hclosed, setFileName, fileOpenWrite, hcreate, fileWrite,
    fileSeek, openedWriting, freshFile]

theorem openForWritingInternal_denied (D : Decls) (s : LadybugStream) (baseName : String)
    (fileIndex : Int) (hclosed : s.mFile.isOpen = false)
    (hcreate : s.creatable (pgrFilename baseName fileIndex) = false) :
    openForWritingInternal D s baseName fileIndex
      = (false, setFileName s (pgrFilename baseName fileIndex)) := by
  simp [openForWritingInternal, hclosed, setFileName, fileOpenWrite, hcreate]

theorem openForWritingInternal_open (D : Decls) (s : LadybugStream) (baseName : String)
    (fileIndex : Int) (hopen : s.mFile.isOpen = true) :
    openForWritingInternal D s baseName fileIndex = (false, s) := by
  simp [openForWritingInternal, hopen]

theorem recordIndex_frame (s : LadybugStream) :
    (recordIndex s).disk = s.disk ∧ (recordIndex s).creatable = s.creatable
      ∧ (recordIndex s).mFile = s.mFile ∧ (recordIndex s).mBaseName = s.mBaseName
      ∧ (recordIndex s).mFileIndex = s.mFileIndex ∧ (recordIndex s).mMode = s.mMode
      ∧ (recordIndex s).mCameraInfo = s.mCameraInfo
      ∧ (recordIndex s).mTotalNumFrames = s.mTotalNumFrames
      ∧ (recordIndex s).mNumMegabytes = s.mNumMegabytes
      ∧ (recordIndex s).mNumFrames = s.mNumFrames
      ∧ (recordIndex s).mIndexIncrement = s.mIndexIncrement := by
  unfold recordIndex
  by_cases h1 : s.mNumFrames % s.mIndexIncrement = 0
  · by_cases h2 : s.mNumFrames / s.mIndexIncrement < 512 <;> simp [h1, h2]
  · simp [h1]

theorem recordIndex_count (s : LadybugStream) (h0 : 0 ≤ s.mOffsetCount)
    (h1 : s.mOffsetCount ≤ 512) :
    0 ≤ (recordIndex s).mOffsetCount ∧ (recordIndex s).mOffsetCount ≤ 512 := by
  unfold recordIndex
  by_cases h3 : s.mNumFrames % s.mIndexIncrement = 0
  · by_cases h2 : s.mNumFrames / s.mIndexIncrement < 512
    · simp only [h3, h2, if_true]
      generalize s.mNumFrames / s.mIndexIncrement = key at h2
      omega
    · simp only [h3, h2, if_true, if_false]
      exact ⟨h0, h1⟩
  · simp only [h3, if_false]
    exact ⟨h0, h1⟩

theorem writeImage_inPlace (D : Decls) (s : LadybugStream) (f : FileData) (image : LadybugImage)
    (hopen : s.mFile.isOpen = true) (hmode : s.mMode = Mode.Writing)
    (hdisk : s.disk s.mFile.fileName = some f) (hinc : s.mIndexIncrement ≠ 0)
    (hfit : s.mFile.pos + image.frameBytes < LIMIT_2GB) :
    writeImage D s image = some (true, wroteInPlace s f image) := by
  obtain ⟨r1, r2, r3, r4, r5, r6, r7, r8, r9, r10, r11⟩ := recordIndex_frame s
  have hnot : ¬ (filePos (recordIndex s) + image.frameBytes ≥ LIMIT_2GB) := by
    simp only [filePos, r3]
    omega
  unfold writeImage
  simp only [hopen, hmode, hinc, hnot, if_false, Bool.not_true, Bool.false_or, ne_eq,
    not_true_eq_false, decide_False, Bool.false_eq_true]
  simp only [fileWrite, r3, r1, hopen, hdisk, wroteInPlace, r8, r9, r10]

theorem startNextFile_ok (D : Decls) (s : LadybugStream) (f : FileData)
    (hopen : s.mFile.isOpen = true) (hmode : s.mMode = Mode.Writing)
    (hdisk : s.disk s.mFile.fileName = some f) (hcnt : s.mOffsetCount ≤ 768)
    (hcreate : s.creatable (pgrFilename s.mBaseName (s.mFileIndex + 1)) = true) :
    startNextFile D s
      = (true, openedWriting D (closedWriting s f) s.mBaseName (s.mFileIndex + 1)) := by
  unfold startNextFile
  rw [close_writing s f hopen hmode hdisk hcnt]
  exact openForWritingInternal_ok D (closedWriting s f) _ _ rfl hcreate

theorem startNextFile_denied (D : Decls) (s : LadybugStream) (f : FileData)
    (hopen : s.mFile.isOpen = true) (hmode : s.mMode = Mode.Writing)
    (hdisk : s.disk s.mFile.fileName = some f) (hcnt : s.mOffsetCount ≤ 768)
    (hcreate : s.creatable (pgrFilename s.mBaseName (s.mFileIndex + 1)) = false) :
    (startNextFile D s).1 = false := by
  unfold startNextFile
  rw [close_writing s f hopen hmode hdisk hcnt]
  simp only
  have h := openForWritingInternal_denied D (closedWriting s f) (closedWriting s f).mBaseName
    ((closedWriting s f).mFileIndex + 1) rfl hcreate
  rw [h]

theorem writeImage_rolled (D : Decls) (s : LadybugStream) (f : FileData) (image : LadybugImage)
    (hopen : s.mFile.isOpen = true) (hmode : s.mMode = Mode.Writing)
    (hdisk : s.disk s.mFile.fileName = some f) (hinc : s.mIndexIncrement ≠ 0)
    (h0 : 0 ≤ s.mOffsetCount) (h1 : s.mOffsetCount ≤ 512)
    (hfit : s.mFile.pos + image.frameBytes ≥ LIMIT_2GB)
    (hcreate : s.creatable (pgrFilename s.mBaseName (s.mFileIndex + 1)) = true) :
    writeImage D s image = some (true, wroteRolled D s f image) := by
  obtain ⟨r1, r2, r3, r4, r5, r6, r7, r8, r9, r10, r11⟩ := recordIndex_frame s
  have hc := recordIndex_count s h0 h1
  have hyes : filePos (recordIndex s) + image.frameBytes ≥ LIMIT_2GB := by
    simp only [filePos, r3]
    omega
  have hnext := startNextFile_ok D (recordIndex s) f (by rw [r3]; exact hopen)
    (by rw [r6]; exact hmode) (by rw [r1, r3]; exact hdisk) (by omega)
    (by rw [r2, r4, r5]; exact hcreate)
  unfold writeImage
  simp only [hopen, hmode, hinc, hyes, if_true, if_false, Bool.not_true, Bool.false_or, ne_eq,
    not_true_eq_false, decide_False, Bool.false_eq_true, hnext]
  simp [fileWrite, openedWriting, closedWriting, wroteRolled, r3, r4, r5, r7, r8, r9]

theorem writeImage_rollDenied (D : Decls) (s : LadybugStream) (f : FileData)
    (image : LadybugImage)
    (hopen : s.mFile.isOpen = true) (hmode : s.mMode = Mode.Writing)
    (hdisk : s.disk s.mFile.fileName = some f) (hinc : s.mIndexIncrement ≠ 0)
    (h0 : 0 ≤ s.mOffsetCount) (h1 : s.mOffsetCount ≤ 512)
    (hfit : s.mFile.pos + image.frameBytes ≥ LIMIT_2GB)
    (hcreate : s.creatable (pgrFilename s.mBaseName (s.mFileIndex + 1)) = false) :
    ∃ t, writeImage D s image = some (false, t) := by
  obtain ⟨r1, r2, r3, r4, r5, r6, r7, r8, r9, r10, r11⟩ := recordIndex_frame s
  have hc := recordIndex_count s h0 h1
  have hyes : filePos (recordIndex s) + image.frameBytes ≥ LIMIT_2GB := by
    simp only [filePos, r3]
    omega
  have hnext := startNextFile_denied D (recordIndex s) f (by rw [r3]; exact hopen)
    (by rw [r6]; exact hmode) (by rw [r1, r3]; exact hdisk) (by omega)
    (by rw [r2, r4, r5]; exact hcreate)
  unfold writeImage
  simp only [hopen, hmode, hinc, hyes, if_true, if_false, Bool.not_true, Bool.false_or, ne_eq,
    not_true_eq_false, decide_False, Bool.false_eq_true]
  rcases hs : startNextFile D (recordIndex s) with ⟨b, t⟩
  rw [hs] at hnext
  simp only at hnext
  subst hnext
  exact ⟨t, rfl⟩

theorem openForWriting_inv (D : Decls) (s0 s : LadybugStream) (baseName : String)
    (cameraInfo : LadybugInfo) (fileIndex : Int)
    (h : openForWriting D s0 baseName cameraInfo fileIndex = (true, s)) :
    s = openedWriting D { s0 with
        mTotalNumFrames := 0, mNumMegabytes := 0, mCameraInfo := cameraInfo } baseName fileIndex
      ∧ s0.mFile.isOpen = false ∧ s0.creatable (pgrFilename baseName fileIndex) = true := by
  have h2 : openForWritingInternal D { s0 with
      mTotalNumFrames := 0, mNumMegabytes := 0, mCameraInfo := cameraInfo } baseName fileIndex
      = (true, s) := h
  cases hopen : s0.mFile.isOpen
  · cases hcreate : s0.creatable (pgrFilename baseName fileIndex)
    · have e := openForWritingInternal_denied D { s0 with
        mTotalNumFrames := 0, mNumMegabytes := 0, mCameraInfo := cameraInfo } baseName fileIndex
        hopen hcreate
      rw [e] at h2
      simp at h2
    · have e := openForWritingInternal_ok D { s0 with
        mTotalNumFrames := 0, mNumMegabytes := 0, mCameraInfo := cameraInfo } baseName fileIndex
        hopen hcreate
      rw [e] at h2
      simp only [Prod.mk.injEq, true_and] at h2
      exact ⟨h2.symm, rfl, rfl⟩
  · have e := openForWritingInternal_open D { s0 with
      mTotalNumFrames := 0, mNumMegabytes := 0, mCameraInfo := cameraInfo } baseName fileIndex
      hopen
    rw [e] at h2
    simp at h2

theorem openedWriting_inv (D : Decls) (s : LadybugStream) (baseName : String) (fileIndex : Int) :
    WInv s.mCameraInfo baseName (openedWriting D s baseName fileIndex) where
  isOpen := rfl
  mode := rfl
  onDisk := ⟨freshFile D s.mCameraInfo, by simp [openedWriting]⟩
  increment := rfl
  count0 := le_refl _
  count512 := by simp [openedWriting]
  camera := rfl
  name := rfl
  base := rfl

theorem writeImage_cases (D : Decls) (cameraInfo : LadybugInfo) (baseName : String)
    (s : LadybugStream) (image : LadybugImage) (hinv : WInv cameraInfo baseName s) :
    ∃ f, s.disk s.mFile.fileName = some f ∧
      ((s.mFile.pos + image.frameBytes < LIMIT_2GB
          ∧ writeImage D s image = some (true, wroteInPlace s f image))
        ∨ (s.mFile.pos + image.frameBytes ≥ LIMIT_2GB
          ∧ writeImage D s image = some (true, wroteRolled D s f image))
        ∨ ∃ t, writeImage D s image = some (false, t)) := by
  obtain ⟨f, hf⟩ := hinv.onDisk
  refine ⟨f, hf, ?_⟩
  have hinc : s.mIndexIncrement ≠ 0 := by rw [hinv.increment]; decide
  by_cases hfit : s.mFile.pos + image.frameBytes < LIMIT_2GB
  · exact Or.inl ⟨hfit, writeImage_inPlace D s f image hinv.isOpen hinv.mode hf hinc hfit⟩
  · have hge : s.mFile.pos + image.frameBytes ≥ LIMIT_2GB := by omega
    cases hcreate : s.creatable (pgrFilename s.mBaseName (s.mFileIndex + 1))
    · exact Or.inr (Or.inr (writeImage_rollDenied D s f image hinv.isOpen hinv.mode hf hinc
        hinv.count0 hinv.count512 hge hcreate))
    · exact Or.inr (Or.inl ⟨hge, writeImage_rolled D s f image hinv.isOpen hinv.mode hf hinc
        hinv.count0 hinv.count512 hge hcreate⟩)

theorem wroteInPlace_inv (cameraInfo : LadybugInfo) (baseName : String) (s : LadybugStream)
    (f : FileData) (image : LadybugImage) (hinv : WInv cameraInfo baseName s) :
    WInv cameraInfo baseName (wroteInPlace s f image) := by
  obtain ⟨r1, r2, r3, r4, r5, r6, r7, r8, r9, r10, r11⟩ := recordIndex_frame s
  have hc := recordIndex_count s hinv.count0 hinv.count512
  exact {
    isOpen := hinv.isOpen
    mode := by simp only [wroteInPlace, r6]; exact hinv.mode
    onDisk := ⟨_, Function.update_same _ _ _⟩
    increment := by simp only [wroteInPlace, r11]; exact hinv.increment
    count0 := hc.1
    count512 := hc.2
    camera := by simp only [wroteInPlace, r7]; exact hinv.camera
    name := by simp only [wroteInPlace, r5]; exact hinv.name
    base := by simp only [wroteInPlace, r4]; exact hinv.base }

theorem wroteRolled_inv (D : Decls) (cameraInfo : LadybugInfo) (baseName : String)
    (s : LadybugStream) (f : FileData) (image : LadybugImage)
    (hinv : WInv cameraInfo baseName s) :
    WInv cameraInfo baseName (wroteRolled D s f image) := by
  obtain ⟨r1, r2, r3, r4, r5, r6, r7, r8, r9, r10, r11⟩ := recordIndex_frame s
  exact {
    isOpen := rfl
    mode := rfl
    onDisk := ⟨_, Function.update_same _ _ _⟩
    increment := rfl
    count0 := by simp [wroteRolled, openedWriting]
    count512 := by simp [wroteRolled, openedWriting]
    camera := by simp only [wroteRolled, openedWriting, closedWriting, r7]; exact hinv.camera
    name := by simp only [wroteRolled, openedWriting]; rw [hinv.base]
    base := by simp only [wroteRolled, openedWriting]; exact hinv.base }

theorem writerRun_inv (D : Decls) (s0 : LadybugStream) (baseName : String)
    (cameraInfo : LadybugInfo) (fileIndex : Int) (images : List LadybugImage)
    (s : LadybugStream) (hrun : WriterRun D s0 baseName cameraInfo fileIndex images s) :
    WInv cameraInfo baseName s := by
  induction hrun with
  | opened s h =>
    obtain ⟨hs, _, _⟩ := openForWriting_inv D s0 s baseName cameraInfo fileIndex h
    rw [hs]
    exact openedWriting_inv D { s0 with
      mTotalNumFrames := 0, mNumMegabytes := 0, mCameraInfo := cameraInfo } baseName fileIndex
  | wrote images s image s2 _ hw ih =>
    obtain ⟨f, _, hcase⟩ := writeImage_cases D cameraInfo baseName s image ih
    rcases hcase with ⟨_, h⟩ | ⟨_, h⟩ | ⟨t, h⟩
    · rw [h] at hw
      simp only [Option.some.injEq, Prod.mk.injEq, true_and] at hw
      rw [← hw]
      exact wroteInPlace_inv cameraInfo baseName s f image ih
    · rw [h] at hw
      simp only [Option.some.injEq, Prod.mk.injEq, true_and] at hw
      rw [← hw]
      exact wroteRolled_inv D cameraInfo baseName s f image ih
    · rw [h] at hw
      simp at hw

/-! ## Key count at a rollover, patches of `close`, size ceiling -/

/-- C4 (the code departs from the claim). The key count that `close` writes is wrong around a
rollover. A file created by a rollover and closed with one frame carries key count 0, not
`min(512, ceil(1/50)) = 1`; a file closed by a rollover after 50 frames carries key count 2,
not `min(512, ceil(50/50)) = 1`. -/
theorem rollover_key_count_off :
    demoRolled.mFileIndex = 1
      ∧ (demoRolled.disk (pgrFilename "s" 1)).map headerCounts = some (1, 0)
      ∧ min 512 ((1 + 49) / 50) = 1
      ∧ demoRolled50.mFileIndex = 1
      ∧ (demoRolled50.disk (pgrFilename "s" 0)).map headerCounts = some (50, 2)
      ∧ min 512 ((50 + 49) / 50) = 1 := by
  decide

/-- C8. Size ceiling: on any engine reached by `openForWriting` and successful `writeImage`
calls, a `writeImage` of a frame whose length plus the data-start offset is below `0x7fffffff`
returns a result, and when it succeeds: the write position afterwards is below `0x7fffffff`;
the file index moves to index+1 exactly when position + frame length reached `0x7fffffff`
before the write and stays otherwise; the frame's bytes lie contiguously inside the one open
file, ending at the write position; and after a rollover the frame starts at the data-start
offset of the new file and is its only record. -/
theorem size_ceiling (D : Decls) (s0 : LadybugStream) (baseName : String)
    (cameraInfo : LadybugInfo) (fileIndex : Int) (images : List LadybugImage)
    (s : LadybugStream) (image : LadybugImage)
    (hrun : WriterRun D s0 baseName cameraInfo fileIndex images s)
    (hfit : dataOffsetOf D cameraInfo.calibration.length + image.frameBytes < LIMIT_2GB) :
    (writeImage D s image).isSome = true ∧
    ∀ s2, writeImage D s image = some (true, s2) →
      s2.mFile.pos < LIMIT_2GB
      ∧ (s2.mFileIndex = s.mFileIndex + 1 ↔ s.mFile.pos + image.frameBytes ≥ LIMIT_2GB)
      ∧ (s2.mFileIndex = s.mFileIndex ↔ s.mFile.pos + image.frameBytes < LIMIT_2GB)
      ∧ s2.mFile.isOpen = true
      ∧ s2.mFile.fileName = pgrFilename baseName s2.mFileIndex
      ∧ (∃ f2, s2.disk s2.mFile.fileName = some f2
          ∧ image.frameBytes ≤ s2.mFile.pos
          ∧ (0 < image.frameBytes → s2.mFile.pos ≤ f2.size)
          ∧ ∀ i, i < image.frameBytes →
              f2.bytes (s2.mFile.pos - image.frameBytes + i) = image.frameData i)
      ∧ (s.mFile.pos + image.frameBytes < LIMIT_2GB →
          s2.mFile.pos = s.mFile.pos + image.frameBytes ∧ s2.mNumFrames = s.mNumFrames + 1)
      ∧ (s.mFile.pos + image.frameBytes ≥ LIMIT_2GB →
          s2.mFile.pos = dataOffsetOf D cameraInfo.calibration.length + image.frameBytes
            ∧ s2.mNumFrames = 1) := by
  have hinv := writerRun_inv D s0 baseName cameraInfo fileIndex images s hrun
  obtain ⟨f, hf, hcase⟩ := writeImage_cases D cameraInfo baseName s image hinv
  obtain ⟨r1, r2, r3, r4, r5, r6, r7, r8, r9, r10, r11⟩ := recordIndex_frame s
  have hcam := hinv.camera
  rcases hcase with ⟨hlt, h⟩ | ⟨hge, h⟩ | ⟨t, h⟩
  · refine ⟨by rw [h]; rfl, ?_⟩
    intro s2 hs2
    rw [h] at hs2
    simp only [Option.some.injEq, Prod.mk.injEq, true_and] at hs2
    subst hs2
    have hi2 := wroteInPlace_inv cameraInfo baseName s f image hinv
    have hidx : (wroteInPlace s f image).mFileIndex = s.mFileIndex := r5
    have hpos : (wroteInPlace s f image).mFile.pos = s.mFile.pos + image.frameBytes := rfl
    refine ⟨by rw [hpos]; exact hlt, ?_, ?_, hi2.isOpen, hi2.name, ?_, ?_, ?_⟩
    · rw [hidx]
      constructor
      · intro h1
        omega
      · intro h1
        omega
    · rw [hidx]
      exact ⟨fun _ => hlt, fun _ => rfl⟩
    · refine ⟨blit f s.mFile.pos image.frameData image.frameBytes, Function.update_same _ _ _,
        by rw [hpos]; omega, ?_, ?_⟩
      · intro hn
        rw [hpos]
        exact blit_size_end _ _ _ _ hn
      · intro i hi
        rw [hpos, blit_bytes_in _ _ _ _ _ (by omega)]
        congr 1
        omega
    · intro _
      exact ⟨rfl, by simp only [wroteInPlace]⟩
    · intro h1
      omega
  · refine ⟨by rw [h]; rfl, ?_⟩
    intro s2 hs2
    rw [h] at hs2
    simp only [Option.some.injEq, Prod.mk.injEq, true_and] at hs2
    subst hs2
    have hi2 := wroteRolled_inv D cameraInfo baseName s f image hinv
    have hidx : (wroteRolled D s f image).mFileIndex = s.mFileIndex + 1 := rfl
    have hpos : (wroteRolled D s f image).mFile.pos
        = dataOffsetOf D cameraInfo.calibration.length + image.frameBytes := by
      simp only [wroteRolled, openedWriting, closedWriting, r7, hcam]
    refine ⟨by rw [hpos]; exact hfit, ?_, ?_, hi2.isOpen, hi2.name, ?_, ?_, ?_⟩
    · rw [hidx]
      exact ⟨fun _ => hge, fun _ => rfl⟩
    · rw [hidx]
      constructor
      · intro h1
        omega
      · intro h1
        omega
    · refine ⟨blit (freshFile D s.mCameraInfo) (dataOffsetOf D cameraInfo.calibration.length)
        image.frameData image.frameBytes, ?_, by rw [hpos]; omega, ?_, ?_⟩
      · simp only [wroteRolled, openedWriting, closedWriting, r7, hcam]
        exact Function.update_same _ _ _
      · intro hn
        rw [hpos]
        exact blit_size_end _ _ _ _ hn
      · intro i hi
        rw [hpos, blit_bytes_in _ _ _ _ _ (by omega)]
        congr 1
        omega
    · intro h1
      omega
    · intro _
      exact ⟨hpos, rfl⟩
  · refine ⟨by rw [h]; rfl, ?_⟩
    intro s2 hs2
    rw [h] at hs2
    simp at hs2

theorem demoNearlyFull_run :
    WriterRun demoDecls blank "s" ⟨1, 2, [9, 9, 9]⟩ 0 [demoFrame 2147000000 1] demoNearlyFull :=
  WriterRun.wrote [] demoOpened (demoFrame 2147000000 1) demoNearlyFull
    (WriterRun.opened demoOpened rfl) rfl

/-- Witness for C8: a frame of 1000000 bytes written to the nearly full example file succeeds
and rolls over into file 1. -/
theorem size_ceiling_witness :
    writeImage demoDecls demoNearlyFull (demoFrame 1000000 2)
        = some (true, afterWrite demoDecls demoNearlyFull (demoFrame 1000000 2))
      ∧ demoNearlyFull.mFile.pos + (demoFrame 1000000 2).frameBytes ≥ LIMIT_2GB
      ∧ (afterWrite demoDecls demoNearlyFull (demoFrame 1000000 2)).mFile.pos < LIMIT_2GB
      ∧ (afterWrite demoDecls demoNearlyFull (demoFrame 1000000 2)).mFileIndex
          = demoNearlyFull.mFileIndex + 1 :=
  have h := (size_ceiling demoDecls blank "s" ⟨1, 2, [9, 9, 9]⟩ 0 [demoFrame 2147000000 1]
    demoNearlyFull (demoFrame 1000000 2) demoNearlyFull_run (by decide)).2 _ rfl
  ⟨rfl, by decide, h.1, h.2.1.mpr (by decide)⟩

/-! ## Reading a frame record; the scan over first-frame markers -/

theorem frameAt_same (D : Decls) (f : FileData) (p : Nat) (image : LadybugImage)
    (h : RecordAt D f p image) : SameBytes (frameAt D f p image.frameBytes) image := by
  obtain ⟨_, hb, _, hlen, h32⟩ := h
  refine ⟨rfl, ?_⟩
  intro i hi
  have hi2 : i < image.frameBytes := hi
  have hm : (image.frameBytes - D.sizeofImageHeader - D.sizeofImageInfo) % 2 ^ 32
      = image.frameBytes - D.sizeofImageHeader - D.sizeofImageInfo :=
    Nat.mod_eq_of_lt (by omega)
  simp only [frameAt, hm]
  by_cases h1 : D.sizeofImageHeader + D.sizeofImageInfo ≤ i
  · rw [if_pos h1, if_pos (by omega), ← hb i hi2]
    congr 1
    omega
  · rw [if_neg h1]
    by_cases h2 : i < D.sizeofImageHeader
    · rw [if_pos h2, if_pos h2, hb i hi2]
    · rw [if_neg h2, if_pos (by omega), if_pos (by omega), ← hb i hi2]
      congr 1
      omega

theorem fileRead_open (s : LadybugStream) (f : FileData) (n : Nat)
    (hopen : s.mFile.isOpen = true) (hdisk : s.disk s.mFile.fileName = some f)
    (hsize : s.mFile.pos + n ≤ f.size) :
    fileRead s n = ((n : Int), (fun i => if i < n then f.bytes (s.mFile.pos + i) else 0),
      { s with mFile := { s.mFile with pos := s.mFile.pos + n } }) := by
  have hmin : min n (f.size - s.mFile.pos) = n := by omega
  simp [fileRead, hopen, hdisk, hmin]

theorem readRecord_ok (D : Decls) (hD : D.WF) (s : LadybugStream) (f : FileData)
    (image img0 : LadybugImage)
    (hopen : s.mFile.isOpen = true) (hdisk : s.disk s.mFile.fileName = some f)
    (hrec : RecordAt D f s.mFile.pos image) :
    readRecord D s img0
      = some (true, frameAt D f s.mFile.pos image.frameBytes, readState s image.frameBytes) := by
  obtain ⟨hsz, hb, hlenf, hlen, h32⟩ := hrec
  have hH := hD.dataSizeInside
  have hA := hD.dataSizeAligned
  have hmin1 : min D.sizeofImageHeader (f.size - s.mFile.pos) = D.sizeofImageHeader := by omega
  have hmin2 : min D.sizeofImageInfo (f.size - (s.mFile.pos + D.sizeofImageHeader))
      = D.sizeofImageInfo := by omega
  have hm : (image.frameBytes - D.sizeofImageHeader - D.sizeofImageInfo) % 2 ^ 32
      = image.frameBytes - D.sizeofImageHeader - D.sizeofImageInfo :=
    Nat.mod_eq_of_lt (by omega)
  have hmin3 : min (image.frameBytes - D.sizeofImageHeader - D.sizeofImageInfo)
      (f.size - (s.mFile.pos + D.sizeofImageHeader + D.sizeofImageInfo))
      = image.frameBytes - D.sizeofImageHeader - D.sizeofImageInfo := by omega
  have hsize : get32 (big2little_struct
      (fun i => if i < D.sizeofImageHeader then f.bytes (s.mFile.pos + i) else 0)
      D.sizeofImageHeader) D.offDataSize = image.frameBytes := by
    rw [get32_big2little _ _ _ hA hH, ← hlenf]
    simp only [be32]
    rw [if_pos (by omega), if_pos (by omega), if_pos (by omega), if_pos (by omega),
      hb _ (by omega), hb _ (by omega), hb _ (by omega), hb _ (by omega)]
  have hnot : ¬ image.frameBytes < D.sizeofImageHeader + D.sizeofImageInfo := by omega
  have e : s.mFile.pos + D.sizeofImageHeader + D.sizeofImageInfo
      + (image.frameBytes - D.sizeofImageHeader - D.sizeofImageInfo)
      = s.mFile.pos + image.frameBytes := by omega
  simp only [readRecord, fileRead, hopen, hdisk, hmin1, hmin2, ne_eq, not_true_eq_false,
    if_false, hsize, hnot, hm, hmin3, frameAt, readState, e]

theorem readNextFrame_inFile (D : Decls) (hD : D.WF) (s : LadybugStream) (f : FileData)
    (image img0 : LadybugImage)
    (hopen : s.mFile.isOpen = true) (hmode : s.mMode = Mode.Reading)
    (htotal : s.mCurrentFrame < (s.mTotalNumFrames : Int))
    (hlo : s.mFirstFrame ≤ s.mCurrentFrame)
    (hhi : s.mCurrentFrame < s.mFirstFrame + s.mNumFrames)
    (hdisk : s.disk s.mFile.fileName = some f)
    (hrec : RecordAt D f s.mFile.pos image) :
    readNextFrame D s img0
      = some (true, frameAt D f s.mFile.pos image.frameBytes, readState s image.frameBytes) := by
  have h1 : ¬ (s.mCurrentFrame ≥ (s.mTotalNumFrames : Int)) := by omega
  have h2 : ¬ (s.mCurrentFrame < s.mFirstFrame ∨ s.mCurrentFrame ≥ s.mFirstFrame + s.mNumFrames) := by
    omega
  unfold readNextFrame
  simp only [hopen, hmode, h1, h2, if_false, Bool.not_true, Bool.false_or, ne_eq,
    not_true_eq_false, decide_False, Bool.false_eq_true]
  exact readRecord_ok D hD s f image img0 hopen hdisk hrec

theorem readNextFrame_atEnd (D : Decls) (s : LadybugStream) (img0 : LadybugImage)
    (hend : s.mCurrentFrame ≥ (s.mTotalNumFrames : Int)) :
    readNextFrame D s img0 = some (false, img0, s) := by
  unfold readNextFrame
  by_cases h : (!s.mFile.isOpen || decide (s.mMode ≠ Mode.Reading)) = true
  · simp only [h, if_true]
  · simp only [h, hend, if_true, if_false, Bool.false_eq_true]

theorem firstFramesFrom_length (counts : List Nat) (a : Int) :
    (firstFramesFrom a counts).length = counts.length := by
  induction counts generalizing a with
  | nil => rfl
  | cons n rest ih => simp [firstFramesFrom, ih]

theorem firstFramesFrom_getD (counts : List Nat) (a : Int) (j : Nat) (hj : j < counts.length) :
    (firstFramesFrom a counts).getD j 0 = a + ((counts.take j).sum : Nat) := by
  induction counts generalizing a j with
  | nil => simp at hj
  | cons n rest ih =>
    cases j with
    | zero => simp [firstFramesFrom]
    | succ j =>
      simp only [firstFramesFrom, List.getD_cons_succ, List.take_succ_cons, List.sum_cons]
      rw [ih (a + n) j (by simpa using hj)]
      push_cast
      omega

theorem scanFirstFrames_ge (l : List Int) (frameId : Int) (k : Nat) :
    k ≤ scanFirstFrames l frameId k := by
  induction l generalizing k with
  | nil => exact le_refl _
  | cons x rest ih =>
    simp only [scanFirstFrames]
    split
    · exact le_trans (by omega) (ih (k + 1))
    · exact le_refl _

theorem scanFirstFrames_spec (counts : List Nat) (a : Int) (k : Nat) (frameId : Int) (j : Nat)
    (hj : j < counts.length) (hlo : a + ((counts.take j).sum : Nat) ≤ frameId)
    (hhi : frameId < a + ((counts.take (j + 1)).sum : Nat)) :
    scanFirstFrames (firstFramesFrom a counts) frameId k = k + j + 1 := by
  induction counts generalizing a k j with
  | nil => simp at hj
  | cons n rest ih =>
    have ha : a ≤ frameId := by
      have : (0 : Int) ≤ (((n :: rest).take j).sum : Nat) := Int.natCast_nonneg _
      omega
    simp only [firstFramesFrom, scanFirstFrames, ha, if_true]
    cases j with
    | zero =>
      simp only [List.take_succ_cons, List.take_zero, List.sum_cons, List.sum_nil] at hhi
      cases rest with
      | nil => simp [firstFramesFrom, scanFirstFrames]
      | cons m rest2 =>
        have hnot : ¬ (a + (n : Int) ≤ frameId) := by omega
        simp [firstFramesFrom, scanFirstFrames, hnot]
    | succ j =>
      simp only [List.take_succ_cons, List.sum_cons] at hlo hhi
      rw [ih (a + n) (k + 1) j (by simpa using hj) (by push_cast at hlo ⊢; omega)
        (by push_cast at hhi ⊢; omega)]
      omega

theorem seekToFrame_firstOfFile (D : Decls) (s : LadybugStream) (frameId : Int) (j : Nat)
    (fnext : FileData)
    (hopen : s.mFile.isOpen = true) (hmode : s.mMode = Mode.Reading)
    (h0 : 0 ≤ frameId) (htotal : frameId < (s.mTotalNumFrames : Int))
    (hout : frameId < s.mFirstFrame ∨ frameId ≥ s.mFirstFrame + s.mNumFrames)
    (hscan : scanFirstFrames s.mFirstFrameList frameId 0 = j + 1)
    (hget : s.mFirstFrameList.getD j 0 = frameId)
    (hdisk : s.disk (pgrFilename s.mBaseName (s.mFirstFileIndex + j)) = some fnext)
    (hsup : Supported D fnext)
    (hinc : get32 (headerOf D fnext) (D.off .ulIncrement) ≠ 0) :
    seekToFrame D s frameId
      = some (true, openedFor D (fileClose s) (s.mFirstFileIndex + j) frameId fnext) := by
  have hr : ¬ (frameId < 0 ∨ frameId ≥ (s.mTotalNumFrames : Int)) := by omega
  have e : s.mFirstFileIndex + ((j + 1 : Nat) : Int) - 1 = s.mFirstFileIndex + j := by
    push_cast
    omega
  have hopenI := openForReadingInternal_supported D (fileClose s) (s.mFirstFileIndex + j)
    frameId fnext rfl hdisk hsup
  have hidx : ∀ c : Int, ¬ ((if (0 : Int) ≥ c then c - 1 else 0) > 0) := by
    intro c
    split <;> omega
  unfold seekToFrame
  simp only [hopen, hmode, hr, hout, if_true, if_false, Bool.not_true, Bool.false_or, ne_eq,
    not_true_eq_false, decide_False, Bool.false_eq_true, hscan, Nat.add_one_ne_zero,
    Nat.add_sub_cancel, hget, e, close_reading s hopen hmode, hopenI]
  simp only [openedFor, hinc, if_false, sub_self, Int.zero_ediv, hidx, false_and, fileSeek,
    Int.natCast_nonneg, and_self, if_true, Int.toNat_ofNat, Int.toNat_zero, skipFrames]

theorem sum_take_succ_getD (l : List Nat) (k : Nat) (hk : k < l.length) :
    (l.take (k + 1)).sum = (l.take k).sum + l.getD k 0 := by
  induction l generalizing k with
  | nil => simp at hk
  | cons n rest ih =>
    cases k with
    | zero => simp
    | succ k =>
      simp only [List.take_succ_cons, List.sum_cons, List.getD_cons_succ]
      rw [ih k (by simpa using hk)]
      omega

theorem sum_take_le_sum (l : List Nat) (k : Nat) : (l.take k).sum ≤ l.sum := by
  induction l generalizing k with
  | nil => simp
  | cons n rest ih =>
    cases k with
    | zero => simp
    | succ k =>
      simp only [List.take_succ_cons, List.sum_cons]
      have := ih k
      omega

/-- C7. Cross-file sequential read: the engine is open for reading on file `i` of a stream
whose files hold `counts` frames, with the first-frame list and total that `openForReading`
builds from these counts, and the cursor equals the first global frame number of file `i+1`.
If file `i+1` is a supported container with a non-zero index increment that starts with the
frame record `image`, then `readNextFrame` succeeds, returns the bytes of `image`, and leaves
file `i+1` open with the cursor advanced by one. -/
theorem cross_file_read (D : Decls) (hD : D.WF) (s : LadybugStream) (counts : List Nat)
    (i : Nat) (fnext : FileData) (image img0 : LadybugImage)
    (hopen : s.mFile.isOpen = true) (hmode : s.mMode = Mode.Reading)
    (hi : i + 1 < counts.length)
    (hlist : s.mFirstFrameList = firstFramesFrom 0 counts)
    (htotal : s.mTotalNumFrames = counts.sum)
    (hfile : s.mFileIndex = s.mFirstFileIndex + i)
    (hfirst : s.mFirstFrame = ((counts.take i).sum : Nat))
    (hnum : s.mNumFrames = counts.getD i 0)
    (hcursor : s.mCurrentFrame = ((counts.take (i + 1)).sum : Nat))
    (hdisk : s.disk (pgrFilename s.mBaseName (s.mFirstFileIndex + ((i + 1 : Nat) : Int)))
      = some fnext)
    (hsup : Supported D fnext)
    (hcount : get32 (headerOf D fnext) (D.off .ulNumberOfImages) = counts.getD (i + 1) 0)
    (hpos : 0 < counts.getD (i + 1) 0)
    (hinc : get32 (headerOf D fnext) (D.off .ulIncrement) ≠ 0)
    (hrec : RecordAt D fnext (get32 (headerOf D fnext) (D.off .ulStreamDataOffset)) image) :
    ∃ out s2, readNextFrame D s img0 = some (true, out, s2) ∧ SameBytes out image
      ∧ s2.mFile.isOpen = true
      ∧ s2.mFile.fileName = pgrFilename s.mBaseName (s.mFirstFileIndex + ((i + 1 : Nat) : Int))
      ∧ s2.mFileIndex = s.mFileIndex + 1
      ∧ s2.mCurrentFrame = s.mCurrentFrame + 1
      ∧ s2.mFirstFrame = s.mCurrentFrame
      ∧ s2.mNumFrames = counts.getD (i + 1) 0 := by
  have hs1 := sum_take_succ_getD counts i (by omega)
  have hs2 := sum_take_succ_getD counts (i + 1) hi
  have hs3 := sum_take_le_sum counts (i + 1 + 1)
  have hlt : s.mCurrentFrame < (s.mTotalNumFrames : Int) := by
    rw [hcursor, htotal]
    exact_mod_cast (by omega : (counts.take (i + 1)).sum < counts.sum)
  have hout : s.mCurrentFrame < s.mFirstFrame
      ∨ s.mCurrentFrame ≥ s.mFirstFrame + s.mNumFrames := by
    right
    rw [hcursor, hfirst, hnum, hs1]
    push_cast
    omega
  have hscan : scanFirstFrames s.mFirstFrameList s.mCurrentFrame 0 = (i + 1) + 1 := by
    rw [hlist, scanFirstFrames_spec counts 0 0 s.mCurrentFrame (i + 1) hi
      (by rw [hcursor]; omega) (by rw [hcursor, hs2]; push_cast; omega)]
    omega
  have hget : s.mFirstFrameList.getD (i + 1) 0 = s.mCurrentFrame := by
    rw [hlist, firstFramesFrom_getD counts 0 (i + 1) hi, hcursor]
    omega
  have hseek := seekToFrame_firstOfFile D s s.mCurrentFrame (i + 1) fnext hopen hmode
    (by rw [hcursor]; exact Int.natCast_nonneg _) hlt hout hscan hget hdisk hsup hinc
  have h1 : ¬ (s.mCurrentFrame ≥ (s.mTotalNumFrames : Int)) := by omega
  have hread := readRecord_ok D hD
    (openedFor D (fileClose s) (s.mFirstFileIndex + ((i + 1 : Nat) : Int)) s.mCurrentFrame fnext)
    fnext image img0 rfl hdisk hrec
  refine ⟨frameAt D fnext (get32 (headerOf D fnext) (D.off .ulStreamDataOffset))
      image.frameBytes,
    readState (openedFor D (fileClose s) (s.mFirstFileIndex + ((i + 1 : Nat) : Int))
      s.mCurrentFrame fnext) image.frameBytes,
    ?_, frameAt_same D fnext _ image hrec, rfl, rfl, ?_, rfl, rfl, hcount⟩
  · unfold readNextFrame
    simp only [hopen, hmode, h1, hout, if_true, if_false, Bool.not_true, Bool.false_or, ne_eq,
      not_true_eq_false, decide_False, Bool.false_eq_true, hseek, Option.map_some']
    exact hread
  · show s.mFirstFileIndex + ((i + 1 : Nat) : Int) = s.mFileIndex + 1
    rw [hfile]
    push_cast
    omega

theorem demoDecls_wf : demoDecls.WF where
  apart := by
    intro f g h
    cases f <;> cases g <;> first | exact absurd rfl h | (unfold Apart; decide)
  table := by
    intro f
    cases f <;> decide
  inside := by
    intro f
    cases f <;> decide
  tableInside := by decide
  numImages := rfl
  numKeyIndex := rfl
  offsetTable := rfl
  fmt32 := by decide
  res32 := by decide
  bggr32 := by decide
  dataSizeInside := by decide
  dataSizeAligned := rfl

/-- Witness for C7: in the two-file example recording, after the single frame of file 0 has
been read, the next `readNextFrame` returns the 40-byte frame that starts file 1. -/
theorem cross_file_read_witness :
    ∃ out s2, readNextFrame demoDecls demoAtBoundary ⟨fun _ => 0, 0⟩ = some (true, out, s2)
      ∧ SameBytes out (demoFrame 40 2)
      ∧ s2.mFile.isOpen = true
      ∧ s2.mFile.fileName = pgrFilename demoAtBoundary.mBaseName
          (demoAtBoundary.mFirstFileIndex + ((0 + 1 : Nat) : Int))
      ∧ s2.mFileIndex = demoAtBoundary.mFileIndex + 1
      ∧ s2.mCurrentFrame = demoAtBoundary.mCurrentFrame + 1
      ∧ s2.mFirstFrame = demoAtBoundary.mCurrentFrame
      ∧ s2.mNumFrames = [1, 1].getD (0 + 1) 0 :=
  cross_file_read demoDecls demoDecls_wf demoAtBoundary [1, 1] 0 demoSecondFile (demoFrame 40 2) ⟨fun _ => 0, 0⟩
    (by decide) (by decide) (by decide) (by decide) (by decide) (by decide) (by decide)
    (by decide) (by decide) rfl (by decide) (by decide) (by decide) (by decide) (by decide)

/-! ## Round trip -/

theorem totalBytes_cons (image : LadybugImage) (rest : List LadybugImage) :
    totalBytes (image :: rest) = image.frameBytes + totalBytes rest := by
  simp [totalBytes]

theorem blitFrames_bytes_lt (f : FileData) (p : Nat) (images : List LadybugImage) (i : Nat)
    (hi : i < p) : (blitFrames f p images).bytes i = f.bytes i := by
  induction images generalizing f p with
  | nil => rfl
  | cons image rest ih =>
    simp only [blitFrames]
    rw [ih _ _ (by omega), blit_bytes_out _ _ _ _ _ (by omega)]

theorem blitFrames_size_ge (f : FileData) (p : Nat) (images : List LadybugImage) :
    f.size ≤ (blitFrames f p images).size := by
  induction images generalizing f p with
  | nil => exact le_refl _
  | cons image rest ih =>
    simp only [blitFrames]
    exact le_trans (blit_size_ge _ _ _ _) (ih _ _)

theorem framesAt_blitFrames (D : Decls) (f : FileData) (p : Nat) (images : List LadybugImage)
    (hwf : ∀ im ∈ images, WellFramed D im) (hpos : 0 < D.sizeofImageHeader)
    (h32 : p + totalBytes images < 2 ^ 32) :
    FramesAt D (blitFrames f p images) p images := by
  induction images generalizing f p with
  | nil => trivial
  | cons image rest ih =>
    obtain ⟨hlen, hsz⟩ := hwf image (List.mem_cons_self _ _)
    rw [totalBytes_cons] at h32
    simp only [blitFrames, FramesAt]
    refine ⟨⟨?_, ?_, hlen, hsz, by omega⟩, ?_⟩
    · exact le_trans (blit_size_end _ _ _ _ (by omega)) (blitFrames_size_ge _ _ _)
    · intro i hi
      rw [blitFrames_bytes_lt _ _ _ _ (by omega), blit_bytes_in _ _ _ _ _ (by omega)]
      congr 1
      omega
    · exact ih _ _ (fun im him => hwf im (List.mem_cons_of_mem _ him)) (by omega)

theorem recordAt_congr (D : Decls) (f g : FileData) (p : Nat) (image : LadybugImage)
    (hb : ∀ i, p ≤ i → g.bytes i = f.bytes i) (hs : f.size ≤ g.size)
    (h : RecordAt D f p image) : RecordAt D g p image := by
  obtain ⟨h1, h2, h3, h4, h5⟩ := h
  exact ⟨by omega, fun i hi => by rw [hb _ (by omega)]; exact h2 i hi, h3, h4, h5⟩

theorem framesAt_congr (D : Decls) (f g : FileData) (p : Nat) (images : List LadybugImage)
    (hb : ∀ i, p ≤ i → g.bytes i = f.bytes i) (hs : f.size ≤ g.size)
    (h : FramesAt D f p images) : FramesAt D g p images := by
  induction images generalizing p with
  | nil => trivial
  | cons image rest ih =>
    obtain ⟨h1, h2⟩ := h
    exact ⟨recordAt_congr D f g p image hb hs h1,
      ih _ (fun i hi => hb i (by omega)) h2⟩

theorem length_le_totalBytes (D : Decls) (images : List LadybugImage)
    (hwf : ∀ im ∈ images, WellFramed D im) (hpos : 0 < D.sizeofImageHeader) :
    images.length ≤ totalBytes images := by
  induction images with
  | nil => simp [totalBytes]
  | cons image rest ih =>
    obtain ⟨_, hsz⟩ := hwf image (List.mem_cons_self _ _)
    rw [totalBytes_cons, List.length_cons]
    have := ih (fun im him => hwf im (List.mem_cons_of_mem _ him))
    omega

theorem writeAll_inPlace (D : Decls) (cameraInfo : LadybugInfo) (baseName : String)
    (images : List LadybugImage) (s : LadybugStream) (f : FileData)
    (hinv : WInv cameraInfo baseName s) (hdisk : s.disk s.mFile.fileName = some f)
    (hfit : s.mFile.pos + totalBytes images < LIMIT_2GB) :
    ∃ s2, writeAll D images s = some s2 ∧ WInv cameraInfo baseName s2
      ∧ s2.mFile.fileName = s.mFile.fileName
      ∧ s2.mFile.pos = s.mFile.pos + totalBytes images
      ∧ s2.mNumFrames = s.mNumFrames + images.length
      ∧ s2.mTotalNumFrames = s.mTotalNumFrames + images.length
      ∧ s2.disk = Function.update s.disk s.mFile.fileName
          (some (blitFrames f s.mFile.pos images))
      ∧ s2.creatable = s.creatable ∧ s2.mFileIndex = s.mFileIndex := by
  induction images generalizing s f with
  | nil =>
    refine ⟨s, rfl, hinv, rfl, by simp [totalBytes], rfl, rfl, ?_, rfl, rfl⟩
    simp only [blitFrames]
    rw [← hdisk, Function.update_eq_self]
  | cons image rest ih =>
    rw [totalBytes_cons] at hfit
    obtain ⟨r1, r2, r3, r4, r5, r6, r7, r8, r9, r10, r11⟩ := recordIndex_frame s
    have hinc : s.mIndexIncrement ≠ 0 := by rw [hinv.increment]; decide
    have hw := writeImage_inPlace D s f image hinv.isOpen hinv.mode hdisk hinc (by omega)
    have hinv2 := wroteInPlace_inv cameraInfo baseName s f image hinv
    obtain ⟨s2, h1, h2, h3, h4, h5, h6, h7, h8, h9⟩ := ih (wroteInPlace s f image)
      (blit f s.mFile.pos image.frameData image.frameBytes) hinv2
      (Function.update_same _ _ _) (by simp only [wroteInPlace]; omega)
    refine ⟨s2, ?_, h2, ?_, ?_, ?_, ?_, ?_, ?_, ?_⟩
    · simp only [writeAll, hw]
      exact h1
    · rw [h3]
      rfl
    · rw [h4, totalBytes_cons]
      simp only [wroteInPlace]
      omega
    · rw [h5, List.length_cons]
      simp only [wroteInPlace]
      omega
    · rw [h6, List.length_cons]
      simp only [wroteInPlace]
      omega
    · rw [h7]
      simp only [wroteInPlace, blitFrames, Function.update_idem]
    · rw [h8]
      exact r2
    · rw [h9]
      exact r5

theorem headerOf_get32 (D : Decls) (f : FileData) (off : Nat) (h : off + 4 ≤ D.sizeofHead) :
    get32 (headerOf D f) off = get32 f.bytes (16 + off) := by
  simp only [get32, headerOf]
  rw [if_pos (by omega), if_pos (by omega), if_pos (by omega), if_pos (by omega)]
  simp only [Nat.add_assoc]

theorem get32_blit_in (f : FileData) (pos : Nat) (src : Nat → Nat) (n off : Nat)
    (h : off + 4 ≤ n) : get32 (blit f pos src n).bytes (pos + off) = get32 src off := by
  simp only [get32]
  rw [blit_bytes_in _ _ _ _ _ (by omega), blit_bytes_in _ _ _ _ _ (by omega),
    blit_bytes_in _ _ _ _ _ (by omega), blit_bytes_in _ _ _ _ _ (by omega)]
  have e0 : pos + off - pos = off := by omega
  have e1 : pos + off + 1 - pos = off + 1 := by omega
  have e2 : pos + off + 2 - pos = off + 2 := by omega
  have e3 : pos + off + 3 - pos = off + 3 := by omega
  rw [e0, e1, e2, e3]

theorem get32_blitFrames_lt (f : FileData) (p : Nat) (images : List LadybugImage) (o : Nat)
    (h : o + 4 ≤ p) : get32 (blitFrames f p images).bytes o = get32 f.bytes o := by
  apply get32_congr
  intro j hj
  exact blitFrames_bytes_lt _ _ _ _ (by omega)

theorem patchHeader_get32_out (f : FileData) (numFrames : Nat) (offsetCount : Int)
    (offsets : Nat → Nat) (o : Nat) (h1 : offsetCount ≤ 512)
    (h : o + 4 ≤ 16 + 0x88 ∨ (16 + 0x90 ≤ o ∧ o + 4 ≤ 16 + 0x3f0) ∨ 16 + 0xbf0 ≤ o) :
    get32 (patchHeader f numFrames offsetCount offsets).bytes o = get32 f.bytes o := by
  apply get32_congr
  intro j hj
  apply patchHeader_bytes_out
  unfold Patched
  push_neg
  refine ⟨by omega, by omega, ?_⟩
  intro i hi
  omega

theorem freshFile_size (D : Decls) (cameraInfo : LadybugInfo) (hS : 0 < D.sizeofHead) :
    (freshFile D cameraInfo).size = 16 + D.sizeofHead + cameraInfo.calibration.length := by
  simp only [freshFile, blit]
  have h1 : ¬ (16 = 0) := by omega
  have h2 : ¬ (D.sizeofHead = 0) := by omega
  simp only [h1, h2, if_false]
  split <;> omega

theorem freshFile_sig (D : Decls) (cameraInfo : LadybugInfo) (i : Nat) (hi : i < 16) :
    (freshFile D cameraInfo).bytes i = ofList STREAM_SIGNATURE i := by
  simp only [freshFile]
  rw [blit_bytes_out _ _ _ _ _ (by omega), blit_bytes_out _ _ _ _ _ (by omega),
    blit_bytes_in _ _ _ _ _ (by omega)]
  rfl

theorem freshFile_get32 (D : Decls) (cameraInfo : LadybugInfo) (off : Nat)
    (h : off + 4 ≤ D.sizeofHead) :
    get32 (freshFile D cameraInfo).bytes (16 + off)
      = get32 (initHeader D cameraInfo (dataOffsetOf D cameraInfo.calibration.length)) off := by
  simp only [freshFile]
  rw [get32_blit_out _ _ _ _ _ (by omega)]
  exact get32_blit_in _ _ _ _ _ h

theorem initHeader_fields (D : Decls) (hD : D.WF) (cameraInfo : LadybugInfo) (dataOffset : Nat) :
    get32 (initHeader D cameraInfo dataOffset) (D.off .dataFormat)
        = D.colorSepSequentialJpeg
      ∧ get32 (initHeader D cameraInfo dataOffset) (D.off .resolution) = D.resolution1024x768
      ∧ get32 (initHeader D cameraInfo dataOffset) (D.off .stippledFormat) = D.bggr
      ∧ get32 (initHeader D cameraInfo dataOffset) (D.off .ulStreamDataOffset)
        = dataOffset % 2 ^ 32
      ∧ get32 (initHeader D cameraInfo dataOffset) (D.off .ulIncrement) = IDX_INCREMENT := by
  have htab : ∀ g : HeadField, Apart (D.offOffsetTable + 4 * 511) (D.off g) := by
    intro g
    have := hD.table g
    unfold Apart
    omega
  simp only [initHeader]
  refine ⟨?_, ?_, ?_, ?_, ?_⟩
  all_goals
    repeat (first
      | rw [get32_put32_same]
      | rw [get32_put32_apart _ _ _ _ (hD.apart _ _ (by decide))]
      | rw [get32_put32_apart _ _ _ _ (htab _)])
  · exact Nat.mod_eq_of_lt hD.fmt32
  · exact Nat.mod_eq_of_lt hD.res32
  · exact Nat.mod_eq_of_lt hD.bggr32
  · rfl

theorem finalFile_spec (D : Decls) (hD : D.WF) (cameraInfo : LadybugInfo)
    (images : List LadybugImage) (offsetCount : Int) (offsets : Nat → Nat)
    (hwf : ∀ im ∈ images, WellFramed D im)
    (hraw : 16 + D.sizeofHead + cameraInfo.calibration.length < LIMIT_2GB)
    (hfit : dataOffsetOf D cameraInfo.calibration.length + totalBytes images < LIMIT_2GB)
    (h0 : 0 ≤ offsetCount) (h512 : offsetCount ≤ 512) :
    Supported D (finalFile D cameraInfo images offsetCount offsets)
      ∧ get32 (headerOf D (finalFile D cameraInfo images offsetCount offsets))
          (D.off .ulNumberOfImages) = images.length
      ∧ get32 (headerOf D (finalFile D cameraInfo images offsetCount offsets))
          (D.off .ulStreamDataOffset) = dataOffsetOf D cameraInfo.calibration.length
      ∧ FramesAt D (finalFile D cameraInfo images offsetCount offsets)
          (dataOffsetOf D cameraInfo.calibration.length) images := by
  have hlim : LIMIT_2GB = 2147483647 := rfl
  have hDO := dataOffsetOf_eq D cameraInfo.calibration.length (by omega)
  have hS := hD.tableInside
  have hT := hD.offsetTable
  have hH := hD.dataSizeInside
  have hN := length_le_totalBytes D images hwf (by omega)
  have hF := initHeader_fields D hD cameraInfo (dataOffsetOf D cameraInfo.calibration.length)
  have hfs := freshFile_size D cameraInfo (by omega)
  have hbs := blitFrames_size_ge (freshFile D cameraInfo)
    (dataOffsetOf D cameraInfo.calibration.length) images
  have hsize : (finalFile D cameraInfo images offsetCount offsets).size
      = (blitFrames (freshFile D cameraInfo) (dataOffsetOf D cameraInfo.calibration.length)
          images).size := patchHeader_size _ _ _ _ (by omega)
  have hfield : ∀ g : HeadField, g ≠ .ulNumberOfImages → g ≠ .ulNumberOfKeyIndex →
      get32 (headerOf D (finalFile D cameraInfo images offsetCount offsets)) (D.off g)
        = get32 (initHeader D cameraInfo (dataOffsetOf D cameraInfo.calibration.length))
            (D.off g) := by
    intro g hg1 hg2
    have hin := hD.inside g
    have ha1 := hD.apart g .ulNumberOfImages hg1
    have ha2 := hD.apart g .ulNumberOfKeyIndex hg2
    have ha3 := hD.table g
    rw [hD.numImages] at ha1
    rw [hD.numKeyIndex] at ha2
    unfold Apart at ha1 ha2
    rw [headerOf_get32 D _ _ hin]
    unfold finalFile
    rw [patchHeader_get32_out _ _ _ _ _ h512 (by omega),
      get32_blitFrames_lt _ _ _ _ (by omega), freshFile_get32 D cameraInfo _ hin]
  refine ⟨⟨?_, by rw [hsize]; omega, ?_, ?_, ?_⟩, ?_, ?_, ?_⟩
  · have h16 : min 16 (finalFile D cameraInfo images offsetCount offsets).size = 16 := by
      rw [hsize]
      omega
    rw [h16]
    have hb : bytesOf (finalFile D cameraInfo images offsetCount offsets).bytes 16
        = bytesOf (ofList STREAM_SIGNATURE) 16 := by
      apply bytesOf_congr
      intro i hi
      unfold finalFile
      rw [patchHeader_bytes_out _ _ _ _ _ (by
          unfold Patched
          push_neg
          refine ⟨by omega, by omega, ?_⟩
          intro k hk
          omega),
        blitFrames_bytes_lt _ _ _ _ (by omega), freshFile_sig D cameraInfo i hi]
    rw [hb]
    rfl
  · rw [hfield _ (by decide) (by decide)]
    exact hF.1
  · rw [hfield _ (by decide) (by decide)]
    exact hF.2.1
  · rw [hfield _ (by decide) (by decide)]
    exact hF.2.2.1
  · rw [headerOf_get32 D _ _ (hD.inside _), hD.numImages]
    unfold finalFile
    rw [patchHeader_numFrames _ _ _ _ h512]
    exact Nat.mod_eq_of_lt (by omega)
  · rw [hfield _ (by decide) (by decide), hF.2.2.2.1]
    exact Nat.mod_eq_of_lt (by omega)
  · apply framesAt_congr D _ _ _ _ ?_ (by rw [hsize])
      (framesAt_blitFrames D _ _ _ hwf (by omega) (by omega))
    intro i hi
    unfold finalFile
    exact patchHeader_bytes_ge _ _ _ _ _ (by omega)

theorem readAll_spec (D : Decls) (hD : D.WF) (rest : List LadybugImage) (t : LadybugStream)
    (g : FileData) (hopen : t.mFile.isOpen = true) (hmode : t.mMode = Mode.Reading)
    (hdisk : t.disk t.mFile.fileName = some g) (hframes : FramesAt D g t.mFile.pos rest)
    (hlo : t.mFirstFrame ≤ t.mCurrentFrame)
    (hhi : t.mCurrentFrame + rest.length ≤ t.mFirstFrame + t.mNumFrames)
    (htot : t.mCurrentFrame + rest.length ≤ (t.mTotalNumFrames : Int)) :
    ∃ outs t2, readAll D rest.length t = some (outs, t2) ∧ List.Forall₂ SameBytes outs rest
      ∧ t2.mCurrentFrame = t.mCurrentFrame + rest.length
      ∧ t2.mTotalNumFrames = t.mTotalNumFrames := by
  induction rest generalizing t with
  | nil => exact ⟨[], t, rfl, List.Forall₂.nil, by simp, rfl⟩
  | cons image rest ih =>
    obtain ⟨hrec, hrest⟩ := hframes
    simp only [List.length_cons, Nat.cast_add, Nat.cast_one] at hhi htot
    have hread := readNextFrame_inFile D hD t g image ⟨fun _ => 0, 0⟩ hopen hmode (by omega) hlo
      (by omega) hdisk hrec
    obtain ⟨outs, t2, h1, h2, h3, h4⟩ := ih (readState t image.frameBytes) hopen hmode hdisk
      hrest (by simp only [readState]; omega) (by simp only [readState]; omega)
      (by simp only [readState]; omega)
    refine ⟨frameAt D g t.mFile.pos image.frameBytes :: outs, t2, ?_,
      List.Forall₂.cons (frameAt_same D g _ image hrec) h2, ?_, ?_⟩
    · simp only [List.length_cons, readAll, hread, h1, Option.map_some']
    · rw [h3]
      simp only [readState, List.length_cons, Nat.cast_add, Nat.cast_one]
      omega
    · rw [h4]
      rfl

theorem openForReading_single (D : Decls) (s : LadybugStream) (baseName : String)
    (fileIndex : Int) (g : FileData) (fuel : Nat) (hfuel : 2 ≤ fuel)
    (hclosed : s.mFile.isOpen = false)
    (hdisk : s.disk (pgrFilename baseName fileIndex) = some g) (hsup : Supported D g)
    (hnext : s.disk (pgrFilename baseName (fileIndex + 1)) = none) :
    ∃ s4, openForReading D fuel s baseName fileIndex = some (true, s4)
      ∧ s4.mFile.isOpen = true ∧ s4.mMode = Mode.Reading
      ∧ s4.disk s4.mFile.fileName = some g
      ∧ s4.mFile.pos = get32 (headerOf D g) (D.off .ulStreamDataOffset)
      ∧ s4.mCurrentFrame = 0 ∧ s4.mFirstFrame = 0
      ∧ s4.mNumFrames = get32 (headerOf D g) (D.off .ulNumberOfImages)
      ∧ s4.mTotalNumFrames = get32 (headerOf D g) (D.off .ulNumberOfImages)
      ∧ s4.mTotalNumFiles = 1 ∧ s4.mFirstFrameList = [0]
      ∧ s4.mOffsetCount = toInt32 (get32 (headerOf D g) (D.off .ulNumberOfKeyIndex))
      ∧ s4.mIndexIncrement = get32 (headerOf D g) (D.off .ulIncrement)
      ∧ s4.mDataOffset = get32 (headerOf D g) (D.off .ulStreamDataOffset)
      ∧ (∃ old, s4.mOffsets = loadOffsets D (headerOf D g) old)
      ∧ s4.mFile.fileName = pgrFilename baseName fileIndex := by
  obtain ⟨k, rfl⟩ : ∃ k, fuel = k + 2 := ⟨fuel - 2, by omega⟩
  have hne : ¬ (fileIndex + 1 = fileIndex) := by omega
  have h1 := openForReadingInternal_supported D { s with
      mBaseName := baseName, mFirstFileIndex := fileIndex
      mTotalNumFrames := 0, mTotalNumFiles := 0, mFirstFrameList := [] } fileIndex
    ((0 : Nat) : Int) g hclosed hdisk hsup
  unfold openForReading
  simp only [hclosed, hdisk, Option.isSome_some, if_true, Bool.false_eq_true, if_false]
  unfold probe
  simp only [h1]
  rw [close_reading _ rfl rfl]
  unfold probe
  rw [openForReadingInternal_missing D _ _ _ rfl (by simpa [openedFor, fileClose] using hnext)]
  simp only [setFileName, openedFor, fileClose, ne_eq, hne, not_false_eq_true, if_true]
  rw [openForReadingInternal_supported D _ fileIndex 0 g rfl (by simpa using hdisk) hsup]
  refine ⟨_, rfl, rfl, rfl, ?_, rfl, rfl, rfl, rfl, ?_, rfl, ?_, rfl, rfl, rfl, ⟨_, rfl⟩, rfl⟩
  · simpa [openedFor] using hdisk
  · simp [openedFor]
  · simp [openedFor]

/-- C1 (amended). Round trip. On an engine with no open file, where the target file can be
created and no file with the next index exists on disk, for frame records whose big-endian
length field equals their byte length (at least header plus info size) and a recording that
stays below `0x7fffffff`: `openForWriting`, `writeImage` of every record and `close` succeed;
the following `openForReading` on the same base name and index succeeds (for any fuel of at
least 2) and reports as many frames as were written; that many `readNextFrame` calls succeed
and return buffers with the lengths and bytes of the written records, in order; and one more
`readNextFrame` fails. -/
theorem round_trip (D : Decls) (hD : D.WF) (s0 : LadybugStream) (baseName : String)
    (cameraInfo : LadybugInfo) (fileIndex : Int) (images : List LadybugImage) (fuel : Nat)
    (image : LadybugImage)
    (hclosed : s0.mFile.isOpen = false)
    (hcreate : s0.creatable (pgrFilename baseName fileIndex) = true)
    (hnext : s0.disk (pgrFilename baseName (fileIndex + 1)) = none)
    (hwf : ∀ im ∈ images, WellFramed D im)
    (hraw : 16 + D.sizeofHead + cameraInfo.calibration.length < LIMIT_2GB)
    (hfit : dataOffsetOf D cameraInfo.calibration.length + totalBytes images < LIMIT_2GB)
    (hfuel : 2 ≤ fuel) :
    ∃ s1 s2 s3 s4 outs s5,
      openForWriting D s0 baseName cameraInfo fileIndex = (true, s1)
        ∧ writeAll D images s1 = some s2
        ∧ close s2 = (true, s3)
        ∧ openForReading D fuel s3 baseName fileIndex = some (true, s4)
        ∧ s4.mTotalNumFrames = images.length
        ∧ readAll D images.length s4 = some (outs, s5)
        ∧ List.Forall₂ SameBytes outs images
        ∧ readNextFrame D s5 image = some (false, image, s5) := by
  have hopenW := openForWritingInternal_ok D { s0 with
      mTotalNumFrames := 0, mNumMegabytes := 0, mCameraInfo := cameraInfo } baseName fileIndex
    hclosed hcreate
  have hinv1 := openedWriting_inv D { s0 with
      mTotalNumFrames := 0, mNumMegabytes := 0, mCameraInfo := cameraInfo } baseName fileIndex
  obtain ⟨s2, hw, hinv2, hname, _, hnum, _, hdisk2, _, _⟩ :=
    writeAll_inPlace D cameraInfo baseName images _ (freshFile D cameraInfo) hinv1
      (Function.update_same _ _ _) hfit
  have hnum2 : s2.mNumFrames = images.length := by
    rw [hnum]
    simp [openedWriting]
  have hname2 : s2.mFile.fileName = pgrFilename baseName fileIndex := hname
  have hd2 : s2.disk s2.mFile.fileName = some (blitFrames (freshFile D cameraInfo)
      (dataOffsetOf D cameraInfo.calibration.length) images) := by
    rw [hdisk2, hname2]
    exact Function.update_same _ _ _
  have hclose := close_writing s2 _ hinv2.isOpen hinv2.mode hd2 (by have := hinv2.count512; omega)
  obtain ⟨hsup, hcount, hoff, hframes⟩ := finalFile_spec D hD cameraInfo images s2.mOffsetCount
    s2.mOffsets hwf hraw hfit hinv2.count0 hinv2.count512
  have hd3 : (closedWriting s2 (blitFrames (freshFile D cameraInfo)
      (dataOffsetOf D cameraInfo.calibration.length) images)).disk
        (pgrFilename baseName fileIndex)
      = some (finalFile D cameraInfo images s2.mOffsetCount s2.mOffsets) := by
    simp only [closedWriting, hname2, hnum2, finalFile]
    exact Function.update_same _ _ _
  have hne : pgrFilename baseName (fileIndex + 1) ≠ pgrFilename baseName fileIndex := by
    simp [pgrFilename]
  have hn3 : (closedWriting s2 (blitFrames (freshFile D cameraInfo)
      (dataOffsetOf D cameraInfo.calibration.length) images)).disk
        (pgrFilename baseName (fileIndex + 1)) = none := by
    simp only [closedWriting, hname2, hdisk2, openedWriting]
    rw [Function.update_noteq hne, Function.update_noteq hne, Function.update_noteq hne]
    exact hnext
  obtain ⟨s4, hr, hopen4, hmode4, hd4, hpos4, hcur4, hfirst4, hnum4, htot4, _, _⟩ :=
    openForReading_single D _ baseName fileIndex _ fuel hfuel rfl hd3 hsup hn3
  obtain ⟨outs, s5, hall, hsame, hcur5, htot5⟩ := readAll_spec D hD images s4 _ hopen4 hmode4
    hd4 (by rw [hpos4, hoff]; exact hframes) (by omega)
    (by rw [hcur4, hfirst4, hnum4, hcount]) (by rw [hcur4, htot4, hcount]; omega)
  refine ⟨_, s2, _, s4, outs, s5, hopenW, hw, hclose, hr, by rw [htot4, hcount], hall, hsame, ?_⟩
  apply readNextFrame_atEnd
  rw [hcur5, htot5, hcur4, htot4, hcount]
  omega

/-- Witness for C1: two frames of 40 and 33 bytes written to "s"-000000 on an empty disk and
read back. -/
theorem round_trip_witness :
    ∃ s1 s2 s3 s4 outs s5,
      openForWriting demoDecls blank "s" ⟨1, 2, [9, 9, 9]⟩ 0 = (true, s1)
        ∧ writeAll demoDecls [demoFrame 40 1, demoFrame 33 2] s1 = some s2
        ∧ close s2 = (true, s3)
        ∧ openForReading demoDecls 2 s3 "s" 0 = some (true, s4)
        ∧ s4.mTotalNumFrames = [demoFrame 40 1, demoFrame 33 2].length
        ∧ readAll demoDecls [demoFrame 40 1, demoFrame 33 2].length s4 = some (outs, s5)
        ∧ List.Forall₂ SameBytes outs [demoFrame 40 1, demoFrame 33 2]
        ∧ readNextFrame demoDecls s5 ⟨fun _ => 0, 0⟩ = some (false, ⟨fun _ => 0, 0⟩, s5) :=
  round_trip demoDecls demoDecls_wf blank "s" ⟨1, 2, [9, 9, 9]⟩ 0
    [demoFrame 40 1, demoFrame 33 2] 2 ⟨fun _ => 0, 0⟩ rfl rfl rfl (by decide) (by decide)
    (by decide) (by decide)

/-! ## The index after a reload -/

theorem swapFold_apply (m0 : Nat → Nat) (k : Nat) (hk : k ≤ 128) (i : Nat) :
    ((List.range k).foldl swapStep m0) i
      = if i < k ∨ (512 - k ≤ i ∧ i < 512) then m0 (511 - i) else m0 i := by
  induction k generalizing i with
  | zero =>
    simp only [List.range_zero, List.foldl_nil]
    rw [if_neg (by omega)]
  | succ k ih =>
    rw [List.range_succ, List.foldl_append]
    simp only [List.foldl_cons, List.foldl_nil, swapStep, Function.update_apply]
    by_cases h1 : i = 511 - k
    · subst h1
      rw [if_pos rfl, ih (by omega) k, if_neg (by omega), if_pos (by omega)]
      congr 1
      omega
    · rw [if_neg h1]
      by_cases h2 : i = k
      · subst h2
        rw [if_pos rfl, ih (by omega) (511 - i), if_neg (by omega), if_pos (by omega)]
      · rw [if_neg h2, ih (by omega) i]
        by_cases h3 : i < k ∨ (512 - k ≤ i ∧ i < 512)
        · rw [if_pos h3, if_pos (by omega)]
        · rw [if_neg h3, if_neg (by omega)]

theorem loadOffsets_apply (D : Decls) (header old : Nat → Nat) (i : Nat) (hi : i < 512) :
    loadOffsets D header old i
      = if i < 128 ∨ 384 ≤ i then get32 header (D.offOffsetTable + 4 * (511 - i))
        else get32 header (D.offOffsetTable + 4 * i) := by
  unfold loadOffsets
  rw [swapFold_apply _ 128 (le_refl _) i]
  by_cases h : i < 128 ∨ 384 ≤ i
  · rw [if_pos (by omega), if_pos h, if_pos (by omega)]
  · rw [if_neg (by omega), if_neg h, if_pos hi]

theorem recordIndex_count_eq (s : LadybugStream) (hinc : s.mIndexIncrement = IDX_INCREMENT)
    (hc : s.mOffsetCount = ((min 512 ((s.mNumFrames + 49) / 50) : Nat) : Int)) :
    (recordIndex s).mOffsetCount = ((min 512 ((s.mNumFrames + 1 + 49) / 50) : Nat) : Int) := by
  unfold recordIndex
  rw [hinc]
  simp only [IDX_INCREMENT]
  by_cases h1 : s.mNumFrames % 50 = 0
  · by_cases h2 : s.mNumFrames / 50 < 512
    · simp only [h1, h2, if_true]
      have e : min 512 ((s.mNumFrames + 1 + 49) / 50) = s.mNumFrames / 50 + 1 := by omega
      rw [e]
      push_cast
      rfl
    · simp only [h1, h2, if_true, if_false]
      rw [hc]
      congr 1
      omega
  · simp only [h1, if_false]
    rw [hc]
    congr 1
    omega

theorem writeAll_inPlace_count (D : Decls) (cameraInfo : LadybugInfo) (baseName : String)
    (images : List LadybugImage) (s s2 : LadybugStream) (f : FileData)
    (hinv : WInv cameraInfo baseName s) (hdisk : s.disk s.mFile.fileName = some f)
    (hfit : s.mFile.pos + totalBytes images < LIMIT_2GB)
    (hc : s.mOffsetCount = ((min 512 ((s.mNumFrames + 49) / 50) : Nat) : Int))
    (hw : writeAll D images s = some s2) :
    s2.mOffsetCount = ((min 512 ((s.mNumFrames + images.length + 49) / 50) : Nat) : Int) := by
  induction images generalizing s f with
  | nil =>
    simp only [writeAll, Option.some.injEq] at hw
    subst hw
    simpa using hc
  | cons image rest ih =>
    rw [totalBytes_cons] at hfit
    have hinc : s.mIndexIncrement ≠ 0 := by rw [hinv.increment]; decide
    have hstep := writeImage_inPlace D s f image hinv.isOpen hinv.mode hdisk hinc (by omega)
    have hinv2 := wroteInPlace_inv cameraInfo baseName s f image hinv
    simp only [writeAll, hstep] at hw
    have h := ih (wroteInPlace s f image)
      (blit f s.mFile.pos image.frameData image.frameBytes) hinv2
      (Function.update_same _ _ _) (by simp only [wroteInPlace]; omega)
      (recordIndex_count_eq s hinv.increment hc) hw
    rw [h]
    simp only [wroteInPlace, List.length_cons]
    congr 3
    omega

theorem blitFrames_size_le (f : FileData) (p : Nat) (images : List LadybugImage) :
    (blitFrames f p images).size ≤ max f.size (p + totalBytes images) := by
  induction images generalizing f p with
  | nil => exact le_max_left _ _
  | cons image rest ih =>
    simp only [blitFrames]
    rw [totalBytes_cons]
    have h1 := ih (blit f p image.frameData image.frameBytes) (p + image.frameBytes)
    have h2 : (blit f p image.frameData image.frameBytes).size
        ≤ max f.size (p + image.frameBytes) := by
      simp only [blit]
      split
      · exact le_max_left _ _
      · exact le_refl _
    omega

theorem initHeader_slot (D : Decls) (hD : D.WF) (cameraInfo : LadybugInfo) (dataOffset : Nat)
    (j : Nat) (hj : j < 511) :
    get32 (initHeader D cameraInfo dataOffset) (D.offOffsetTable + 4 * j) = 0 := by
  have hfld : ∀ g : HeadField, Apart (D.off g) (D.offOffsetTable + 4 * j) := by
    intro g
    have := hD.table g
    unfold Apart
    omega
  have hlast : Apart (D.offOffsetTable + 4 * 511) (D.offOffsetTable + 4 * j) := by
    unfold Apart
    omega
  simp only [initHeader]
  repeat (first
    | rw [get32_put32_apart _ _ _ _ (hfld _)]
    | rw [get32_put32_apart _ _ _ _ hlast])
  rfl

theorem finalFile_index (D : Decls) (hD : D.WF) (cameraInfo : LadybugInfo)
    (images : List LadybugImage) (offsetCount : Int) (offsets : Nat → Nat)
    (hraw : 16 + D.sizeofHead + cameraInfo.calibration.length < LIMIT_2GB)
    (hfit : dataOffsetOf D cameraInfo.calibration.length + totalBytes images < LIMIT_2GB)
    (h0 : 0 ≤ offsetCount) (h512 : offsetCount ≤ 512) :
    get32 (headerOf D (finalFile D cameraInfo images offsetCount offsets))
        (D.off .ulNumberOfKeyIndex) = offsetCount.toNat
      ∧ get32 (headerOf D (finalFile D cameraInfo images offsetCount offsets))
        (D.off .ulIncrement) = IDX_INCREMENT
      ∧ (∀ j, j < 511 → offsetCount.toNat ≤ 511 - j →
        get32 (headerOf D (finalFile D cameraInfo images offsetCount offsets))
          (D.offOffsetTable + 4 * j) = 0)
      ∧ (∀ i, i < 16 →
        (finalFile D cameraInfo images offsetCount offsets).bytes i = ofList STREAM_SIGNATURE i)
      ∧ (finalFile D cameraInfo images offsetCount offsets).size
        ≤ dataOffsetOf D cameraInfo.calibration.length + totalBytes images := by
  have hlim : LIMIT_2GB = 2147483647 := rfl
  have hDO := dataOffsetOf_eq D cameraInfo.calibration.length (by omega)
  have hS := hD.tableInside
  have hT := hD.offsetTable
  have hF := initHeader_fields D hD cameraInfo (dataOffsetOf D cameraInfo.calibration.length)
  have hfs := freshFile_size D cameraInfo (by omega)
  have hsize : (finalFile D cameraInfo images offsetCount offsets).size
      = (blitFrames (freshFile D cameraInfo) (dataOffsetOf D cameraInfo.calibration.length)
          images).size :=
    patchHeader_size _ _ _ _ (by
      have := blitFrames_size_ge (freshFile D cameraInfo)
        (dataOffsetOf D cameraInfo.calibration.length) images
      omega)
  refine ⟨?_, ?_, ?_, ?_, ?_⟩
  · rw [headerOf_get32 D _ _ (hD.inside _), hD.numKeyIndex]
    unfold finalFile
    exact patchHeader_offsetCount _ _ _ _ h0 h512
  · have hin := hD.inside .ulIncrement
    have ha1 := hD.apart .ulIncrement .ulNumberOfImages (by decide)
    have ha2 := hD.apart .ulIncrement .ulNumberOfKeyIndex (by decide)
    have ha3 := hD.table .ulIncrement
    rw [hD.numImages] at ha1
    rw [hD.numKeyIndex] at ha2
    unfold Apart at ha1 ha2
    rw [headerOf_get32 D _ _ hin]
    unfold finalFile
    rw [patchHeader_get32_out _ _ _ _ _ h512 (by omega),
      get32_blitFrames_lt _ _ _ _ (by omega), freshFile_get32 D cameraInfo _ hin]
    exact hF.2.2.2.2
  · intro j hj hc
    rw [headerOf_get32 D _ _ (by omega)]
    unfold finalFile
    have hout : get32 (patchHeader (blitFrames (freshFile D cameraInfo)
        (dataOffsetOf D cameraInfo.calibration.length) images) images.length offsetCount
        offsets).bytes (16 + (D.offOffsetTable + 4 * j))
        = get32 (blitFrames (freshFile D cameraInfo)
          (dataOffsetOf D cameraInfo.calibration.length) images).bytes
          (16 + (D.offOffsetTable + 4 * j)) := by
      apply get32_congr
      intro b hb
      apply patchHeader_bytes_out
      unfold Patched
      push_neg
      refine ⟨by omega, by omega, ?_⟩
      intro i hi
      omega
    rw [hout, get32_blitFrames_lt _ _ _ _ (by omega), freshFile_get32 D cameraInfo _ (by omega)]
    exact initHeader_slot D hD cameraInfo _ j hj
  · intro i hi
    unfold finalFile
    rw [patchHeader_bytes_out _ _ _ _ _ (by
        unfold Patched
        push_neg
        refine ⟨by omega, by omega, ?_⟩
        intro k hk
        omega),
      blitFrames_bytes_lt _ _ _ _ (by omega), freshFile_sig D cameraInfo i hi]
  · rw [hsize]
    have := blitFrames_size_le (freshFile D cameraInfo)
      (dataOffsetOf D cameraInfo.calibration.length) images
    omega

theorem written_stream_reader (D : Decls) (hD : D.WF) (s0 : LadybugStream) (baseName : String)
    (cameraInfo : LadybugInfo) (fileIndex : Int) (images : List LadybugImage) (fuel : Nat)
    (hclosed : s0.mFile.isOpen = false)
    (hcreate : s0.creatable (pgrFilename baseName fileIndex) = true)
    (hnext : s0.disk (pgrFilename baseName (fileIndex + 1)) = none)
    (hwf : ∀ im ∈ images, WellFramed D im)
    (hraw : 16 + D.sizeofHead + cameraInfo.calibration.length < LIMIT_2GB)
    (hfit : dataOffsetOf D cameraInfo.calibration.length + totalBytes images < LIMIT_2GB)
    (hfuel : 2 ≤ fuel) :
    ∃ s1 s2 s3 s4 g,
      openForWriting D s0 baseName cameraInfo fileIndex = (true, s1)
        ∧ writeAll D images s1 = some s2
        ∧ close s2 = (true, s3)
        ∧ openForReading D fuel s3 baseName fileIndex = some (true, s4)
        ∧ g = finalFile D cameraInfo images
            ((min 512 ((images.length + 49) / 50) : Nat) : Int) s2.mOffsets
        ∧ s4.mFile.isOpen = true ∧ s4.mMode = Mode.Reading
        ∧ s4.disk s4.mFile.fileName = some g
        ∧ s4.mFile.pos = dataOffsetOf D cameraInfo.calibration.length
        ∧ s4.mCurrentFrame = 0 ∧ s4.mFirstFrame = 0
        ∧ s4.mNumFrames = images.length
        ∧ s4.mTotalNumFrames = images.length
        ∧ s4.mOffsetCount = ((min 512 ((images.length + 49) / 50) : Nat) : Int)
        ∧ s4.mIndexIncrement = IDX_INCREMENT
        ∧ s4.mDataOffset = dataOffsetOf D cameraInfo.calibration.length
        ∧ (∃ old, s4.mOffsets = loadOffsets D (headerOf D g) old)
        ∧ FramesAt D g (dataOffsetOf D cameraInfo.calibration.length) images := by
  have hopenW := openForWritingInternal_ok D { s0 with
      mTotalNumFrames := 0, mNumMegabytes := 0, mCameraInfo := cameraInfo } baseName fileIndex
    hclosed hcreate
  have hinv1 := openedWriting_inv D { s0 with
      mTotalNumFrames := 0, mNumMegabytes := 0, mCameraInfo := cameraInfo } baseName fileIndex
  obtain ⟨s2, hw, hinv2, hname, _, hnum, _, hdisk2, _, _⟩ :=
    writeAll_inPlace D cameraInfo baseName images _ (freshFile D cameraInfo) hinv1
      (Function.update_same _ _ _) hfit
  have hcnt := writeAll_inPlace_count D cameraInfo baseName images _ s2 (freshFile D cameraInfo)
    hinv1 (Function.update_same _ _ _) hfit (by simp [openedWriting]) hw
  have hcnt2 : s2.mOffsetCount = ((min 512 ((images.length + 49) / 50) : Nat) : Int) := by
    rw [hcnt]
    simp [openedWriting]
  have hnum2 : s2.mNumFrames = images.length := by
    rw [hnum]
    simp [openedWriting]
  have hname2 : s2.mFile.fileName = pgrFilename baseName fileIndex := hname
  have hd2 : s2.disk s2.mFile.fileName = some (blitFrames (freshFile D cameraInfo)
      (dataOffsetOf D cameraInfo.calibration.length) images) := by
    rw [hdisk2, hname2]
    exact Function.update_same _ _ _
  have hclose := close_writing s2 _ hinv2.isOpen hinv2.mode hd2 (by have := hinv2.count512; omega)
  have hc0 : (0 : Int) ≤ ((min 512 ((images.length + 49) / 50) : Nat) : Int) :=
    Int.natCast_nonneg _
  have hc512 : ((min 512 ((images.length + 49) / 50) : Nat) : Int) ≤ 512 := by omega
  obtain ⟨hsup, hcount, hoff, hframes⟩ := finalFile_spec D hD cameraInfo images
    ((min 512 ((images.length + 49) / 50) : Nat) : Int) s2.mOffsets hwf hraw hfit hc0 hc512
  obtain ⟨hkey, hincr, _, _, _⟩ := finalFile_index D hD cameraInfo images
    ((min 512 ((images.length + 49) / 50) : Nat) : Int) s2.mOffsets hraw hfit hc0 hc512
  have hd3 : (closedWriting s2 (blitFrames (freshFile D cameraInfo)
      (dataOffsetOf D cameraInfo.calibration.length) images)).disk
        (pgrFilename baseName fileIndex)
      = some (finalFile D cameraInfo images
          ((min 512 ((images.length + 49) / 50) : Nat) : Int) s2.mOffsets) := by
    simp only [closedWriting, hname2, hnum2, hcnt2, finalFile]
    exact Function.update_same _ _ _
  have hne : pgrFilename baseName (fileIndex + 1) ≠ pgrFilename baseName fileIndex := by
    simp [pgrFilename]
  have hn3 : (closedWriting s2 (blitFrames (freshFile D cameraInfo)
      (dataOffsetOf D cameraInfo.calibration.length) images)).disk
        (pgrFilename baseName (fileIndex + 1)) = none := by
    simp only [closedWriting, hname2, hdisk2, openedWriting]
    rw [Function.update_noteq hne, Function.update_noteq hne, Function.update_noteq hne]
    exact hnext
  obtain ⟨s4, hr, hopen4, hmode4, hd4, hpos4, hcur4, hfirst4, hnum4, htot4, _, _, hoc4, hinc4,
      hdo4, hold4, _⟩ :=
    openForReading_single D _ baseName fileIndex _ fuel hfuel rfl hd3 hsup hn3
  refine ⟨_, s2, _, s4, _, hopenW, hw, hclose, hr, rfl, hopen4, hmode4, hd4, ?_, hcur4, hfirst4,
    ?_, ?_, ?_, ?_, ?_, hold4, hframes⟩
  · rw [hpos4, hoff]
  · rw [hnum4, hcount]
  · rw [htot4, hcount]
  · rw [hoc4, hkey, Int.toNat_ofNat, toInt32_of_lt _ (by omega)]
  · rw [hinc4, hincr]
  · rw [hdo4, hoff]

theorem totalBytes_replicate (n : Nat) (image : LadybugImage) :
    totalBytes (List.replicate n image) = n * image.frameBytes := by
  induction n with
  | zero => simp [totalBytes]
  | succ n ih =>
    rw [List.replicate_succ, totalBytes_cons, ih]
    ring

/-- C2 (the code departs from the claim). A recording of 6401 frames of 32 bytes is written,
closed and opened for reading. All 6401 sequential `readNextFrame` calls succeed and return the
written records, but `seekToFrame(6400)` positions the file at byte 0 (the index entry it uses,
`mOffsets[128]`, was not reversed on load) and the following `readNextFrame` fails. -/
theorem seek_by_index_misses_frame_6400 :
    ∃ s1 s2 s3 s4 outs s5 s6 s7,
      openForWriting demoDecls blank "s" demoInfo 0 = (true, s1)
        ∧ writeAll demoDecls (List.replicate 6401 (demoFrame 32 1)) s1 = some s2
        ∧ close s2 = (true, s3)
        ∧ openForReading demoDecls 2 s3 "s" 0 = some (true, s4)
        ∧ readAll demoDecls 6401 s4 = some (outs, s5)
        ∧ List.Forall₂ SameBytes outs (List.replicate 6401 (demoFrame 32 1))
        ∧ seekToFrame demoDecls s4 6400 = some (true, s6)
        ∧ s6.mFile.pos = 0
        ∧ readNextFrame demoDecls s6 ⟨fun _ => 0, 0⟩ = some (false, ⟨fun _ => 0, 0⟩, s7) := by
  have hwf : ∀ im ∈ List.replicate 6401 (demoFrame 32 1), WellFramed demoDecls im := by
    intro im him
    rw [List.eq_of_mem_replicate him]
    decide
  have htb : totalBytes (List.replicate 6401 (demoFrame 32 1)) = 204832 := by
    rw [totalBytes_replicate]
    rfl
  have hlen : (List.replicate 6401 (demoFrame 32 1)).length = 6401 := List.length_replicate _ _
  have hDO : dataOffsetOf demoDecls demoInfo.calibration.length = 3584 := by decide
  have hraw : 16 + demoDecls.sizeofHead + demoInfo.calibration.length < LIMIT_2GB := by decide
  have hfit : dataOffsetOf demoDecls demoInfo.calibration.length
      + totalBytes (List.replicate 6401 (demoFrame 32 1)) < LIMIT_2GB := by
    rw [htb, hDO]
    decide
  have hc : blank.mFile.isOpen = false := rfl
  have hcr : blank.creatable (pgrFilename "s" 0) = true := rfl
  have hn : blank.disk (pgrFilename "s" (0 + 1)) = none := rfl
  obtain ⟨s1, s2, s3, s4, g, h1, h2, h3, h4, hg, hopen4, hmode4, hd4, hpos4, hcur4, hfirst4,
      hnum4, htot4, hoc4, hinc4, hdo4, ⟨old, hold4⟩, hframes⟩ :=
    written_stream_reader demoDecls demoDecls_wf blank "s" demoInfo 0
      (List.replicate 6401 (demoFrame 32 1)) 2 hc hcr hn hwf hraw hfit (le_refl _)
  rw [hlen] at hnum4 htot4 hoc4 hg
  have hcnt : ((min 512 ((6401 + 49) / 50) : Nat) : Int) = 129 := by decide
  rw [hcnt] at hoc4 hg
  simp only [hDO] at hpos4 hdo4 hframes
  obtain ⟨hsup, _, _, _⟩ := finalFile_spec demoDecls demoDecls_wf demoInfo
    (List.replicate 6401 (demoFrame 32 1)) 129 s2.mOffsets hwf hraw hfit (by decide) (by decide)
  obtain ⟨_, _, hslot, hsig, hsize⟩ := finalFile_index demoDecls demoDecls_wf demoInfo
    (List.replicate 6401 (demoFrame 32 1)) 129 s2.mOffsets hraw hfit (by decide) (by decide)
  rw [← hg] at hsup hslot hsig hsize
  rw [htb, hDO] at hsize
  have hsz : 16 + 3056 ≤ g.size := hsup.2.1
  obtain ⟨outs, s5, hall, hsame, _, _⟩ := readAll_spec demoDecls demoDecls_wf
    (List.replicate 6401 (demoFrame 32 1)) s4 g hopen4 hmode4 hd4
    (by rw [hpos4]; exact hframes) (by rw [hcur4, hfirst4])
    (by rw [hcur4, hfirst4, hnum4, hlen]) (by rw [hcur4, htot4, hlen]; decide)
  rw [hlen] at hall
  have hoff128 : s4.mOffsets 128 = 0 := by
    rw [hold4, loadOffsets_apply demoDecls _ _ 128 (by decide), if_neg (by decide)]
    exact hslot 128 (by decide) (by decide)
  have hseek : seekToFrame demoDecls s4 6400
      = some (true, { s4 with mCurrentFrame := 6400, mFile := { s4.mFile with pos := 0 } }) := by
    unfold seekToFrame
    simp only [hopen4, hmode4, htot4, hfirst4, hnum4, hinc4, hoc4]
    have e128 : Int.toNat 128 = 128 := rfl
    norm_num [IDX_INCREMENT, fileSeek, hopen4, skipFrames, hfirst4, hinc4, hoc4]
    rw [e128]
    exact ⟨hoff128, hmode4, htot4, hnum4⟩
  have hread : ∃ s7, readNextFrame demoDecls
      { s4 with mCurrentFrame := 6400, mFile := { s4.mFile with pos := 0 } } ⟨fun _ => 0, 0⟩
      = some (false, ⟨fun _ => 0, 0⟩, s7) := by
    have hb8 : g.bytes 8 = 85 := hsig 8 (by decide)
    have hb9 : g.bytes 9 = 71 := hsig 9 (by decide)
    have hb10 : g.bytes 10 = 83 := hsig 10 (by decide)
    have hb11 : g.bytes 11 = 84 := hsig 11 (by decide)
    have hmin1 : min 16 g.size = 16 := by omega
    have hmin2 : min 16 (g.size - 16) = 16 := by omega
    have hds : get32 (big2little_struct (fun i => if i < 16 then g.bytes i else 0) 16) 8
        = 1430737748 := by
      rw [get32_big2little _ _ _ (by decide) (by decide)]
      simp only [be32]
      norm_num [hb8, hb9, hb10, hb11]
    have hshort : g.size - 32 < 1430737716 := by omega
    have hshortI : ((g.size - 32 : Nat) : Int) < 1430737716 := by omega
    refine ⟨?s7, ?_⟩
    case s7 =>
      exact { s4 with
        mCurrentFrame := 6400
        mFile := { s4.mFile with pos := 32 + min 1430737716 (g.size - 32) } }
    unfold readNextFrame
    simp only [hopen4, hmode4, htot4, hfirst4, hnum4]
    norm_num [readRecord, fileRead, hopen4, hd4, hmin1, hmin2, demoDecls, hds, hshort, hshortI]
  obtain ⟨s7, hs7⟩ := hread
  exact ⟨s1, s2, s3, s4, outs, s5, _, s7, h1, h2, h3, h4, hall, hsame, hseek, rfl, hs7⟩

/-! ## Closing twice; the data-start offset -/


/-- C11. Idempotent close: with no open file `close` returns failure and leaves the engine and
the disk as they were; after a `close` that returns success no file is open, and the `close`
that follows returns failure and again changes nothing. -/
theorem close_idempotent (s : LadybugStream) :
    (s.mFile.isOpen = false → close s = (false, s))
      ∧ (∀ s2, close s = (true, s2) →
          s2.mFile.isOpen = false ∧ close s2 = (false, s2)) := by
  constructor
  · intro h
    simp [close, h]
  · intro s2 h
    have hc : s2.mFile.isOpen = false := by
      unfold close at h
      by_cases ho : s.mFile.isOpen = true
      · simp only [ho, Bool.not_true, Bool.false_eq_true, if_false, Prod.mk.injEq, true_and] at h
        rw [← h]
        rfl
      · simp [ho] at h
    exact ⟨hc, by simp [close, hc]⟩

/-- Witness for C11: `close` on the closed example engine fails and changes nothing; `close` on
the engine in the middle of a recording succeeds, and the second `close` fails. -/
theorem close_idempotent_witness :
    close demoClosed = (false, demoClosed)
      ∧ (close demoWritten).2.mFile.isOpen = false
      ∧ close (close demoWritten).2 = (false, (close demoWritten).2) :=
  ⟨(close_idempotent demoClosed).1 rfl,
   (close_idempotent demoWritten).2 (close demoWritten).2 rfl⟩


/-- The header of the file that `openForWritingInternal` leaves on disk carries the data offset
in its stream-data-offset field. -/
theorem freshFile_dataOffset (D : Decls) (hD : D.WF) (cameraInfo : LadybugInfo)
    (h : 16 + D.sizeofHead + cameraInfo.calibration.length < 2 ^ 32 - 512) :
    get32 (headerOf D (freshFile D cameraInfo)) (D.off .ulStreamDataOffset)
      = dataOffsetOf D cameraInfo.calibration.length := by
  rw [headerOf_get32 D _ _ (hD.inside _), freshFile_get32 D _ _ (hD.inside _),
    (initHeader_fields D hD cameraInfo _).2.2.2.1]
  have e := dataOffsetOf_eq D cameraInfo.calibration.length h
  have : (16 + D.sizeofHead + cameraInfo.calibration.length) / 512 * 512
      ≤ 16 + D.sizeofHead + cameraInfo.calibration.length := Nat.div_mul_le_self _ _
  apply Nat.mod_eq_of_lt
  omega

/-- C12. Data-start offset: when the raw offset `16 + sizeof(header) + c` is below
`2^32 - 512`, the data offset that `openForWritingInternal` computes is a multiple of 512, is
strictly greater than the raw offset, is the least such multiple, exceeds the raw offset by
between 1 and 512 bytes (by 512 when the raw offset is aligned); a successful
`openForWritingInternal` leaves the file position there and the same value in the header field
`ulStreamDataOffset` of the file on disk. -/
theorem dataOffset_aligned (D : Decls) (hD : D.WF) (s : LadybugStream) (baseName : String)
    (fileIndex : Int)
    (hraw : 16 + D.sizeofHead + s.mCameraInfo.calibration.length < 2 ^ 32 - 512)
    (hclosed : s.mFile.isOpen = false)
    (hcreate : s.creatable (pgrFilename baseName fileIndex) = true) :
    dataOffsetOf D s.mCameraInfo.calibration.length % 512 = 0
      ∧ 16 + D.sizeofHead + s.mCameraInfo.calibration.length
          < dataOffsetOf D s.mCameraInfo.calibration.length
      ∧ (∀ m, m % 512 = 0 → 16 + D.sizeofHead + s.mCameraInfo.calibration.length < m →
          dataOffsetOf D s.mCameraInfo.calibration.length ≤ m)
      ∧ dataOffsetOf D s.mCameraInfo.calibration.length
          ≤ 16 + D.sizeofHead + s.mCameraInfo.calibration.length + 512
      ∧ ((16 + D.sizeofHead + s.mCameraInfo.calibration.length) % 512 = 0 →
          dataOffsetOf D s.mCameraInfo.calibration.length
            = 16 + D.sizeofHead + s.mCameraInfo.calibration.length + 512)
      ∧ ∃ s2 f, openForWritingInternal D s baseName fileIndex = (true, s2)
          ∧ s2.mFile.pos = dataOffsetOf D s.mCameraInfo.calibration.length
          ∧ s2.disk (pgrFilename baseName fileIndex) = some f
          ∧ get32 (headerOf D f) (D.off .ulStreamDataOffset)
              = dataOffsetOf D s.mCameraInfo.calibration.length := by
  have e := dataOffsetOf_eq D s.mCameraInfo.calibration.length hraw
  refine ⟨by omega, by omega, fun m hm hlt => by omega, by omega, fun h0 => by omega, ?_⟩
  refine ⟨openedWriting D s baseName fileIndex, freshFile D s.mCameraInfo,
    openForWritingInternal_ok D s baseName fileIndex hclosed hcreate, rfl, ?_,
    freshFile_dataOffset D hD s.mCameraInfo hraw⟩
  simp [openedWriting]

/-- Witness for C12: on the example declarations with a 3-byte calibration blob the raw offset
is 3075 and the data offset is 3584. -/
theorem dataOffset_aligned_witness :
    dataOffsetOf demoDecls 3 = 3584
      ∧ ∃ s2 f, openForWritingInternal demoDecls { blank with mCameraInfo := demoInfo } "s" 0
            = (true, s2)
          ∧ s2.mFile.pos = 3584
          ∧ s2.disk (pgrFilename "s" 0) = some f
          ∧ get32 (headerOf demoDecls f) (demoDecls.off .ulStreamDataOffset) = 3584 :=
  ⟨by decide,
   (dataOffset_aligned demoDecls demoDecls_wf { blank with mCameraInfo := demoInfo } "s" 0
      (by decide) rfl rfl).2.2.2.2.2⟩

/-! ## The probe of `openForReading` -/

theorem probe_spec (D : Decls) (baseName : String) (files : List FileData) (s : LadybugStream)
    (fileIndex : Int) (fuel : Nat) (hfuel : files.length < fuel)
    (hclosed : s.mFile.isOpen = false) (hbase : s.mBaseName = baseName)
    (hfiles : StreamFiles D s.disk baseName fileIndex files)
    (hstop : ∀ g, s.disk (pgrFilename baseName (fileIndex + (files.length : Int))) = some g →
      ¬ Supported D g) :
    ∃ s2, probe D fuel s fileIndex = some (s2, fileIndex + (files.length : Int))
      ∧ s2.mFile.isOpen = false ∧ s2.disk = s.disk ∧ s2.mBaseName = s.mBaseName
      ∧ s2.mFirstFileIndex = s.mFirstFileIndex
      ∧ s2.mFirstFrameList
          = s.mFirstFrameList ++ firstFramesFrom s.mTotalNumFrames (files.map (localFrames D))
      ∧ s2.mTotalNumFrames = s.mTotalNumFrames + (files.map (localFrames D)).sum
      ∧ s2.mTotalNumFiles = s.mTotalNumFiles + files.length := by
  induction files generalizing s fileIndex fuel with
  | nil =>
    obtain ⟨k, rfl⟩ : ∃ k, fuel = k + 1 := ⟨fuel - 1, by simp at hfuel; omega⟩
    simp only [List.length_nil, Nat.cast_zero, add_zero] at hstop ⊢
    unfold probe
    cases hd : s.disk (pgrFilename baseName fileIndex) with
    | none =>
      rw [openForReadingInternal_missing D s fileIndex _ hclosed (by rw [hbase]; exact hd)]
      refine ⟨_, rfl, ?_, rfl, rfl, rfl, ?_, ?_, rfl⟩
      · simpa [setFileName] using hclosed
      · simp [setFileName, firstFramesFrom]
      · simp [setFileName]
    | some g =>
      rw [openForReadingInternal_rejected D s fileIndex _ g hclosed (by rw [hbase]; exact hd)
        (hstop g hd)]
      refine ⟨_, rfl, rfl, rfl, rfl, rfl, ?_, ?_, rfl⟩
      · simp [rejectedFor, firstFramesFrom]
      · simp [rejectedFor]
  | cons f rest ih =>
    obtain ⟨k, rfl⟩ : ∃ k, fuel = k + 1 := ⟨fuel - 1, by simp at hfuel; omega⟩
    obtain ⟨hd, hsup, hrest⟩ := hfiles
    unfold probe
    rw [openForReadingInternal_supported D s fileIndex _ f hclosed (by rw [hbase]; exact hd) hsup]
    simp only []
    rw [close_reading _ rfl rfl]
    have hlen : fileIndex + (((f :: rest).length : Nat) : Int)
        = fileIndex + 1 + ((rest.length : Nat) : Int) := by
      simp only [List.length_cons]
      push_cast
      omega
    rw [hlen] at hstop ⊢
    obtain ⟨s2, h1, h2, h3, h4, h5, h6, h7, h8⟩ := ih
      (fileClose { openedFor D s fileIndex (s.mTotalNumFrames : Int) f with
        mFirstFrameList := s.mFirstFrameList ++ [(s.mTotalNumFrames : Int)]
        mTotalNumFrames := s.mTotalNumFrames + get32 (headerOf D f) (D.off .ulNumberOfImages)
        mTotalNumFiles := s.mTotalNumFiles + 1 })
      (fileIndex + 1) k (by simp at hfuel; omega) rfl hbase hrest hstop
    refine ⟨s2, h1, h2, h3, h4, h5, ?_, ?_, ?_⟩
    · rw [h6]
      simp [fileClose, openedFor, firstFramesFrom, localFrames]
    · rw [h7]
      simp [fileClose, openedFor, localFrames]
      omega
    · rw [h8]
      simp [fileClose, openedFor]
      omega

theorem firstFramesFrom_getElem (counts : List Nat) (a : Int) (j : Nat)
    (hj : j < counts.length) :
    (firstFramesFrom a counts)[j]? = some (a + ((counts.take j).sum : Nat)) := by
  induction counts generalizing a j with
  | nil => simp at hj
  | cons n rest ih =>
    cases j with
    | zero => simp [firstFramesFrom]
    | succ j =>
      simp only [firstFramesFrom, List.getElem?_cons_succ, List.take_succ_cons, List.sum_cons]
      rw [ih (a + n) j (by simpa using hj)]
      push_cast
      rw [add_assoc]

/-- C13. The probe of `openForReading`: when `m ≥ 1` consecutive files from the start index
on are accepted containers with local frame counts `n_0, ..., n_(m-1)` and the file after them
is missing or rejected, `openForReading` succeeds (for any fuel above `m`); the first-frame
list has length `m`, entry 0 is 0, entry `i+1` is entry `i` plus `n_i`; the total frame count is
the sum of the counts, the file count is `m`, and the first file is left open in reading mode
with cursor and first-frame marker 0. -/
theorem openForReading_probe (D : Decls) (s : LadybugStream) (baseName : String)
    (fileIndex : Int) (files : List FileData) (fuel : Nat)
    (hm : 1 ≤ files.length) (hfuel : files.length < fuel)
    (hclosed : s.mFile.isOpen = false)
    (hfiles : StreamFiles D s.disk baseName fileIndex files)
    (hstop : ∀ g, s.disk (pgrFilename baseName (fileIndex + (files.length : Int))) = some g →
      ¬ Supported D g) :
    ∃ s4, openForReading D fuel s baseName fileIndex = some (true, s4)
      ∧ s4.mFirstFrameList = firstFramesFrom 0 (files.map (localFrames D))
      ∧ s4.mFirstFrameList.length = files.length
      ∧ s4.mFirstFrameList[0]? = some 0
      ∧ (∀ i, i + 1 < files.length → ∃ x : Int, s4.mFirstFrameList[i]? = some x
          ∧ s4.mFirstFrameList[i + 1]? = some (x + ((files.map (localFrames D)).getD i 0 : Nat)))
      ∧ s4.mTotalNumFrames = (files.map (localFrames D)).sum
      ∧ s4.mTotalNumFiles = files.length
      ∧ s4.mFile.isOpen = true ∧ s4.mMode = Mode.Reading
      ∧ s4.mFile.fileName = pgrFilename baseName fileIndex
      ∧ s4.mFileIndex = fileIndex ∧ s4.mFirstFileIndex = fileIndex
      ∧ s4.mCurrentFrame = 0 ∧ s4.mFirstFrame = 0
      ∧ s4.mNumFrames = (files.map (localFrames D)).getD 0 0
      ∧ s4.disk = s.disk := by
  cases files with
  | nil => simp at hm
  | cons f0 rest =>
    have hd0 := hfiles.1
    have hsup0 := hfiles.2.1
    obtain ⟨s2, h1, h2, h3, h4, h5, h6, h7, h8⟩ := probe_spec D baseName (f0 :: rest)
      { s with
        mBaseName := baseName, mFirstFileIndex := fileIndex
        mTotalNumFrames := 0, mTotalNumFiles := 0, mFirstFrameList := [] }
      fileIndex fuel hfuel hclosed rfl hfiles hstop
    have hne : ¬ (fileIndex + (((f0 :: rest).length : Nat) : Int) = s2.mFirstFileIndex) := by
      rw [h5]
      simp only [List.length_cons]
      push_cast
      omega
    have hopen := openForReadingInternal_supported D s2 s2.mFirstFileIndex 0 f0 h2
      (by rw [h3, h4, h5]; exact hd0) hsup0
    have hlen : (firstFramesFrom 0 ((f0 :: rest).map (localFrames D))).length
        = (f0 :: rest).length := by
      rw [firstFramesFrom_length, List.length_map]
    refine ⟨openedFor D s2 s2.mFirstFileIndex 0 f0, ?_, ?_, ?_, ?_, ?_, ?_, ?_, rfl, rfl, ?_, ?_,
      ?_, rfl, rfl, ?_, ?_⟩
    · unfold openForReading
      simp only [hclosed, hd0, Option.isSome_some, if_true, Bool.false_eq_true, if_false, h1]
      simp only [ne_eq, hne, not_false_eq_true, if_true, hopen]
      simp [openedFor, h8]
    · simpa [openedFor] using h6
    · have e : (openedFor D s2 s2.mFirstFileIndex 0 f0).mFirstFrameList
          = firstFramesFrom 0 ((f0 :: rest).map (localFrames D)) := by
        simpa [openedFor] using h6
      rw [e, hlen]
    · have e : (openedFor D s2 s2.mFirstFileIndex 0 f0).mFirstFrameList
          = firstFramesFrom 0 ((f0 :: rest).map (localFrames D)) := by
        simpa [openedFor] using h6
      rw [e]
      simp [firstFramesFrom]
    · intro i hi
      have e : (openedFor D s2 s2.mFirstFileIndex 0 f0).mFirstFrameList
          = firstFramesFrom 0 ((f0 :: rest).map (localFrames D)) := by
        simpa [openedFor] using h6
      have hl : ((f0 :: rest).map (localFrames D)).length = (f0 :: rest).length :=
        List.length_map _ _
      refine ⟨0 + ((((f0 :: rest).map (localFrames D)).take i).sum : Nat), ?_, ?_⟩
      · rw [e, firstFramesFrom_getElem _ _ _ (by omega)]
      · rw [e, firstFramesFrom_getElem _ _ _ (by omega),
          sum_take_succ_getD _ _ (by omega)]
        push_cast
        rw [add_assoc]
    · simpa [openedFor] using h7
    · simpa [openedFor] using h8
    · simp [openedFor, h4, h5]
    · simp [openedFor, h5]
    · simp [openedFor, h5]
    · simp [openedFor, localFrames]
    · simpa [openedFor] using h3

/-- Witness for C13: the two-file example recording has one frame in each file; the probe
yields the first-frame list `[0, 1]`, two frames, two files, and leaves file 0 open. -/
theorem openForReading_probe_witness :
    ∃ s4, openForReading demoDecls 3 demoTwoFiles "s" 0 = some (true, s4)
      ∧ s4.mFirstFrameList = [0, 1] ∧ s4.mTotalNumFrames = 2 ∧ s4.mTotalNumFiles = 2
      ∧ s4.mFile.isOpen = true ∧ s4.mFileIndex = 0
      ∧ s4.mCurrentFrame = 0 ∧ s4.mFirstFrame = 0 :=
  have h := openForReading_probe demoDecls demoTwoFiles "s" 0 [demoFirstFile, demoSecondFile] 3
    (by decide) (by decide) rfl ⟨rfl, by decide, rfl, by decide, trivial⟩
    (fun g hg => Option.noConfusion (hg.symm.trans (rfl : _ = none)))
  h.elim fun s4 h4 =>
    ⟨s4, h4.1, h4.2.1.trans (by decide), h4.2.2.2.2.2.1.trans (by decide),
      h4.2.2.2.2.2.2.1, h4.2.2.2.2.2.2.2.1, h4.2.2.2.2.2.2.2.2.2.2.1,
      h4.2.2.2.2.2.2.2.2.2.2.2.2.1, h4.2.2.2.2.2.2.2.2.2.2.2.2.2.1⟩

/-! ## The time stamp of a frame -/

theorem demoDecls_infoWF : demoDecls.InfoWF where
  secondsInside := by decide
  secondsAligned := rfl
  microInside := by decide
  microAligned := rfl

theorem be32_congr (m m2 : Nat → Nat) (o : Nat) (h : ∀ j, j < 4 → m (o + j) = m2 (o + j)) :
    be32 m o = be32 m2 o := by
  unfold be32
  rw [← h 1 (by omega), ← h 2 (by omega), ← h 3 (by omega)]
  have h0 := h 0 (by omega)
  simp only [add_zero] at h0
  rw [h0]

/-- The body of `frameTime` once the optional seek has left the engine in the state `s1`, on a
file that holds a frame header and a frame info at the position of `s1`. -/
theorem frameTime_core (D : Decls) (hI : D.InfoWF) (s s1 : LadybugStream) (frameId : Int)
    (f : FileData)
    (hr : (if frameId ≠ s.mCurrentFrame then (seekToFrame D s frameId).map (fun p => p.2)
      else some s) = some s1)
    (hopen : s1.mFile.isOpen = true) (hdisk : s1.disk s1.mFile.fileName = some f)
    (hsize : s1.mFile.pos + D.sizeofImageHeader + D.sizeofImageInfo ≤ f.size) :
    frameTime D s frameId
      = some ((secondsAt D f s1.mFile.pos * 1000 + microSecondsAt D f s1.mFile.pos / 1000)
          % 2 ^ 32, s1) := by
  have hmin1 : min D.sizeofImageHeader (f.size - s1.mFile.pos) = D.sizeofImageHeader := by omega
  have hmin2 : min D.sizeofImageInfo (f.size - (s1.mFile.pos + D.sizeofImageHeader))
      = D.sizeofImageInfo := by omega
  have e1 : get32 (big2little_struct (fun i => if i < D.sizeofImageInfo
        then f.bytes (s1.mFile.pos + D.sizeofImageHeader + i) else 0) D.sizeofImageInfo)
        D.offTimeSeconds
      = secondsAt D f s1.mFile.pos := by
    rw [get32_big2little _ _ _ hI.secondsAligned hI.secondsInside]
    have h := hI.secondsInside
    simp only [secondsAt, be32, show D.offTimeSeconds < D.sizeofImageInfo by omega,
      show D.offTimeSeconds + 1 < D.sizeofImageInfo by omega,
      show D.offTimeSeconds + 2 < D.sizeofImageInfo by omega,
      show D.offTimeSeconds + 3 < D.sizeofImageInfo by omega, if_true, add_assoc]
  have e2 : get32 (big2little_struct (fun i => if i < D.sizeofImageInfo
        then f.bytes (s1.mFile.pos + D.sizeofImageHeader + i) else 0) D.sizeofImageInfo)
        D.offTimeMicroSeconds
      = microSecondsAt D f s1.mFile.pos := by
    rw [get32_big2little _ _ _ hI.microAligned hI.microInside]
    have h := hI.microInside
    simp only [microSecondsAt, be32, show D.offTimeMicroSeconds < D.sizeofImageInfo by omega,
      show D.offTimeMicroSeconds + 1 < D.sizeofImageInfo by omega,
      show D.offTimeMicroSeconds + 2 < D.sizeofImageInfo by omega,
      show D.offTimeMicroSeconds + 3 < D.sizeofImageInfo by omega, if_true, add_assoc]
  simp only [frameTime, hr, fileRead, hopen, hdisk, hmin1, hmin2, ne_eq, not_true_eq_false,
    if_false, e1, e2, fileSeek, filePos]
  simp only [Nat.cast_nonneg, and_true, if_true, Int.toNat_ofNat, Option.some.injEq,
    Prod.mk.injEq, true_and]
  have e : s1.mFile = { s1.mFile with isOpen := true } := by rw [← hopen]
  rw [← e]

/-- The value of `frameTime` at the position a seek leaves: when the cursor already stands at
`frameId`, or `seekToFrame(frameId)` succeeds, and the file holds a frame header and a frame
info at the resulting position, `frameTime(frameId)` returns
`seconds*1000 + floor(microseconds/1000)` reduced modulo `2^32`, where the two fields are the
big-endian 32-bit fields of the frame info at that position, and the engine is left exactly as
the seek left it. -/
theorem frameTime_after_seek (D : Decls) (hI : D.InfoWF) (s s1 : LadybugStream) (frameId : Int)
    (f : FileData)
    (hseek : (frameId = s.mCurrentFrame ∧ s1 = s)
      ∨ (frameId ≠ s.mCurrentFrame ∧ seekToFrame D s frameId = some (true, s1)))
    (hopen : s1.mFile.isOpen = true) (hdisk : s1.disk s1.mFile.fileName = some f)
    (hsize : s1.mFile.pos + D.sizeofImageHeader + D.sizeofImageInfo ≤ f.size) :
    frameTime D s frameId
      = some ((secondsAt D f s1.mFile.pos * 1000 + microSecondsAt D f s1.mFile.pos / 1000)
          % 2 ^ 32, s1) := by
  apply frameTime_core D hI s s1 frameId f _ hopen hdisk hsize
  rcases hseek with ⟨h1, h2⟩ | ⟨h1, h2⟩
  · simp [h1, h2]
  · simp [h1, h2]

/-- On the two-frame example stream `seekToFrame(1)` succeeds and stops at offset 3624, where
the second record starts; its info holds `0x02020202` in both time fields, and `frameTime(1)`
returns the wrapped value and leaves the position at 3624. -/
theorem frameTime_after_seek_demo :
    seekToFrame demoDecls demoReading 1 = some (true, demoSeek1)
      ∧ demoSeek1.mFile.pos = 3584 + 40
      ∧ secondsAt demoDecls demoFile demoSeek1.mFile.pos = 0x02020202
      ∧ microSecondsAt demoDecls demoFile demoSeek1.mFile.pos = 0x02020202
      ∧ frameTime demoDecls demoReading 1
          = some ((secondsAt demoDecls demoFile demoSeek1.mFile.pos * 1000
              + microSecondsAt demoDecls demoFile demoSeek1.mFile.pos / 1000) % 2 ^ 32,
            demoSeek1) :=
  ⟨rfl, by decide, by decide, by decide,
   frameTime_after_seek demoDecls demoDecls_infoWF demoReading demoSeek1 1 demoFile
     (Or.inr ⟨by decide, rfl⟩) rfl rfl (by decide)⟩

/-- A short read of the frame header or of the frame info makes `frameTime` return 0. -/
theorem frameTime_short (D : Decls) (s s1 : LadybugStream) (frameId : Int) (f : FileData)
    (hr : (if frameId ≠ s.mCurrentFrame then (seekToFrame D s frameId).map (fun p => p.2)
      else some s) = some s1)
    (hopen : s1.mFile.isOpen = true) (hdisk : s1.disk s1.mFile.fileName = some f)
    (hH : 0 < D.sizeofImageHeader)
    (hshort : f.size < s1.mFile.pos + D.sizeofImageHeader + D.sizeofImageInfo) :
    ∃ s2, frameTime D s frameId = some (0, s2) := by
  by_cases h1 : s1.mFile.pos + D.sizeofImageHeader ≤ f.size
  · have hmin1 : min D.sizeofImageHeader (f.size - s1.mFile.pos) = D.sizeofImageHeader := by
      omega
    have hne : ¬ ((min D.sizeofImageInfo (f.size - (s1.mFile.pos + D.sizeofImageHeader)) : Nat)
        : Int) = (D.sizeofImageInfo : Int) := by
      omega
    simp only [frameTime, hr, fileRead, hopen, hdisk, hmin1, ne_eq, not_true_eq_false,
      if_false, hne, not_false_eq_true, if_true]
    exact ⟨_, rfl⟩
  · have hne : ¬ ((min D.sizeofImageHeader (f.size - s1.mFile.pos) : Nat) : Int)
        = (D.sizeofImageHeader : Int) := by
      omega
    simp only [frameTime, hr, fileRead, hopen, hdisk, ne_eq, hne, not_false_eq_true, if_true]
    exact ⟨_, rfl⟩

/-- C15 (the code departs from the claim). `frameTime` ignores the result of `seekToFrame`:
on the two-frame example stream, with the cursor at frame 0, the frame numbers `-1` and `2` are
out of range and `seekToFrame` fails for both, yet `frameTime(-1)` and `frameTime(2)` read the
record at the current position and return its time `3958123955`, not 0. -/
theorem frameTime_out_of_range_not_zero :
    demoReading.mTotalNumFrames = 2
      ∧ seekToFrame demoDecls demoReading (-1) = some (false, demoReading)
      ∧ (frameTime demoDecls demoReading (-1)).map (fun r => r.1) = some 3958123955
      ∧ seekToFrame demoDecls demoReading 2 = some (false, demoReading)
      ∧ (frameTime demoDecls demoReading 2).map (fun r => r.1) = some 3958123955 := by
  refine ⟨by decide, rfl, by decide, rfl, by decide⟩

/-! ## Seeking by time -/

/-- Below `2^32 / 15` milliseconds the product does not wrap and `seekToTime` is `seekToFrame`
of `floor(ms * 15 / 1000)`. -/
theorem seekToTime_small (D : Decls) (s : LadybugStream) (miliseconds : Nat)
    (h : miliseconds * 15 < 2 ^ 32) :
    seekToTime D s miliseconds = seekToFrame D s ((miliseconds * 15 / 1000 : Nat) : Int) := by
  unfold seekToTime
  rw [Nat.mod_eq_of_lt h]

/-- C16 (the code departs from the claim). `seekToTime` multiplies in `unsigned int`: for
`ms = 286331220` the product `ms * 15` is `2^32 + 1004`, so the code seeks to frame
`1004 / 1000 = 1`, which succeeds on the two-frame example stream, while
`seekToFrame(floor(ms * 15 / 1000)) = seekToFrame(4294968)` fails and changes nothing. -/
theorem seekToTime_wraps :
    286331220 < 2 ^ 32 ∧ 286331220 * 15 / 1000 = 4294968
      ∧ 286331220 * 15 % 2 ^ 32 / 1000 = 1
      ∧ demoReading.mTotalNumFrames = 2
      ∧ seekToTime demoDecls demoReading 286331220 = some (true, demoSeek1)
      ∧ demoSeek1.mCurrentFrame = 1 ∧ demoSeek1.mFile.pos = 3624
      ∧ demoReading.mCurrentFrame = 0 ∧ demoReading.mFile.pos = 3584
      ∧ seekToFrame demoDecls demoReading ((286331220 * 15 / 1000 : Nat) : Int)
          = some (false, demoReading) := by
  refine ⟨by decide, by decide, by decide, by decide, rfl, by decide, by decide, by decide,
    by decide, rfl⟩

/-! ## Index entries of the writer -/

/-- The offset table after the index bookkeeping of `writeImage`. -/
theorem recordIndex_offsets (s : LadybugStream) (hinc : s.mIndexIncrement = IDX_INCREMENT)
    (hpos : s.mFile.pos < 2 ^ 32) (k : Nat) :
    (recordIndex s).mOffsets k
      = if k < 512 ∧ 50 * k = s.mNumFrames then s.mFile.pos else s.mOffsets k := by
  unfold recordIndex
  rw [hinc]
  simp only [IDX_INCREMENT, filePos]
  by_cases h1 : s.mNumFrames % 50 = 0
  · by_cases h2 : s.mNumFrames / 50 < 512
    · simp only [h1, h2, if_true]
      by_cases h3 : k = s.mNumFrames / 50
      · have hc : k < 512 ∧ 50 * k = s.mNumFrames := by omega
        rw [if_pos hc, h3, Function.update_same, Nat.mod_eq_of_lt hpos]
      · have hc : ¬ (k < 512 ∧ 50 * k = s.mNumFrames) := by omega
        rw [if_neg hc, Function.update_noteq h3]
    · have hc : ¬ (k < 512 ∧ 50 * k = s.mNumFrames) := by omega
      simp only [h1, h2, if_true, if_false, hc]
  · have hc : ¬ (k < 512 ∧ 50 * k = s.mNumFrames) := by omega
    simp only [h1, if_false, hc]

theorem writeAll_inPlace_offsets (D : Decls) (cameraInfo : LadybugInfo) (baseName : String)
    (images : List LadybugImage) (s s2 : LadybugStream) (f : FileData)
    (hinv : WInv cameraInfo baseName s) (hdisk : s.disk s.mFile.fileName = some f)
    (hfit : s.mFile.pos + totalBytes images < LIMIT_2GB)
    (hw : writeAll D images s = some s2) (k : Nat) :
    s2.mOffsets k
      = if k < 512 ∧ s.mNumFrames ≤ 50 * k ∧ 50 * k < s.mNumFrames + images.length then
          s.mFile.pos + totalBytes (images.take (50 * k - s.mNumFrames))
        else s.mOffsets k := by
  induction images generalizing s f with
  | nil =>
    simp only [writeAll, Option.some.injEq] at hw
    subst hw
    have hc : ¬ (k < 512 ∧ s.mNumFrames ≤ 50 * k ∧ 50 * k < s.mNumFrames + ([] : List LadybugImage).length) := by
      simp only [List.length_nil]
      omega
    rw [if_neg hc]
  | cons image rest ih =>
    rw [totalBytes_cons] at hfit
    have hinc : s.mIndexIncrement ≠ 0 := by rw [hinv.increment]; decide
    have hstep := writeImage_inPlace D s f image hinv.isOpen hinv.mode hdisk hinc (by omega)
    have hinv2 := wroteInPlace_inv cameraInfo baseName s f image hinv
    simp only [writeAll, hstep] at hw
    have h := ih (wroteInPlace s f image)
      (blit f s.mFile.pos image.frameData image.frameBytes) hinv2
      (Function.update_same _ _ _) (by simp only [wroteInPlace]; omega) hw
    have hL : LIMIT_2GB < 2 ^ 32 := by decide
    have hrec := recordIndex_offsets s hinv.increment (by omega) k
    have e1 : (wroteInPlace s f image).mNumFrames = s.mNumFrames + 1 := rfl
    have e2 : (wroteInPlace s f image).mFile.pos = s.mFile.pos + image.frameBytes := rfl
    have e3 : (wroteInPlace s f image).mOffsets = (recordIndex s).mOffsets := rfl
    rw [h, e1, e2, e3, hrec, List.length_cons]
    by_cases ha : k < 512 ∧ s.mNumFrames + 1 ≤ 50 * k ∧ 50 * k < s.mNumFrames + 1 + rest.length
    · have hb : k < 512 ∧ s.mNumFrames ≤ 50 * k ∧ 50 * k < s.mNumFrames + (rest.length + 1) := by
        omega
      have e : 50 * k - s.mNumFrames = (50 * k - (s.mNumFrames + 1)) + 1 := by omega
      rw [if_pos ha, if_pos hb, e, List.take_succ_cons, totalBytes_cons]
      omega
    · rw [if_neg ha]
      by_cases hb : k < 512 ∧ 50 * k = s.mNumFrames
      · have hc : k < 512 ∧ s.mNumFrames ≤ 50 * k ∧ 50 * k < s.mNumFrames + (rest.length + 1) := by
          omega
        have e : 50 * k - s.mNumFrames = 0 := by omega
        rw [if_pos hb, if_pos hc, e]
        simp [totalBytes]
      · have hc : ¬ (k < 512 ∧ s.mNumFrames ≤ 50 * k
            ∧ 50 * k < s.mNumFrames + (rest.length + 1)) := by
          omega
        rw [if_neg hb, if_neg hc]

/-- The bytes of frame `j` in a file built by `blitFrames` start at the offset that follows the
frames before it. -/
theorem blitFrames_bytes_at (f : FileData) (p : Nat) (images : List LadybugImage) (j : Nat)
    (image : LadybugImage) (hj : images[j]? = some image) (i : Nat) (hi : i < image.frameBytes) :
    (blitFrames f p images).bytes (p + totalBytes (images.take j) + i) = image.frameData i := by
  induction images generalizing f p j with
  | nil => simp at hj
  | cons im rest ih =>
    cases j with
    | zero =>
      simp only [List.getElem?_cons_zero, Option.some.injEq] at hj
      subst hj
      simp only [blitFrames, List.take_zero, totalBytes, List.map_nil, List.sum_nil, add_zero]
      rw [blitFrames_bytes_lt _ _ _ _ (by omega), blit_bytes_in _ _ _ _ _ (by omega)]
      congr 1
      omega
    | succ j =>
      simp only [List.getElem?_cons_succ] at hj
      simp only [blitFrames, List.take_succ_cons, totalBytes_cons]
      have h := ih (blit f p im.frameData im.frameBytes) (p + im.frameBytes) j hj
      rw [← h]
      congr 1
      omega

theorem wroteInPlace_fileIndex (s : LadybugStream) (f : FileData) (image : LadybugImage) :
    (wroteInPlace s f image).mFileIndex = s.mFileIndex := by
  simp only [wroteInPlace]
  exact (recordIndex_frame s).2.2.2.2.1

theorem wroteRolled_fileIndex (D : Decls) (s : LadybugStream) (f : FileData)
    (image : LadybugImage) : (wroteRolled D s f image).mFileIndex = s.mFileIndex + 1 := rfl

/-- The file index never decreases during a recording. -/
theorem writeAll_fileIndex_le (D : Decls) (cameraInfo : LadybugInfo) (baseName : String)
    (images : List LadybugImage) (s s2 : LadybugStream) (hinv : WInv cameraInfo baseName s)
    (hw : writeAll D images s = some s2) : s.mFileIndex ≤ s2.mFileIndex := by
  induction images generalizing s with
  | nil =>
    simp only [writeAll, Option.some.injEq] at hw
    rw [hw]
  | cons image rest ih =>
    obtain ⟨f, _, h | h | ⟨t, h⟩⟩ := writeImage_cases D cameraInfo baseName s image hinv
    · simp only [writeAll, h.2] at hw
      have := ih _ (wroteInPlace_inv cameraInfo baseName s f image hinv) hw
      rw [wroteInPlace_fileIndex] at this
      exact this
    · simp only [writeAll, h.2] at hw
      have := ih _ (wroteRolled_inv D cameraInfo baseName s f image hinv) hw
      rw [wroteRolled_fileIndex] at this
      omega
    · simp [writeAll, h] at hw

/-- A recording that ends in the file it started in stayed below the ceiling with every
frame. -/
theorem writeAll_noRollover_fit (D : Decls) (cameraInfo : LadybugInfo) (baseName : String)
    (images : List LadybugImage) (s s2 : LadybugStream) (hinv : WInv cameraInfo baseName s)
    (hw : writeAll D images s = some s2) (hno : s2.mFileIndex = s.mFileIndex)
    (hne : images ≠ []) : s.mFile.pos + totalBytes images < LIMIT_2GB := by
  induction images generalizing s with
  | nil => exact absurd rfl hne
  | cons image rest ih =>
    obtain ⟨f, _, h | h | ⟨t, h⟩⟩ := writeImage_cases D cameraInfo baseName s image hinv
    · simp only [writeAll, h.2] at hw
      have hinv2 := wroteInPlace_inv cameraInfo baseName s f image hinv
      rw [totalBytes_cons]
      cases rest with
      | nil =>
        simp only [totalBytes, List.map_nil, List.sum_nil, add_zero]
        exact h.1
      | cons im2 rest2 =>
        have := ih _ hinv2 hw (by rw [hno, wroteInPlace_fileIndex]) (by simp)
        simp only [wroteInPlace] at this
        omega
    · simp only [writeAll, h.2] at hw
      have := writeAll_fileIndex_le D cameraInfo baseName rest _ s2
        (wroteRolled_inv D cameraInfo baseName s f image hinv) hw
      rw [wroteRolled_fileIndex] at this
      omega
    · simp [writeAll, h] at hw

/-- C17. Writer index entries: after `openForWriting` and `n` successful `writeImage` calls
that end in the file that `openForWriting` created (no rollover), for every key
`k < min(512, ceil(n/50))` the in-memory entry `mOffsets[k]` is the data-start offset plus the
byte lengths of frames `0 .. 50*k-1`, which is where the bytes of frame `50*k` start in the
file; entries for keys 512 and above are as they were before. -/
theorem writer_index_entries (D : Decls) (s0 s1 s2 : LadybugStream) (baseName : String)
    (cameraInfo : LadybugInfo) (fileIndex : Int) (images : List LadybugImage)
    (hopen : openForWriting D s0 baseName cameraInfo fileIndex = (true, s1))
    (hw : writeAll D images s1 = some s2)
    (hno : s2.mFileIndex = fileIndex) :
    s2.mNumFrames = images.length
      ∧ ∃ f, s2.disk (pgrFilename baseName fileIndex) = some f
        ∧ (∀ k, k < min 512 ((images.length + 49) / 50) →
            s2.mOffsets k
                = dataOffsetOf D cameraInfo.calibration.length
                  + totalBytes (images.take (50 * k))
              ∧ ∀ image, images[50 * k]? = some image →
                  ∀ i, i < image.frameBytes → f.bytes (s2.mOffsets k + i) = image.frameData i)
        ∧ (∀ k, 512 ≤ k → s2.mOffsets k = s0.mOffsets k) := by
  have h1 := (openForWriting_inv D s0 s1 baseName cameraInfo fileIndex hopen).1
  have hinv : WInv cameraInfo baseName s1 := by
    rw [h1]
    exact openedWriting_inv D { s0 with
      mTotalNumFrames := 0, mNumMegabytes := 0, mCameraInfo := cameraInfo } baseName fileIndex
  have hd : s1.disk s1.mFile.fileName = some (freshFile D cameraInfo) := by
    rw [h1]
    exact Function.update_same _ _ _
  have hp : s1.mFile.pos = dataOffsetOf D cameraInfo.calibration.length := by rw [h1]; rfl
  have hn : s1.mNumFrames = 0 := by rw [h1]; rfl
  have ho : s1.mOffsets = s0.mOffsets := by rw [h1]; rfl
  have hname : s1.mFile.fileName = pgrFilename baseName fileIndex := by rw [h1]; rfl
  have hidx : s1.mFileIndex = fileIndex := by rw [h1]; rfl
  cases images with
  | nil =>
    simp only [writeAll, Option.some.injEq] at hw
    subst hw
    refine ⟨hn, freshFile D cameraInfo, by rw [← hname]; exact hd, ?_, fun k _ => by rw [ho]⟩
    intro k hk
    simp at hk
  | cons im0 rest =>
    have hfit := writeAll_noRollover_fit D cameraInfo baseName (im0 :: rest) s1 s2 hinv hw
      (by rw [hno, hidx]) (by simp)
    obtain ⟨s2b, w1, _, _, _, w5, _, w7, _, _⟩ := writeAll_inPlace D cameraInfo baseName
      (im0 :: rest) s1 (freshFile D cameraInfo) hinv hd hfit
    have e2 : s2b = s2 := Option.some.inj (w1.symm.trans hw)
    subst e2
    have hoff := writeAll_inPlace_offsets D cameraInfo baseName (im0 :: rest) s1 s2b
      (freshFile D cameraInfo) hinv hd hfit hw
    refine ⟨by rw [w5, hn, Nat.zero_add],
      blitFrames (freshFile D cameraInfo) s1.mFile.pos (im0 :: rest), ?_, ?_, ?_⟩
    · rw [w7, hname, Function.update_same]
    · intro k hk
      have hc : k < 512 ∧ s1.mNumFrames ≤ 50 * k
          ∧ 50 * k < s1.mNumFrames + (im0 :: rest).length := by
        rw [hn]
        omega
      have e : s2b.mOffsets k = dataOffsetOf D cameraInfo.calibration.length
          + totalBytes ((im0 :: rest).take (50 * k)) := by
        rw [hoff k, if_pos hc, hn, hp, Nat.sub_zero]
      refine ⟨e, ?_⟩
      intro image himg i hi
      rw [e, ← hp]
      exact blitFrames_bytes_at _ _ _ _ image himg i hi
    · intro k hk
      have hc : ¬ (k < 512 ∧ s1.mNumFrames ≤ 50 * k
          ∧ 50 * k < s1.mNumFrames + (im0 :: rest).length) := by
        omega
      rw [hoff k, if_neg hc, ho]

/-- Witness for C17: after 51 frames of 32 bytes the engine is still in file 0, key 0 holds the
data offset 3584 and key 1 holds `3584 + 50 * 32`. -/
theorem writer_index_entries_witness :
    demoWritten51.mFileIndex = 0
      ∧ demoWritten51.mOffsets 0 = 3584 ∧ demoWritten51.mOffsets 1 = 3584 + 50 * 32 :=
  have h := writer_index_entries demoDecls blank demoOpened demoWritten51 "s" demoInfo 0
    (List.replicate 51 (demoFrame 32 1)) rfl rfl (by decide)
  h.2.elim fun _ h3 =>
    ⟨by decide, (h3.2.1 0 (by decide)).1.trans (by decide),
      (h3.2.1 1 (by decide)).1.trans (by decide)⟩

/-! ## File selection in `seekToFrame` -/

/-- Every frame number below the total lies in the range of exactly one file. -/
theorem exists_file_of_frame (counts : List Nat) (a frameId : Int) (h0 : a ≤ frameId)
    (hlt : frameId < a + (counts.sum : Nat)) :
    ∃ j, j < counts.length ∧ a + ((counts.take j).sum : Nat) ≤ frameId
      ∧ frameId < a + ((counts.take (j + 1)).sum : Nat) := by
  induction counts generalizing a with
  | nil =>
    simp only [List.sum_nil, Nat.cast_zero, add_zero] at hlt
    omega
  | cons n rest ih =>
    by_cases h : frameId < a + (n : Int)
    · refine ⟨0, by simp, by simpa using h0, ?_⟩
      simpa using h
    · simp only [List.sum_cons] at hlt
      obtain ⟨j, hj, h1, h2⟩ := ih (a + n) (by omega) (by push_cast at hlt ⊢; omega)
      refine ⟨j + 1, by simpa using hj, ?_, ?_⟩
      · simp only [List.take_succ_cons, List.sum_cons]
        push_cast at h1 ⊢
        omega
      · simp only [List.take_succ_cons, List.sum_cons]
        push_cast at h2 ⊢
        omega

theorem sameFile_trans (s t u : LadybugStream) (h1 : SameFile s t) (h2 : SameFile t u) :
    SameFile s u :=
  ⟨h2.1.trans h1.1, h2.2.1.trans h1.2.1, h2.2.2.1.trans h1.2.2.1, h2.2.2.2.1.trans h1.2.2.2.1,
    h2.2.2.2.2.trans h1.2.2.2.2⟩

theorem fileRead_sameFile (s : LadybugStream) (n : Nat) : SameFile s (fileRead s n).2.2 := by
  unfold fileRead
  split <;> exact ⟨rfl, rfl, rfl, rfl, rfl⟩

theorem fileSeek_sameFile (s : LadybugStream) (p : Int) : SameFile s (fileSeek s p).2 := by
  unfold fileSeek
  split <;> exact ⟨rfl, rfl, rfl, rfl, rfl⟩

/-- The loop of `seekToFrame` leaves the file name, the open flag, the file index, the
first-frame marker and the disk as they are. -/
theorem skipFrames_sameFile (D : Decls) (n : Nat) (s : LadybugStream) :
    SameFile s (skipFrames D n s).2 := by
  induction n generalizing s with
  | zero => exact ⟨rfl, rfl, rfl, rfl, rfl⟩
  | succ n ih =>
    have hr := fileRead_sameFile s D.sizeofImageHeader
    unfold skipFrames
    generalize fileRead s D.sizeofImageHeader = r at hr
    obtain ⟨k, header, s1⟩ := r
    simp only []
    have hfall : SameFile s { (fileSeek s1 s1.mDataOffset).2 with mCurrentFrame := 0 } :=
      sameFile_trans s s1 _ hr (fileSeek_sameFile s1 _)
    split
    · exact hfall
    · have hk := fileSeek_sameFile s1 ((filePos s1 : Int)
        + get32 (big2little_struct header D.sizeofImageHeader) D.offDataSize
        - D.sizeofImageHeader)
      generalize fileSeek s1 ((filePos s1 : Int)
        + get32 (big2little_struct header D.sizeofImageHeader) D.offDataSize
        - D.sizeofImageHeader) = q at hk
      obtain ⟨b, s2⟩ := q
      cases b with
      | false =>
        exact sameFile_trans s s2 _ (sameFile_trans s s1 s2 hr hk) (fileSeek_sameFile s2 _)
      | true => exact sameFile_trans s s2 _ (sameFile_trans s s1 s2 hr hk) (ih s2)

theorem seekInFile_aux (D : Decls) (s : LadybugStream) (frameId p : Int) (n : Nat)
    (c : Prop) [Decidable c] (b : Bool) (t : LadybugStream)
    (h : (if c then none
      else some (skipFrames D n (fileSeek { s with mCurrentFrame := frameId } p).2))
        = some (b, t)) : SameFile s t := by
  by_cases hc : c
  · rw [if_pos hc] at h
    cases h
  · rw [if_neg hc, Option.some.injEq] at h
    have h2 := skipFrames_sameFile D n (fileSeek { s with mCurrentFrame := frameId } p).2
    rw [h] at h2
    exact sameFile_trans s _ t
      (sameFile_trans s { s with mCurrentFrame := frameId } _ ⟨rfl, rfl, rfl, rfl, rfl⟩
        (fileSeek_sameFile _ _)) h2

/-- Step 2 of `seekToFrame` stays in the file that is open. -/
theorem seekInFile_sameFile (D : Decls) (s : LadybugStream) (frameId : Int) (b : Bool)
    (t : LadybugStream) (h : seekInFile D s frameId = some (b, t)) : SameFile s t := by
  unfold seekInFile at h
  dsimp only at h
  by_cases c1 : s.mIndexIncrement = 0
  · rw [if_pos c1] at h
    cases h
  · rw [if_neg c1] at h
    exact seekInFile_aux D s frameId _ _ _ b t h

/-- For a frame outside the open file, `seekToFrame` closes the file, reopens the file at list
position `i - 1`, where `i` is the result of the scan, and goes on with step 2. -/
theorem seekToFrame_otherFile (D : Decls) (s : LadybugStream) (frameId : Int) (j : Nat)
    (hopen : s.mFile.isOpen = true) (hmode : s.mMode = Mode.Reading)
    (h0 : 0 ≤ frameId) (htotal : frameId < (s.mTotalNumFrames : Int))
    (hout : frameId < s.mFirstFrame ∨ frameId ≥ s.mFirstFrame + s.mNumFrames)
    (hscan : scanFirstFrames s.mFirstFrameList frameId 0 = j + 1) :
    seekToFrame D s frameId
      = afterReopen D (openForReadingInternal D (fileClose s) (s.mFirstFileIndex + j)
          (s.mFirstFrameList.getD j 0)) frameId := by
  have hr : ¬ (frameId < 0 ∨ frameId ≥ (s.mTotalNumFrames : Int)) := by omega
  have e : s.mFirstFileIndex + ((j + 1 : Nat) : Int) - 1 = s.mFirstFileIndex + j := by
    push_cast
    omega
  unfold seekToFrame
  simp only [hopen, hmode, hr, hout, if_true, if_false, Bool.not_true, Bool.false_or, ne_eq,
    not_true_eq_false, decide_False, Bool.false_eq_true, hscan, Nat.add_one_ne_zero,
    Nat.add_sub_cancel, e, close_reading s hopen hmode]
  generalize openForReadingInternal D (fileClose s) (s.mFirstFileIndex + j)
    (s.mFirstFrameList.getD j 0) = r
  obtain ⟨b, t⟩ := r
  cases b <;> rfl

/-- C18. File selection in `seekToFrame`: with the first-frame list built for files with the
frame counts `counts` (so entry 0 is 0 and entry `j` is the sum of the counts before `j`) and an
in-range `frameId` outside the open file, the scan stops at `i = j + 1` for a valid list
position `j` with `F[j] ≤ frameId < F[j] + n_j` (files without frames are passed over); the
file reopened is `mFirstFileIndex + j` with first-frame marker `F[j]`, and every result of the
call has that file name set; when the reopen succeeds the result also has that file index and
that first-frame marker. -/
theorem seekToFrame_selects_file (D : Decls) (s : LadybugStream) (counts : List Nat)
    (frameId : Int)
    (hopen : s.mFile.isOpen = true) (hmode : s.mMode = Mode.Reading)
    (hlist : s.mFirstFrameList = firstFramesFrom 0 counts)
    (hsum : s.mTotalNumFrames = counts.sum)
    (h0 : 0 ≤ frameId) (htotal : frameId < (s.mTotalNumFrames : Int))
    (hout : frameId < s.mFirstFrame ∨ frameId ≥ s.mFirstFrame + s.mNumFrames) :
    ∃ (j : Nat) (x : Int), j < s.mFirstFrameList.length
      ∧ scanFirstFrames s.mFirstFrameList frameId 0 = j + 1
      ∧ s.mFirstFrameList[j]? = some x ∧ x = ((counts.take j).sum : Nat)
      ∧ x ≤ frameId ∧ frameId < x + (counts.getD j 0 : Nat)
      ∧ seekToFrame D s frameId
          = afterReopen D (openForReadingInternal D (close s).2 (s.mFirstFileIndex + j) x) frameId
      ∧ (∀ b t, seekToFrame D s frameId = some (b, t) →
          t.mFile.fileName = pgrFilename s.mBaseName (s.mFirstFileIndex + j))
      ∧ (∀ b t, (openForReadingInternal D (close s).2 (s.mFirstFileIndex + j) x).1 = true →
          seekToFrame D s frameId = some (b, t) →
          t.mFileIndex = s.mFirstFileIndex + j ∧ t.mFirstFrame = x) := by
  obtain ⟨j, hj, hlo, hhi⟩ := exists_file_of_frame counts 0 frameId h0
    (by rw [hsum] at htotal; simpa using htotal)
  have hscan : scanFirstFrames s.mFirstFrameList frameId 0 = j + 1 := by
    rw [hlist, scanFirstFrames_spec counts 0 0 frameId j hj hlo hhi]
    omega
  have hx : s.mFirstFrameList[j]? = some (((counts.take j).sum : Nat) : Int) := by
    rw [hlist, firstFramesFrom_getElem counts 0 j hj, zero_add]
  have hgetD : s.mFirstFrameList.getD j 0 = (((counts.take j).sum : Nat) : Int) := by
    rw [hlist, firstFramesFrom_getD counts 0 j hj, zero_add]
  have hseek := seekToFrame_otherFile D s frameId j hopen hmode h0 htotal hout hscan
  rw [hgetD, ← show (close s).2 = fileClose s by rw [close_reading s hopen hmode]] at hseek
  have hname : ∀ fi ff, (openForReadingInternal D (close s).2 fi ff).2.mFile.fileName
      = pgrFilename s.mBaseName fi := by
    intro fi ff
    rw [close_reading s hopen hmode]
    cases hd : s.disk (pgrFilename s.mBaseName fi) with
    | none => rw [openForReadingInternal_missing D (fileClose s) fi ff rfl hd]; rfl
    | some g =>
      by_cases hsup : Supported D g
      · rw [openForReadingInternal_supported D (fileClose s) fi ff g rfl hd hsup]; rfl
      · rw [openForReadingInternal_rejected D (fileClose s) fi ff g rfl hd hsup]; rfl
  refine ⟨j, _, by rw [hlist, firstFramesFrom_length]; exact hj, hscan, hx, rfl, ?_, ?_, hseek,
    ?_, ?_⟩
  · simpa using hlo
  · rw [sum_take_succ_getD counts j hj] at hhi
    push_cast at hhi ⊢
    omega
  · intro b t ht
    rw [hseek] at ht
    have hn := hname (s.mFirstFileIndex + j) (((counts.take j).sum : Nat) : Int)
    generalize openForReadingInternal D (close s).2 (s.mFirstFileIndex + j)
      (((counts.take j).sum : Nat) : Int) = r at ht hn
    obtain ⟨b2, t2⟩ := r
    cases b2 with
    | false =>
      simp only [afterReopen, Option.some.injEq, Prod.mk.injEq] at ht
      rw [← ht.2]
      exact hn
    | true =>
      simp only [afterReopen] at ht
      rw [(seekInFile_sameFile D t2 frameId b t ht).1]
      exact hn
  · intro b t hok ht
    rw [hseek] at ht
    have hfields : (openForReadingInternal D (close s).2 (s.mFirstFileIndex + j)
          (((counts.take j).sum : Nat) : Int)).1 = true →
        (openForReadingInternal D (close s).2 (s.mFirstFileIndex + j)
          (((counts.take j).sum : Nat) : Int)).2.mFileIndex = s.mFirstFileIndex + j
        ∧ (openForReadingInternal D (close s).2 (s.mFirstFileIndex + j)
          (((counts.take j).sum : Nat) : Int)).2.mFirstFrame
            = (((counts.take j).sum : Nat) : Int) := by
      rw [close_reading s hopen hmode]
      cases hd : s.disk (pgrFilename s.mBaseName (s.mFirstFileIndex + j)) with
      | none =>
        rw [openForReadingInternal_missing D (fileClose s) _ _ rfl hd]
        intro h
        cases h
      | some g =>
        by_cases hsup : Supported D g
        · rw [openForReadingInternal_supported D (fileClose s) _ _ g rfl hd hsup]
          intro _
          exact ⟨rfl, rfl⟩
        · rw [openForReadingInternal_rejected D (fileClose s) _ _ g rfl hd hsup]
          intro h
          cases h
    have hf := hfields hok
    generalize openForReadingInternal D (close s).2 (s.mFirstFileIndex + j)
      (((counts.take j).sum : Nat) : Int) = r at ht hf hok
    obtain ⟨b2, t2⟩ := r
    simp only at hok
    subst hok
    simp only [afterReopen] at ht
    have hs := seekInFile_sameFile D t2 frameId b t ht
    exact ⟨hs.2.2.1.trans hf.1, hs.2.2.2.1.trans hf.2⟩

/-- Witness for C18: in the two-file example recording, with file 0 open and the cursor at
frame 1, the scan for frame 1 stops at `i = 2`, so list position 1 is selected: file 1 with
first-frame marker 1. -/
theorem seekToFrame_selects_file_witness :
    ∃ (j : Nat) (x : Int), j < demoAtBoundary.mFirstFrameList.length
      ∧ scanFirstFrames demoAtBoundary.mFirstFrameList 1 0 = j + 1
      ∧ demoAtBoundary.mFirstFrameList[j]? = some x ∧ x = ((([1, 1] : List Nat).take j).sum : Nat)
      ∧ x ≤ 1 ∧ 1 < x + (([1, 1] : List Nat).getD j 0 : Nat)
      ∧ seekToFrame demoDecls demoAtBoundary 1
          = afterReopen demoDecls (openForReadingInternal demoDecls (close demoAtBoundary).2
              (demoAtBoundary.mFirstFileIndex + j) x) 1
      ∧ (∀ b t, seekToFrame demoDecls demoAtBoundary 1 = some (b, t) →
          t.mFile.fileName = pgrFilename demoAtBoundary.mBaseName
            (demoAtBoundary.mFirstFileIndex + j))
      ∧ (∀ b t, (openForReadingInternal demoDecls (close demoAtBoundary).2
            (demoAtBoundary.mFirstFileIndex + j) x).1 = true →
          seekToFrame demoDecls demoAtBoundary 1 = some (b, t) →
          t.mFileIndex = demoAtBoundary.mFirstFileIndex + j ∧ t.mFirstFrame = x) :=
  seekToFrame_selects_file demoDecls demoAtBoundary [1, 1] 1 (by decide) (by decide)
    (by decide) (by decide) (by decide) (by decide) (by decide)

/-! ## Header fields that the reader does not check -/

/-- C19 (the code departs from the claim). `openForReadingInternal` does not look at
`ulIncrement`: a file that differs from a file of the writer only in `ulIncrement = 0` is
accepted, `mIndexIncrement` becomes 0, `openForReading` succeeds with two frames, and the
in-range `seekToFrame(1)` then reaches `frameId / mIndexIncrement` with a zero divisor (the
model returns `none` for this undefined division). -/
theorem zero_increment_accepted :
    (demoZeroIncrement.disk (pgrFilename "s" 0)).map
        (fun f => get32 (headerOf demoDecls f) (demoDecls.off .ulIncrement)) = some 0
      ∧ (openForReadingInternal demoDecls demoZeroIncrement 0 0).1 = true
      ∧ (openForReadingInternal demoDecls demoZeroIncrement 0 0).2.mIndexIncrement = 0
      ∧ (openForReading demoDecls 2 demoZeroIncrement "s" 0).map (fun r => r.1) = some true
      ∧ demoZeroReading.mFile.isOpen = true ∧ demoZeroReading.mMode = Mode.Reading
      ∧ demoZeroReading.mTotalNumFrames = 2 ∧ demoZeroReading.mNumFrames = 2
      ∧ demoZeroReading.mFirstFrame = 0 ∧ demoZeroReading.mIndexIncrement = 0
      ∧ seekToFrame demoDecls demoZeroReading 1 = none := by
  refine ⟨by decide, by decide, by decide, by decide, by decide, by decide, by decide,
    by decide, by decide, by decide, rfl⟩

/-- C20 (the code departs from the claim). `readNextFrame` does not compare `ulDataSize` with
the sizes of the frame header and the frame info: on a stream whose only record is 40 bytes
long and declares `ulDataSize = 8`, both reads succeed, `8 < 16 + 16`, the payload length
`8 - 16 - 16` wraps to `4294967272`, and the header and info (32 bytes) are copied into a
buffer of 8 bytes (the model returns `none` for this write outside the buffer). -/
theorem short_record_length_accepted :
    demoShortReading.mFile.isOpen = true ∧ demoShortReading.mMode = Mode.Reading
      ∧ demoShortReading.mTotalNumFrames = 1 ∧ demoShortReading.mCurrentFrame = 0
      ∧ demoShortReading.mFirstFrame = 0 ∧ demoShortReading.mNumFrames = 1
      ∧ demoShortReading.disk demoShortReading.mFile.fileName = some demoShortFile
      ∧ demoShortReading.mFile.pos + demoDecls.sizeofImageHeader + demoDecls.sizeofImageInfo
          ≤ demoShortFile.size
      ∧ be32 demoShortFile.bytes (demoShortReading.mFile.pos + demoDecls.offDataSize) = 8
      ∧ 8 < demoDecls.sizeofImageHeader + demoDecls.sizeofImageInfo
      ∧ ((8 : Int) - demoDecls.sizeofImageHeader - demoDecls.sizeofImageInfo) % 2 ^ 32
          = 4294967272
      ∧ readNextFrame demoDecls demoShortReading ⟨fun _ => 0, 0⟩ = none := by
  refine ⟨by decide, by decide, by decide, by decide, by decide, by decide, rfl, by decide,
    by decide, by decide, by decide, rfl⟩

/-! ## Seeking inside a file through the index -/

theorem framesAt_drop (D : Decls) (g : FileData) (p : Nat) (images : List LadybugImage)
    (a : Nat) (h : FramesAt D g p images) :
    FramesAt D g (p + totalBytes (images.take a)) (images.drop a) := by
  induction images generalizing p a with
  | nil => simp [FramesAt]
  | cons im rest ih =>
    cases a with
    | zero => simpa [totalBytes] using h
    | succ a =>
      simp only [List.take_succ_cons, List.drop_succ_cons, totalBytes_cons]
      have h2 := ih (p + im.frameBytes) a h.2
      rw [← add_assoc]
      exact h2

theorem framesAt_take (D : Decls) (g : FileData) (p : Nat) (images : List LadybugImage)
    (a : Nat) (h : FramesAt D g p images) : FramesAt D g p (images.take a) := by
  induction images generalizing p a with
  | nil => simp [FramesAt]
  | cons im rest ih =>
    cases a with
    | zero => simp [FramesAt]
    | succ a =>
      simp only [List.take_succ_cons]
      exact ⟨h.1, ih (p + im.frameBytes) a h.2⟩

theorem totalBytes_append (l1 l2 : List LadybugImage) :
    totalBytes (l1 ++ l2) = totalBytes l1 + totalBytes l2 := by
  simp [totalBytes]

/-- One round of the loop of `seekToFrame` on a well-formed record: the header is read and
the position moves to the end of the record. -/
theorem skipFrames_step (D : Decls) (hD : D.WF) (s : LadybugStream) (g : FileData)
    (image : LadybugImage) (n : Nat)
    (hopen : s.mFile.isOpen = true) (hdisk : s.disk s.mFile.fileName = some g)
    (hrec : RecordAt D g s.mFile.pos image) :
    skipFrames D (n + 1) s = skipFrames D n (atPos s (s.mFile.pos + image.frameBytes)) := by
  obtain ⟨hsz, hb, hlenf, hlen, h32⟩ := hrec
  have hH := hD.dataSizeInside
  have hA := hD.dataSizeAligned
  have hmin1 : min D.sizeofImageHeader (g.size - s.mFile.pos) = D.sizeofImageHeader := by
    omega
  have hsize : get32 (big2little_struct
      (fun i => if i < D.sizeofImageHeader then g.bytes (s.mFile.pos + i) else 0)
      D.sizeofImageHeader) D.offDataSize = image.frameBytes := by
    rw [get32_big2little _ _ _ hA hH, ← hlenf]
    simp only [be32]
    rw [if_pos (by omega), if_pos (by omega), if_pos (by omega), if_pos (by omega),
      hb _ (by omega), hb _ (by omega), hb _ (by omega), hb _ (by omega)]
  have hge : (0 : Int) ≤ ((s.mFile.pos + D.sizeofImageHeader : Nat) : Int)
      + (image.frameBytes : Int) - (D.sizeofImageHeader : Int) := by
    push_cast
    omega
  have hto : (((s.mFile.pos + D.sizeofImageHeader : Nat) : Int)
      + (image.frameBytes : Int) - (D.sizeofImageHeader : Int)).toNat
      = s.mFile.pos + image.frameBytes := by
    push_cast
    omega
  simp only [skipFrames, fileRead, hopen, hdisk, hmin1, ne_eq, not_true_eq_false, if_false,
    hsize, fileSeek, filePos, hge, and_self, if_true, hto, atPos]

/-- The loop of `seekToFrame` over a run of well-formed records: every header is read, every
record is skipped, and the position ends behind the last of them. -/
theorem skipFrames_records (D : Decls) (hD : D.WF) (frames : List LadybugImage)
    (s : LadybugStream) (g : FileData)
    (hopen : s.mFile.isOpen = true) (hdisk : s.disk s.mFile.fileName = some g)
    (hframes : FramesAt D g s.mFile.pos frames) :
    skipFrames D frames.length s = (true, atPos s (s.mFile.pos + totalBytes frames)) := by
  induction frames generalizing s with
  | nil =>
    simp only [List.length_nil, skipFrames, totalBytes, List.map_nil, List.sum_nil, add_zero]
    rfl
  | cons image rest ih =>
    rw [List.length_cons, skipFrames_step D hD s g image _ hopen hdisk hframes.1,
      ih (atPos s (s.mFile.pos + image.frameBytes)) hopen hdisk hframes.2, totalBytes_cons]
    simp only [atPos, add_assoc]
/-- Inside the open file `seekToFrame` is its step 2. -/
theorem seekToFrame_eq_seekInFile (D : Decls) (s : LadybugStream) (frameId : Int)
    (hopen : s.mFile.isOpen = true) (hmode : s.mMode = Mode.Reading)
    (h0 : 0 ≤ frameId) (htotal : frameId < (s.mTotalNumFrames : Int))
    (hlo : s.mFirstFrame ≤ frameId) (hhi : frameId < s.mFirstFrame + s.mNumFrames) :
    seekToFrame D s frameId = seekInFile D s frameId := by
  have hr : ¬ (frameId < 0 ∨ frameId ≥ (s.mTotalNumFrames : Int)) := by omega
  have hin : ¬ (frameId < s.mFirstFrame ∨ frameId ≥ s.mFirstFrame + s.mNumFrames) := by omega
  unfold seekToFrame seekInFile
  simp only [hopen, hmode, hr, hin, if_true, if_false, Bool.not_true, Bool.false_or, ne_eq,
    not_true_eq_false, decide_False, Bool.false_eq_true]

theorem fileSeek_open (s : LadybugStream) (p : Nat) (hopen : s.mFile.isOpen = true) :
    (fileSeek s (p : Int)).2 = atPos s p := by
  simp [fileSeek, hopen, atPos]

theorem seekInFile_indexed (D : Decls) (hD : D.WF) (s : LadybugStream) (g : FileData)
    (images : List LadybugImage) (k : Nat)
    (hopen : s.mFile.isOpen = true) (hdisk : s.disk s.mFile.fileName = some g)
    (hfirst : s.mFirstFrame = 0)
    (hinc : s.mIndexIncrement = IDX_INCREMENT)
    (hcount : s.mOffsetCount = ((min 512 ((images.length + 49) / 50) : Nat) : Int))
    (hframes : FramesAt D g s.mDataOffset images)
    (hoffs : ∀ i, 0 < i → i < min 512 ((images.length + 49) / 50) → i < 128 →
      s.mOffsets i = s.mDataOffset + totalBytes (images.take (50 * i)))
    (hk : k < images.length) (hk2 : k < 6400) :
    seekInFile D s k
      = some (true, atPos { s with mCurrentFrame := k }
          (s.mDataOffset + totalBytes (images.take k))) := by
  have c1 : ¬ s.mIndexIncrement = 0 := by rw [hinc]; decide
  have hdiv : ((k : Int) - s.mFirstFrame) / (s.mIndexIncrement : Int) = ((k / 50 : Nat) : Int) := by
    rw [hfirst, hinc, sub_zero]
    rfl
  have hoi : (if ((k : Int) - s.mFirstFrame) / (s.mIndexIncrement : Int) ≥ s.mOffsetCount
      then s.mOffsetCount - 1
      else ((k : Int) - s.mFirstFrame) / (s.mIndexIncrement : Int)) = ((k / 50 : Nat) : Int) := by
    rw [hdiv, hcount, if_neg]
    push_cast
    omega
  unfold seekInFile
  dsimp only
  rw [if_neg c1, hoi]
  have c2 : ¬ (((k / 50 : Nat) : Int) > 0 ∧ ((k / 50 : Nat) : Int) ≥ 512) := by omega
  rw [if_neg c2]
  have hlen : ∀ a b, a + b ≤ images.length → ((images.drop a).take b).length = b := by
    intro a b hab
    rw [List.length_take, List.length_drop]
    omega
  by_cases hz : k / 50 = 0
  · have hnp : ¬ (((k / 50 : Nat) : Int) > 0) := by omega
    have hn : ((k : Int) - s.mFirstFrame).toNat = k := by
      rw [hfirst]
      omega
    rw [if_neg hnp, if_neg hnp, hn, fileSeek_open { s with mCurrentFrame := (k : Int) } _ hopen]
    have h := skipFrames_records D hD (images.take k)
      (atPos { s with mCurrentFrame := (k : Int) } s.mDataOffset) g hopen hdisk
      (framesAt_take D g _ images k hframes)
    rw [List.length_take, Nat.min_eq_left (le_of_lt hk)] at h
    rw [h]
    rfl
  · have hp : ((k / 50 : Nat) : Int) > 0 := by omega
    have hn : ((k : Int) - s.mFirstFrame - (s.mIndexIncrement : Int) * ((k / 50 : Nat) : Int)).toNat
        = k % 50 := by
      rw [hfirst, hinc]
      simp only [IDX_INCREMENT]
      omega
    rw [if_pos hp, if_pos hp, hn, Int.toNat_ofNat,
      fileSeek_open { s with mCurrentFrame := (k : Int) } _ hopen,
      hoffs (k / 50) (by omega) (by omega) (by omega)]
    have h := skipFrames_records D hD ((images.drop (50 * (k / 50))).take (k % 50))
      (atPos { s with mCurrentFrame := (k : Int) }
        (s.mDataOffset + totalBytes (images.take (50 * (k / 50))))) g hopen hdisk
      (framesAt_take D g _ _ _ (framesAt_drop D g _ images _ hframes))
    rw [hlen _ _ (by omega)] at h
    rw [h]
    have e : images.take k
        = images.take (50 * (k / 50)) ++ (images.drop (50 * (k / 50))).take (k % 50) := by
      rw [← List.take_add]
      congr 1
      omega
    rw [e, totalBytes_append]
    simp only [atPos, add_assoc]
/-- A populated key below 128 that `close` stored is found again at the same key after the
reload of the table. -/
theorem reloaded_offset (D : Decls) (hD : D.WF) (f : FileData) (numFrames oc : Nat)
    (offsets old : Nat → Nat) (i : Nat) (hi : i < oc) (hoc : oc ≤ 512) (h128 : i < 128) :
    loadOffsets D (headerOf D (patchHeader f numFrames (oc : Int) offsets)) old i
      = offsets i % 2 ^ 32 := by
  have ht := hD.tableInside
  have ho := hD.offsetTable
  rw [loadOffsets_apply D _ _ i (by omega), if_pos (Or.inl h128),
    headerOf_get32 D _ _ (by omega)]
  have e : 16 + (D.offOffsetTable + 4 * (511 - i)) = 16 + 0xbec - 4 * i := by omega
  rw [e]
  exact patchHeader_key f numFrames (oc : Int) offsets i (by simpa using hi) (by omega)

theorem framesAt_get (D : Decls) (g : FileData) (p : Nat) (images : List LadybugImage)
    (k : Nat) (image : LadybugImage) (h : FramesAt D g p images) (hk : images[k]? = some image) :
    RecordAt D g (p + totalBytes (images.take k)) image := by
  have h2 := framesAt_drop D g p images k h
  have hlt : k < images.length := by
    by_contra hc
    rw [List.getElem?_eq_none (by omega)] at hk
    cases hk
  have e : images.drop k = image :: images.drop (k + 1) := by
    rw [List.drop_eq_getElem_cons hlt]
    congr 1
    rw [List.getElem?_eq_getElem hlt] at hk
    exact Option.some.inj hk
  rw [e] at h2
  exact h2.1

/-- Seeking in a stream of the writer. On an engine with no open file, after `openForWriting`,
`writeImage` of every record of `images`, `close` and `openForReading`, for every frame number
`k` below the number of frames and below `6400` (the frames that the index reaches through keys
below 128): `seekToFrame(k)` succeeds and leaves the file position at the start of record `k`,
and the `readNextFrame` that follows returns the bytes of record `k`. -/
theorem seekToFrame_written (D : Decls) (hD : D.WF) (s0 : LadybugStream) (baseName : String)
    (cameraInfo : LadybugInfo) (fileIndex : Int) (images : List LadybugImage) (fuel : Nat)
    (k : Nat) (image img0 : LadybugImage)
    (hclosed : s0.mFile.isOpen = false)
    (hcreate : s0.creatable (pgrFilename baseName fileIndex) = true)
    (hnext : s0.disk (pgrFilename baseName (fileIndex + 1)) = none)
    (hwf : ∀ im ∈ images, WellFramed D im)
    (hraw : 16 + D.sizeofHead + cameraInfo.calibration.length < LIMIT_2GB)
    (hfit : dataOffsetOf D cameraInfo.calibration.length + totalBytes images < LIMIT_2GB)
    (hfuel : 2 ≤ fuel) (hk : images[k]? = some image) (hk2 : k < 6400) :
    ∃ s1 s2 s3 s4 s6 g out s7,
      openForWriting D s0 baseName cameraInfo fileIndex = (true, s1)
        ∧ writeAll D images s1 = some s2
        ∧ close s2 = (true, s3)
        ∧ openForReading D fuel s3 baseName fileIndex = some (true, s4)
        ∧ seekToFrame D s4 k = some (true, s6)
        ∧ s6 = atPos { s4 with mCurrentFrame := k }
            (dataOffsetOf D cameraInfo.calibration.length + totalBytes (images.take k))
        ∧ s6.disk s6.mFile.fileName = some g
        ∧ RecordAt D g s6.mFile.pos image
        ∧ readNextFrame D s6 img0 = some (true, out, s7)
        ∧ SameBytes out image
        ∧ s4.mFile.isOpen = true ∧ s4.mCurrentFrame = 0
        ∧ s4.mFile.pos = dataOffsetOf D cameraInfo.calibration.length := by
  have hlt : k < images.length := by
    by_contra hc
    rw [List.getElem?_eq_none (by omega)] at hk
    cases hk
  obtain ⟨s1, s2, s3, s4, g, h1, h2, h3, h4, hg, hopen4, hmode4, hd4, hpos4, hcur4, hfirst4,
    hnum4, htot4, hoc4, hinc4, hdo4, ⟨old, hold4⟩, hframes⟩ :=
    written_stream_reader D hD s0 baseName cameraInfo fileIndex images fuel hclosed hcreate hnext
      hwf hraw hfit hfuel
  have e1 := (openForWriting_inv D s0 s1 baseName cameraInfo fileIndex h1).1
  have hinv : WInv cameraInfo baseName s1 := by
    rw [e1]
    exact openedWriting_inv D { s0 with
      mTotalNumFrames := 0, mNumMegabytes := 0, mCameraInfo := cameraInfo } baseName fileIndex
  have hd1 : s1.disk s1.mFile.fileName = some (freshFile D cameraInfo) := by
    rw [e1]
    exact Function.update_same _ _ _
  have hp1 : s1.mFile.pos = dataOffsetOf D cameraInfo.calibration.length := by rw [e1]; rfl
  have hn1 : s1.mNumFrames = 0 := by rw [e1]; rfl
  have hoff := writeAll_inPlace_offsets D cameraInfo baseName images s1 s2
    (freshFile D cameraInfo) hinv hd1 (by rw [hp1]; exact hfit) h2
  have hL : LIMIT_2GB < 2 ^ 32 := by decide
  have hoffs : ∀ i, 0 < i → i < min 512 ((images.length + 49) / 50) → i < 128 →
      s4.mOffsets i = s4.mDataOffset + totalBytes (images.take (50 * i)) := by
    intro i _ hi h128
    have hc : i < 512 ∧ s1.mNumFrames ≤ 50 * i ∧ 50 * i < s1.mNumFrames + images.length := by
      rw [hn1]
      omega
    have hle : totalBytes (images.take (50 * i)) ≤ totalBytes images := by
      unfold totalBytes
      rw [List.map_take]
      exact sum_take_le_sum _ _
    rw [hold4, hg]
    unfold finalFile
    rw [reloaded_offset D hD _ _ _ _ _ i hi (by omega) h128, hoff i, if_pos hc, hn1, hp1,
      Nat.sub_zero, hdo4, Nat.mod_eq_of_lt (by omega)]
  have hseek := seekInFile_indexed D hD s4 g images k hopen4 hd4 hfirst4 hinc4 hoc4
    (by rw [hdo4]; exact hframes) hoffs hlt hk2
  have hseek2 : seekToFrame D s4 k = seekInFile D s4 k :=
    seekToFrame_eq_seekInFile D s4 k hopen4 hmode4 (by omega) (by rw [htot4]; omega)
      (by rw [hfirst4]; omega) (by rw [hfirst4, hnum4]; omega)
  have hseek3 : seekInFile D s4 k = some (true, atPos { s4 with mCurrentFrame := k }
      (dataOffsetOf D cameraInfo.calibration.length + totalBytes (images.take k))) := by
    rw [hseek, hdo4]
  have hrec := framesAt_get D g _ images k image hframes hk
  have hread := readNextFrame_inFile D hD
    (atPos { s4 with mCurrentFrame := k }
      (dataOffsetOf D cameraInfo.calibration.length + totalBytes (images.take k)))
    g image img0 hopen4 hmode4
    (by show (k : Int) < (s4.mTotalNumFrames : Int); rw [htot4]; omega)
    (by show s4.mFirstFrame ≤ (k : Int); rw [hfirst4]; omega)
    (by show (k : Int) < s4.mFirstFrame + (s4.mNumFrames : Int); rw [hfirst4, hnum4]; omega)
    hd4 hrec
  exact ⟨s1, s2, s3, s4, _, g, _, _, h1, h2, h3, h4, hseek2.trans hseek3, rfl, hd4, hrec, hread,
    frameAt_same D g _ image hrec, hopen4, hcur4, hpos4⟩
/-- The time fields of a record that lies in the file at offset `p`. -/
theorem secondsAt_record (D : Decls) (hI : D.InfoWF) (g : FileData) (p : Nat)
    (image : LadybugImage) (h : RecordAt D g p image) :
    secondsAt D g p = be32 image.frameData (D.sizeofImageHeader + D.offTimeSeconds)
      ∧ microSecondsAt D g p
          = be32 image.frameData (D.sizeofImageHeader + D.offTimeMicroSeconds) := by
  obtain ⟨_, hb, _, hlen, _⟩ := h
  have h1 := hI.secondsInside
  have h2 := hI.microInside
  constructor
  · unfold secondsAt be32
    rw [← hb _ (by omega), ← hb _ (by omega), ← hb _ (by omega), ← hb _ (by omega)]
    simp only [add_assoc]
  · unfold microSecondsAt be32
    rw [← hb _ (by omega), ← hb _ (by omega), ← hb _ (by omega), ← hb _ (by omega)]
    simp only [add_assoc]

/-- The time of a frame in a stream of the writer. After `openForWriting`, `writeImage` of
every record of `images`, `close` and `openForReading`, for every frame number `k` below the
number of frames and below `6400`, `frameTime(k)` returns
`seconds*1000 + floor(microseconds/1000)` modulo `2^32`, the fields being the big-endian time
fields of record `k`, and leaves the file position at the start of record `k`. -/
theorem frameTime_written (D : Decls) (hD : D.WF) (hI : D.InfoWF) (s0 : LadybugStream)
    (baseName : String) (cameraInfo : LadybugInfo) (fileIndex : Int)
    (images : List LadybugImage) (fuel : Nat) (k : Nat) (image : LadybugImage)
    (hclosed : s0.mFile.isOpen = false)
    (hcreate : s0.creatable (pgrFilename baseName fileIndex) = true)
    (hnext : s0.disk (pgrFilename baseName (fileIndex + 1)) = none)
    (hwf : ∀ im ∈ images, WellFramed D im)
    (hraw : 16 + D.sizeofHead + cameraInfo.calibration.length < LIMIT_2GB)
    (hfit : dataOffsetOf D cameraInfo.calibration.length + totalBytes images < LIMIT_2GB)
    (hfuel : 2 ≤ fuel) (hk : images[k]? = some image) (hk2 : k < 6400) :
    ∃ s1 s2 s3 s4 s6,
      openForWriting D s0 baseName cameraInfo fileIndex = (true, s1)
        ∧ writeAll D images s1 = some s2
        ∧ close s2 = (true, s3)
        ∧ openForReading D fuel s3 baseName fileIndex = some (true, s4)
        ∧ frameTime D s4 k
            = some ((be32 image.frameData (D.sizeofImageHeader + D.offTimeSeconds) * 1000
                + be32 image.frameData (D.sizeofImageHeader + D.offTimeMicroSeconds) / 1000)
                % 2 ^ 32, s6)
        ∧ s6.mFile.pos
            = dataOffsetOf D cameraInfo.calibration.length + totalBytes (images.take k) := by
  obtain ⟨s1, s2, s3, s4b, s6, g, out, s7, h1, h2, h3, h4, hseek, hs6, hd6, hrec, _, _, hopen4,
      hcur4, hpos4⟩ :=
    seekToFrame_written D hD s0 baseName cameraInfo fileIndex images fuel k image
      ⟨fun _ => 0, 0⟩ hclosed hcreate hnext hwf hraw hfit hfuel hk hk2
  have hopen6 : s6.mFile.isOpen = true := by rw [hs6]; exact hopen4
  have hp6 : s6.mFile.pos
      = dataOffsetOf D cameraInfo.calibration.length + totalBytes (images.take k) := by
    rw [hs6]
    rfl
  obtain ⟨hsec, hus⟩ := secondsAt_record D hI g s6.mFile.pos image hrec
  have hsz : s6.mFile.pos + D.sizeofImageHeader + D.sizeofImageInfo ≤ g.size := by
    have := hrec.1
    have := hrec.2.2.2.1
    omega
  by_cases hk0 : (k : Int) = s4b.mCurrentFrame
  · have hkz : k = 0 := by
      rw [hcur4] at hk0
      omega
    have hd4g : s4b.disk s4b.mFile.fileName = some g := by
      rw [hs6] at hd6
      exact hd6
    have hp4 : s4b.mFile.pos = s6.mFile.pos := by
      rw [hp6, hpos4, hkz]
      simp [totalBytes]
    rw [← hp4] at hsz hsec hus
    refine ⟨s1, s2, s3, s4b, s4b, h1, h2, h3, h4, ?_, ?_⟩
    · rw [frameTime_core D hI s4b s4b k g (by rw [if_neg (by simpa using hk0)]) hopen4 hd4g hsz,
        hsec, hus]
    · rw [hp4, hp6]
  · refine ⟨s1, s2, s3, s4b, s6, h1, h2, h3, h4, ?_, hp6⟩
    rw [frameTime_core D hI s4b s6 k g (by rw [if_pos hk0, hseek]; rfl) hopen6 hd6 hsz,
      hsec, hus]

/-! ## A file with the next index on disk -/

/-- C1 (the claim as stated fails). When a file with the next index is on disk, the probe of
`openForReading` counts its frames too: with a one-frame file "s"-000001 from an earlier
session, the recording of `N = 1` well-framed record at index 0 (`openForWriting`,
`writeImage`, `close` all succeed) is reopened with 2 frames in 2 files, and the second
`readNextFrame` succeeds and returns the 33-byte record of the other file instead of
failing. -/
theorem round_trip_stale_next_file :
    demoStale.mFile.isOpen = false
      ∧ (demoStale.disk (pgrFilename "s" 1)).isSome = true
      ∧ WellFramed demoDecls (demoFrame 40 1)
      ∧ (openForWriting demoDecls demoStale "s" demoInfo 0).1 = true
      ∧ (writeImage demoDecls (openForWriting demoDecls demoStale "s" demoInfo 0).2
          (demoFrame 40 1)).map (fun r => r.1) = some true
      ∧ (close (afterWrite demoDecls (openForWriting demoDecls demoStale "s" demoInfo 0).2
          (demoFrame 40 1))).1 = true
      ∧ (openForReading demoDecls 3 demoStaleClosed "s" 0).map (fun r => r.1) = some true
      ∧ [demoFrame 40 1].length = 1
      ∧ demoStaleReading.mTotalNumFrames = 2 ∧ demoStaleReading.mTotalNumFiles = 2
      ∧ (readAll demoDecls 2 demoStaleReading).map
          (fun r => r.1.map (fun im => (im.frameBytes, im.frameData 0)))
          = some [(40, 1), (33, 7)] := by
  refine ⟨by decide, by decide, by decide, by decide, by decide, by decide, by decide,
    by decide, by decide, by decide, by decide⟩

/-! ## The time of a frame in a stream of the writer -/

/-- From the state with the cursor at frame `c`, `readNextFrame` returns record `c` and leads
to the state with the cursor at frame `c + 1`. -/
theorem readNextFrame_cursorAt (D : Decls) (hD : D.WF) (s : LadybugStream) (g : FileData)
    (images : List LadybugImage) (c : Nat) (image img0 : LadybugImage)
    (hopen : s.mFile.isOpen = true) (hmode : s.mMode = Mode.Reading)
    (hdisk : s.disk s.mFile.fileName = some g)
    (hfirst : s.mFirstFrame = 0) (hnum : s.mNumFrames = images.length)
    (htot : s.mTotalNumFrames = images.length)
    (hframes : FramesAt D g s.mDataOffset images)
    (hc : images[c]? = some image) :
    ∃ out, readNextFrame D (cursorAt s s.mDataOffset images c) img0
        = some (true, out, cursorAt s s.mDataOffset images (c + 1))
      ∧ SameBytes out image := by
  have hlt : c < images.length := by
    by_contra hn
    rw [List.getElem?_eq_none (by omega)] at hc
    cases hc
  have hrec := framesAt_get D g _ images c image hframes hc
  have hread := readNextFrame_inFile D hD (cursorAt s s.mDataOffset images c) g image img0
    hopen hmode
    (by show (c : Int) < (s.mTotalNumFrames : Int); rw [htot]; omega)
    (by show s.mFirstFrame ≤ (c : Int); rw [hfirst]; omega)
    (by show (c : Int) < s.mFirstFrame + (s.mNumFrames : Int); rw [hfirst, hnum]; omega)
    hdisk hrec
  refine ⟨_, ?_, frameAt_same D g _ image hrec⟩
  rw [hread]
  have e : totalBytes (images.take (c + 1)) = totalBytes (images.take c) + image.frameBytes := by
    rw [List.take_succ, hc, totalBytes_append]
    simp [totalBytes]
  simp only [cursorAt, atPos, readState, e, Nat.cast_add, Nat.cast_one, add_assoc]

/-- The values of the two-frame example: the data offset is 3584, the record of frame 1 starts
at 3624, its time fields hold `33686018`, and the wrapped time is `3621280614`. -/
theorem frameTime_demo_values :
    dataOffsetOf demoDecls demoInfo.calibration.length = 3584
      ∧ totalBytes ([demoFrame 40 1, demoFrame 33 2].take 1) = 40
      ∧ be32 (demoFrame 33 2).frameData
          (demoDecls.sizeofImageHeader + demoDecls.offTimeSeconds) = 33686018
      ∧ (33686018 * 1000 + 33686018 / 1000) % 2 ^ 32 = 3621280614
      ∧ (frameTime demoDecls (cursorAt demoReading 3584 [demoFrame 40 1, demoFrame 33 2] 2) 1).map
          (fun r => (r.1, r.2.mFile.pos, r.2.mCurrentFrame)) = some (3621280614, 3624, 1) := by
  refine ⟨by decide, by decide, by decide, by decide, by decide⟩

/-- At a file boundary `frameTime` does not change file. In the two-file example recording,
with file 0 open and the cursor at frame 1 (the first frame of file 1), `readNextFrame` would
reseek and return that frame, but `frameTime(1)` finds the cursor already at frame 1, reads at
the end of file 0 and returns 0. -/
theorem frameTime_at_file_boundary :
    demoAtBoundary.mCurrentFrame = 1 ∧ demoAtBoundary.mTotalNumFrames = 2
      ∧ demoAtBoundary.mFileIndex = 0
      ∧ (readNextFrame demoDecls demoAtBoundary ⟨fun _ => 0, 0⟩).map (fun r => r.1) = some true
      ∧ (frameTime demoDecls demoAtBoundary 1).map (fun r => r.1) = some 0 := by
  refine ⟨by decide, by decide, by decide, by decide, by decide⟩

end Ladybug
